import Mathlib

/-!
# Emprega-Bem API: authentication core

A shallow embedding of the credential and token code of the repository
(`internal/auth`, `internal/repository/password_reset.go`,
`internal/http/handlers/password_reset.go`) and the properties proved about it.

Conventions of the embedding.

* A Go `string` is a Lean `String`; Go's `len` is the UTF-8 byte count.
* An instant (`time.Time`) is a natural number of nanoseconds since the Unix
  epoch; every call of `time.Now()` inside one operation reads the same instant,
  which the operation receives as the argument `now`.
* Package-level state (`jwtSecret`) and the database collections are passed
  explicitly.
* The third-party libraries (golang-jwt, bcrypt, the Unicode case table, the
  MongoDB driver faults, `crypto/rand`) are parameters: a structure of functions
  with the laws the proofs rely on, or an argument of the operation.
-/

namespace EmpregaBem

/-! ## Go primitives -/

/-- Go's builtin `len` on a string: the number of bytes of its UTF-8 encoding. -/
def len (s : String) : Nat := s.utf8ByteSize

/-- Instants, in nanoseconds since the Unix epoch. -/
abbrev Time := Nat

namespace time

def Second : Nat := 1000000000
def Minute : Nat := 60 * Second
def Hour : Nat := 60 * Minute

end time

namespace strings

/-- Pieces of a character list between occurrences of `sep`
(`strings.Split` with a one-character separator, on the runes). -/
def splitChars (sep : Char) : List Char → List (List Char)
  | [] => [[]]
  | c :: cs =>
    if c = sep then [] :: splitChars sep cs
    else
      match splitChars sep cs with
      | [] => [[c]]
      | p :: ps => (c :: p) :: ps

/-- Go's `strings.Split(s, sep)` for a one-character separator. -/
def Split (s : String) (sep : Char) : List String :=
  (splitChars sep s.data).map String.mk

end strings

namespace unicode

/-- Go's `unicode.IsSpace`: the White_Space property. -/
def IsSpace (c : Char) : Bool :=
  let n := c.toNat
  (0x09 ≤ n && n ≤ 0x0D) || n == 0x20 || n == 0x85 || n == 0xA0 || n == 0x1680 ||
  (0x2000 ≤ n && n ≤ 0x200A) || n == 0x2028 || n == 0x2029 || n == 0x202F ||
  n == 0x205F || n == 0x3000

/-- The case table behind Go's `unicode.ToLower`, with what the source of
`strings.ToLower` fixes about it: on ASCII it moves `A`..`Z` to `a`..`z` and
nothing else. -/
structure CaseTable where
  ToLower : Char → Char
  ascii : ∀ c : Char, c.toNat < 128 → ToLower c = c.toLower

end unicode

namespace strings

/-- Go's `strings.TrimSpace`: drops leading and trailing white space. -/
def TrimSpace (s : String) : String :=
  String.mk ((s.data.dropWhile unicode.IsSpace).reverse.dropWhile unicode.IsSpace).reverse

/-- Go's `strings.ToLower`: maps every rune through `unicode.ToLower`. -/
def ToLower (U : unicode.CaseTable) (s : String) : String :=
  String.mk (s.data.map U.ToLower)

end strings

/-- The bytes `s[0]`, ..., `s[len(s)-1]` of a Go string. -/
def bytes (s : String) : List Nat :=
  s.data.flatMap fun c => (String.utf8EncodeChar c).map UInt8.toNat

namespace hex

/-- The constant `hextable` of encoding/hex, as its characters. -/
def hextable : List Char := "0123456789abcdef".data

/-- Go's `hex.EncodeToString`: two lower-case digits per byte, high nibble first. -/
def EncodeToString (src : List Nat) : String :=
  String.mk (src.flatMap fun b => [hextable.getD (b / 16 % 16) '0', hextable.getD (b % 16) '0'])

end hex

namespace hex

/-- The function `fromHexChar` of encoding/hex: the value of a hexadecimal digit, in
either case. -/
def fromHexChar (c : Char) : Option Nat :=
  if '0' ≤ c ∧ c ≤ '9' then some (c.toNat - '0'.toNat)
  else if 'a' ≤ c ∧ c ≤ 'f' then some (c.toNat - 'a'.toNat + 10)
  else if 'A' ≤ c ∧ c ≤ 'F' then some (c.toNat - 'A'.toNat + 10)
  else none

/-- The loop of `hex.Decode`: one byte per pair of digits; `none` is an error (a character
that is no digit, or an odd length). -/
def decode : List Char → Option (List Nat)
  | [] => some []
  | [_] => none
  | a :: b :: rest =>
    match fromHexChar a, fromHexChar b, decode rest with
    | some x, some y, some bs => some ((x * 16 + y) :: bs)
    | _, _, _ => none

/-- Go's `hex.DecodeString`. -/
def DecodeString (s : String) : Option (List Nat) := decode s.data

end hex

namespace utf8

/-- Go's `utf8.AppendRune` for a valid rune `r`: the bytes of its UTF-8 encoding. -/
def encodeRune (r : Nat) : List Nat :=
  if r ≤ 0x7f then [r]
  else if r ≤ 0x7ff then [0xc0 + r / 64 % 32, 0x80 + r % 64]
  else if r ≤ 0xffff then [0xe0 + r / 4096 % 16, 0x80 + r / 64 % 64, 0x80 + r % 64]
  else [0xf0 + r / 262144 % 8, 0x80 + r / 4096 % 64, 0x80 + r / 64 % 64, 0x80 + r % 64]

end utf8

namespace rand

/-- The entropy one call of `crypto/rand.Read` draws on: `none` when the call
returns an error, otherwise the stream the buffer is filled from. -/
abbrev Source := Option (Nat → Nat)

/-- Go's `rand.Read(b)` for a buffer of `n` bytes. -/
def Read (src : Source) (n : Nat) : Option (List Nat) :=
  src.map fun f => (List.range n).map fun i => f i % 256

end rand

namespace bcrypt

/-- The two functions of golang.org/x/crypto/bcrypt the repository calls.
`GenerateFromPassword password cost salt` is `none` when the library returns
an error; `CompareHashAndPassword hash password` is true when it returns nil.
The law: a digest the library produced matches the password it was made from. -/
structure Lib where
  GenerateFromPassword : String → Nat → rand.Source → Option String
  CompareHashAndPassword : String → String → Bool
  compare_generate : ∀ password cost salt d,
    GenerateFromPassword password cost salt = some d → CompareHashAndPassword d password = true

end bcrypt

/-! ## golang-jwt/v5 -/

namespace jwt

/-- Hash functions named by the registered signing methods. -/
inductive Hash
  | SHA256 | SHA384 | SHA512
  deriving DecidableEq, Repr

/-- The signing methods golang-jwt registers, by Go type:
`*SigningMethodHMAC`, `*SigningMethodRSA`, `*SigningMethodRSAPSS`,
`*SigningMethodECDSA`, `*SigningMethodEd25519` and the `none` method. -/
inductive SigningMethod
  | HMAC (h : Hash)
  | RSA (h : Hash)
  | RSAPSS (h : Hash)
  | ECDSA (h : Hash)
  | Ed25519
  | None
  deriving DecidableEq, Repr

/-- The method value `jwt.SigningMethodHS256`. -/
def SigningMethodHS256 : SigningMethod := .HMAC .SHA256

/-- The `alg` header value of a method (`SigningMethod.Alg`). -/
def SigningMethod.Alg : SigningMethod → String
  | .HMAC .SHA256 => "HS256"
  | .HMAC .SHA384 => "HS384"
  | .HMAC .SHA512 => "HS512"
  | .RSA .SHA256 => "RS256"
  | .RSA .SHA384 => "RS384"
  | .RSA .SHA512 => "RS512"
  | .RSAPSS .SHA256 => "PS256"
  | .RSAPSS .SHA384 => "PS384"
  | .RSAPSS .SHA512 => "PS512"
  | .ECDSA .SHA256 => "ES256"
  | .ECDSA .SHA384 => "ES384"
  | .ECDSA .SHA512 => "ES512"
  | .Ed25519 => "EdDSA"
  | .None => "none"

/-- The registry `signingMethods` that the library's `init` functions fill. -/
def signingMethods : List (String × SigningMethod) :=
  [("HS256", .HMAC .SHA256), ("HS384", .HMAC .SHA384), ("HS512", .HMAC .SHA512),
   ("RS256", .RSA .SHA256), ("RS384", .RSA .SHA384), ("RS512", .RSA .SHA512),
   ("PS256", .RSAPSS .SHA256), ("PS384", .RSAPSS .SHA384), ("PS512", .RSAPSS .SHA512),
   ("ES256", .ECDSA .SHA256), ("ES384", .ECDSA .SHA384), ("ES512", .ECDSA .SHA512),
   ("EdDSA", .Ed25519), ("none", .None)]

/-- The registry lookup `jwt.GetSigningMethod(alg)`; `none` is Go's nil. -/
def GetSigningMethod (alg : String) : Option SigningMethod :=
  (signingMethods.find? fun p => p.1 == alg).map fun p => p.2

/-- The type assertion `method.(*jwt.SigningMethodHMAC)`. -/
def SigningMethod.isHMAC : SigningMethod → Bool
  | .HMAC _ => true
  | _ => false

/-- A `*jwt.NumericDate`: whole seconds since the Unix epoch
(`jwt.TimePrecision` is one second). -/
abbrev NumericDate := Nat

/-- The constructor `jwt.NewNumericDate(t)`: truncates `t` to the second. -/
def NewNumericDate (t : Time) : NumericDate := t / time.Second

/-- The instant a numeric date denotes. -/
def NumericDate.Time (d : NumericDate) : Time := d * time.Second

/-- The struct `jwt.RegisteredClaims`. Absent dates are Go's nil pointers. -/
structure RegisteredClaims where
  Issuer : String := ""
  Subject : String := ""
  Audience : List String := []
  ExpiresAt : Option NumericDate := none
  NotBefore : Option NumericDate := none
  IssuedAt : Option NumericDate := none
  ID : String := ""
  deriving DecidableEq, Repr

/-- Errors of `Parser.ParseWithClaims`, by the sentinel they wrap. -/
inductive Error
  /-- ErrTokenMalformed: not three segments, or a segment that does not decode. -/
  | malformed
  /-- ErrTokenUnverifiable: the header has no string `alg`. -/
  | algUnspecified
  /-- ErrTokenUnverifiable: `alg` names no registered method. -/
  | algUnavailable
  /-- ErrTokenUnverifiable wrapping the error the Keyfunc returned. -/
  | keyfunc (msg : String)
  /-- ErrTokenSignatureInvalid. -/
  | signatureInvalid
  /-- ErrTokenInvalidClaims, joining ErrTokenExpired and ErrTokenNotValidYet as they apply. -/
  | invalidClaims (expired notValidYet : Bool)
  deriving DecidableEq, Repr

/-- The struct `jwt.Token` as `ParseWithClaims` returns it. -/
structure Token (α : Type) where
  Raw : String
  Method : SigningMethod
  Claims : α
  Signature : String
  Valid : Bool

end jwt

/-! ## internal/auth: claim types and the library parameter -/

namespace auth

/-- The struct `auth.Claims` (jwt.go): `id`, `type` and the embedded registered claims. -/
structure Claims where
  ID : String := ""
  Type_ : String := ""
  RegisteredClaims : jwt.RegisteredClaims := {}
  deriving DecidableEq, Repr

/-- The struct `auth.ResetTokenClaims` (password_reset.go). -/
structure ResetTokenClaims where
  Email : String := ""
  UserType : String := ""
  TokenHash : String := ""
  RegisteredClaims : jwt.RegisteredClaims := {}
  deriving DecidableEq, Repr

end auth

namespace jwt

/-- The wire codec and MAC of golang-jwt, which the repository only calls.

* `encodeHeader alg` is the header segment, base64url of the JSON object
  with `alg` and `typ`; `decodeHeader` decodes a header segment and reads its
  `alg` entry (`some none`: a JSON object without a string `alg`).
* `encodeClaims` and `decodeClaims` are `json.Marshal` and `json.Unmarshal` of
  `auth.Claims` composed with base64url; `encodeReset` and `decodeReset` the
  same for `auth.ResetTokenClaims`.
* `mac h key text` is the HMAC of `text` under `key`; `encodeSegment` and
  `decodeSegment` are base64url on the signature bytes.

The laws are what the proofs use of the library: decoding inverts encoding
(a Lean string is valid UTF-8 and a date a whole number of seconds, which the
library carries through a float64 exactly below 2^53); a payload written from
one claims struct and read into the other keeps the registered claims and
leaves the other fields at their zero value (their JSON keys are disjoint);
segments are free of the separator; and a payload segment has at least as
many bytes as the `id` it carries has characters. -/
structure Lib where
  encodeHeader : String → String
  decodeHeader : String → Option (Option String)
  encodeClaims : auth.Claims → String
  decodeClaims : String → Option auth.Claims
  encodeReset : auth.ResetTokenClaims → String
  decodeReset : String → Option auth.ResetTokenClaims
  mac : Hash → String → String → List Nat
  encodeSegment : List Nat → String
  decodeSegment : String → Option (List Nat)
  header_roundtrip : ∀ alg, decodeHeader (encodeHeader alg) = some (some alg)
  claims_roundtrip : ∀ c, decodeClaims (encodeClaims c) = some c
  reset_roundtrip : ∀ c, decodeReset (encodeReset c) = some c
  reset_of_claims : ∀ c : auth.Claims,
    decodeReset (encodeClaims c) = some { RegisteredClaims := c.RegisteredClaims }
  claims_of_reset : ∀ c : auth.ResetTokenClaims,
    decodeClaims (encodeReset c) = some { RegisteredClaims := c.RegisteredClaims }
  segment_roundtrip : ∀ h key text,
    decodeSegment (encodeSegment (mac h key text)) = some (mac h key text)
  header_nodot : ∀ alg, '.' ∉ (encodeHeader alg).data
  claims_nodot : ∀ c, '.' ∉ (encodeClaims c).data
  reset_nodot : ∀ c, '.' ∉ (encodeReset c).data
  segment_nodot : ∀ bs, '.' ∉ (encodeSegment bs).data
  claims_size : ∀ c : auth.Claims, c.ID.length ≤ len (encodeClaims c)

/-- The method `Token.SignedString(key)` of a token made by `jwt.NewWithClaims`
with an HMAC method: header, payload and signature segments joined by dots. -/
def SignedString {α : Type} (L : Lib) (encode : α → String) (h : Hash) (claims : α)
    (key : String) : String :=
  let sstr := L.encodeHeader (SigningMethod.HMAC h).Alg ++ "." ++ encode claims
  sstr ++ "." ++ L.encodeSegment (L.mac h key sstr)

/-- The method `SigningMethod.Verify(signingString, sig, key)` for a key that is a
byte slice: the HMAC methods recompute the MAC and compare; every other method
rejects a byte-slice key. -/
def Verify (L : Lib) (m : SigningMethod) (signingString : String) (sig : List Nat)
    (key : String) : Bool :=
  match m with
  | .HMAC h => sig == L.mac h key signingString
  | _ => false

/-- The method `Validator.Validate` with the default options: `exp`, when present, must
be after `now`; `nbf`, when present, must not be after `now`; `iat` is not checked. -/
def Validate (now : Time) (c : RegisteredClaims) : Option Error :=
  let expired : Bool :=
    match c.ExpiresAt with
    | none => false
    | some e => !decide (now < e.Time)
  let notValidYet : Bool :=
    match c.NotBefore with
    | none => false
    | some n => decide (now < n.Time)
  if expired || notValidYet then some (.invalidClaims expired notValidYet) else none

/-- The function `jwt.ParseWithClaims(tokenString, claims, keyFunc)`: split, decode
header and payload, look the method up, decode the signature, ask `keyFunc`
for the key, verify the signature, validate the registered claims. -/
def ParseWithClaims {α : Type} (L : Lib) (decode : String → Option α)
    (registered : α → RegisteredClaims) (now : Time) (tokenString : String)
    (keyFunc : Token α → Except String String) : Except Error (Token α) :=
  match strings.Split tokenString '.' with
  | [p0, p1, p2] =>
    match L.decodeHeader p0 with
    | none => .error .malformed
    | some header =>
      match decode p1 with
      | none => .error .malformed
      | some claims =>
        match header with
        | none => .error .algUnspecified
        | some alg =>
          match GetSigningMethod alg with
          | none => .error .algUnavailable
          | some method =>
            match L.decodeSegment p2 with
            | none => .error .malformed
            | some sig =>
              let token : Token α :=
                { Raw := tokenString, Method := method, Claims := claims,
                  Signature := p2, Valid := false }
              match keyFunc token with
              | .error msg => .error (.keyfunc msg)
              | .ok key =>
                if Verify L method (p0 ++ "." ++ p1) sig key then
                  match Validate now (registered claims) with
                  | some err => .error err
                  | none => .ok { token with Valid := true }
                else .error .signatureInvalid
  | _ => .error .malformed

end jwt

/-! ## internal/auth/jwt.go and internal/auth/password_reset.go -/

namespace auth

/-- Errors returned by the validators of package `auth`. -/
inductive Error
  /-- "JWT secret não inicializado". -/
  | secretNotInitialized
  /-- "token muito grande". -/
  | tokenTooLarge
  /-- The error of `jwt.ParseWithClaims`, returned as it is. -/
  | parse (err : jwt.Error)
  /-- "issuer inválido". -/
  | invalidIssuer
  /-- "token não é de reset de senha". -/
  | notResetToken
  /-- "token de reset expirado". -/
  | resetExpired
  /-- "token inválido". -/
  | invalidToken
  /-- The error of `rand.Read`. -/
  | rand
  /-- The error of `bcrypt.GenerateFromPassword`. -/
  | bcrypt
  deriving DecidableEq, Repr

def bcryptCost : Nat := 12

def minPasswordLength : Nat := 8

/-- The characters of the class in the pattern for `hasSpecial`. -/
def specialChars : List Char :=
  ['!', '@', '#', '$', '%', '^', '&', '*', '(', ')', '_', '+', '-', '=', '[', ']',
   '\x7b', '\x7d', ';', '\x27', ':', '"', '\\', '|', ',', '.', '<', '>', '/', '?']

/-- The function `ValidatePasswordStrength(password)`: the text of the error returned,
`none` for nil. -/
def ValidatePasswordStrength (password : String) : Option String :=
  if len password < minPasswordLength then some "senha deve ter no mínimo 8 caracteres"
  else
    let hasUpper := password.data.any fun c => 'A' ≤ c && c ≤ 'Z'
    let hasLower := password.data.any fun c => 'a' ≤ c && c ≤ 'z'
    let hasNumber := password.data.any fun c => '0' ≤ c && c ≤ '9'
    let hasSpecial := password.data.any fun c => specialChars.contains c
    if !hasUpper || !hasLower || !hasNumber || !hasSpecial then
      some "senha deve conter letras maiúsculas, minúsculas, números e caracteres especiais"
    else none

/-- The function `HashPassword(password)`. -/
def HashPassword (B : bcrypt.Lib) (salt : rand.Source) (password : String) :
    Except Error String :=
  match B.GenerateFromPassword password bcryptCost salt with
  | none => .error .bcrypt
  | some d => .ok d

/-- The function `CheckPasswordHash(password, hash)`. -/
def CheckPasswordHash (B : bcrypt.Lib) (password hash : String) : Bool :=
  let boolToByte : Bool → Nat := fun b => if b then 1 else 0
  [boolToByte (B.CompareHashAndPassword hash password)] == [1]

/-- Result of `Initialize`: whether it panicked, and the package variable afterwards. -/
structure InitResult where
  panicked : Option String
  jwtSecret : String
  deriving DecidableEq, Repr

/-- The function `Initialize(secret)`, run with the package variable holding `jwtSecret`. -/
def Initialize (jwtSecret : String) (secret : String) : InitResult :=
  if len secret < 32 then
    { panicked := some "JWT_SECRET deve ter no mínimo 32 caracteres", jwtSecret := jwtSecret }
  else
    { panicked := none, jwtSecret := secret }

/-- The function `GenerateToken(id, userType)`. -/
def GenerateToken (L : jwt.Lib) (jwtSecret : String) (now : Time) (id userType : String) :
    Except Error String :=
  if len jwtSecret = 0 then .error .secretNotInitialized
  else
    let claims : Claims :=
      { ID := id
        Type_ := userType
        RegisteredClaims :=
          { ExpiresAt := some (jwt.NewNumericDate (now + 24 * time.Hour))
            IssuedAt := some (jwt.NewNumericDate now)
            NotBefore := some (jwt.NewNumericDate now)
            Issuer := "empregabem-api" } }
    .ok (jwt.SignedString L L.encodeClaims .SHA256 claims jwtSecret)

/-- The Keyfunc both validators pass to `ParseWithClaims`. -/
def keyFunc {α : Type} (jwtSecret : String) (token : jwt.Token α) : Except String String :=
  if !token.Method.isHMAC then .error "algoritmo de assinatura inválido"
  else .ok jwtSecret

/-- The function `ValidateToken(tokenString)`. -/
def ValidateToken (L : jwt.Lib) (jwtSecret : String) (now : Time) (tokenString : String) :
    Except Error Claims :=
  if len jwtSecret = 0 then .error .secretNotInitialized
  else if len tokenString > 1024 then .error .tokenTooLarge
  else
    match jwt.ParseWithClaims L L.decodeClaims (fun c => c.RegisteredClaims) now tokenString
        (keyFunc jwtSecret) with
    | .error err => .error (.parse err)
    | .ok token =>
      if token.Valid then
        if token.Claims.RegisteredClaims.Issuer ≠ "empregabem-api" then .error .invalidIssuer
        else .ok token.Claims
      else .error .invalidToken

/-- The function `SanitizeEmail(email)`. -/
def SanitizeEmail (U : unicode.CaseTable) (email : String) : String :=
  strings.ToLower U (strings.TrimSpace email)

/-- The function `hashString(s)`: every byte xor 0xAA, in hexadecimal. -/
def hashString (s : String) : String :=
  hex.EncodeToString ((bytes s).map fun b => b ^^^ 0xAA)

/-- The function `GenerateSecureToken(length)`. -/
def GenerateSecureToken (src : rand.Source) (length : Nat) : Except Error String :=
  match rand.Read src length with
  | none => .error .rand
  | some bs => .ok (hex.EncodeToString bs)

/-- The function `GeneratePasswordResetToken(email, userType)`: the signed token and
the unique token meant for the e-mail. -/
def GeneratePasswordResetToken (L : jwt.Lib) (U : unicode.CaseTable) (jwtSecret : String)
    (now : Time) (src : rand.Source) (email userType : String) :
    Except Error (String × String) :=
  if len jwtSecret = 0 then .error .secretNotInitialized
  else
    match rand.Read src 32 with
    | none => .error .rand
    | some randomBytes =>
      let uniqueToken := hex.EncodeToString randomBytes
      let tokenHash := hashString uniqueToken
      let claims : ResetTokenClaims :=
        { Email := SanitizeEmail U email
          UserType := userType
          TokenHash := tokenHash
          RegisteredClaims :=
            { ExpiresAt := some (jwt.NewNumericDate (now + 15 * time.Minute))
              IssuedAt := some (jwt.NewNumericDate now)
              NotBefore := some (jwt.NewNumericDate now)
              Issuer := "empregabem-api-reset" } }
      .ok (jwt.SignedString L L.encodeReset .SHA256 claims jwtSecret, uniqueToken)

/-- The function `ValidatePasswordResetToken(tokenString)`. -/
def ValidatePasswordResetToken (L : jwt.Lib) (jwtSecret : String) (now : Time)
    (tokenString : String) : Except Error ResetTokenClaims :=
  if len jwtSecret = 0 then .error .secretNotInitialized
  else if len tokenString > 1024 then .error .tokenTooLarge
  else
    match jwt.ParseWithClaims L L.decodeReset (fun c => c.RegisteredClaims) now tokenString
        (keyFunc jwtSecret) with
    | .error err => .error (.parse err)
    | .ok token =>
      if token.Valid then
        if token.Claims.RegisteredClaims.Issuer ≠ "empregabem-api-reset" then
          .error .notResetToken
        else
          match token.Claims.RegisteredClaims.ExpiresAt with
          | some e => if e.Time < now then .error .resetExpired else .ok token.Claims
          | none => .ok token.Claims
      else .error .invalidToken

end auth

/-! ## The document store -/

namespace bson

/-- A `bson.ObjectID`, as a number. -/
abbrev ObjectID := Nat

/-- A `time.Time` written to a document and read back: BSON keeps milliseconds. -/
def DateTime (t : Time) : Time := t / 1000000 * 1000000

end bson

namespace mongo

/-- Errors of the driver: the sentinel `mongo.ErrNoDocuments`, or any other
(network, server, write error). -/
inductive Error
  | ErrNoDocuments
  | other
  deriving DecidableEq, Repr

/-- The call `UpdateOne(filter, update)`: the first matching document is updated. -/
def updateOne {α : Type} (filter : α → Bool) (update : α → α) : List α → List α
  | [] => []
  | d :: ds => if filter d then update d :: ds else d :: updateOne filter update ds

/-- The call `UpdateMany(filter, update)`: every matching document is updated. -/
def updateMany {α : Type} (filter : α → Bool) (update : α → α) (coll : List α) : List α :=
  coll.map fun d => if filter d then update d else d

end mongo

namespace models

/-- The struct `models.PasswordReset`. -/
structure PasswordReset where
  ID : bson.ObjectID := 0
  Email : String := ""
  UserType : String := ""
  Token : String := ""
  TokenHash : String := ""
  Used : Bool := false
  CreatedAt : Time := 0
  ExpiresAt : Time := 0
  UsedAt : Option Time := none
  deriving DecidableEq, Repr

end models

namespace candidates

/-- The struct `candidates.Experience`. -/
structure Experience where
  Title : String := ""
  Company : String := ""
  StartDate : String := ""
  EndDate : String := ""
  IsCurrent : Bool := false
  Description : String := ""
  deriving DecidableEq, Repr

/-- The struct `candidates.Candidate`. -/
structure Candidate where
  ID : bson.ObjectID := 0
  Name : String := ""
  Email : String := ""
  Password : String := ""
  Phone : String := ""
  Resume : String := ""
  Skills : List String := []
  Experiences : List Experience := []
  Location : String := ""
  LinkedIn : String := ""
  GitHub : String := ""
  Portfolio : String := ""
  CreatedAt : Time := 0
  UpdatedAt : Time := 0
  deriving DecidableEq, Repr

/-- The update document `$set: candidate`: fields tagged `omitempty` that are empty
in the struct are left as stored. -/
def setDocument (candidate stored : Candidate) : Candidate :=
  { candidate with
    Resume := if candidate.Resume = "" then stored.Resume else candidate.Resume
    Skills := if candidate.Skills = [] then stored.Skills else candidate.Skills
    Experiences :=
      if candidate.Experiences = [] then stored.Experiences else candidate.Experiences
    LinkedIn := if candidate.LinkedIn = "" then stored.LinkedIn else candidate.LinkedIn
    GitHub := if candidate.GitHub = "" then stored.GitHub else candidate.GitHub
    Portfolio := if candidate.Portfolio = "" then stored.Portfolio else candidate.Portfolio
    CreatedAt := bson.DateTime candidate.CreatedAt
    UpdatedAt := bson.DateTime candidate.UpdatedAt }

/-- The method `MongoRepository.GetByEmail`; `fault` is a failing driver call. -/
def GetByEmail (coll : List Candidate) (fault : Bool) (email : String) :
    Except mongo.Error Candidate :=
  if fault then .error .other
  else
    match coll.find? fun d => d.Email == email with
    | some d => .ok d
    | none => .error .ErrNoDocuments

/-- The method `MongoRepository.Update`: the collection afterwards and the error. -/
def Update (coll : List Candidate) (now : Time) (fault : Bool) (candidate : Candidate) :
    List Candidate × Option mongo.Error :=
  let candidate := { candidate with UpdatedAt := now }
  if fault then (coll, some .other)
  else (mongo.updateOne (fun d => d.ID == candidate.ID) (setDocument candidate) coll, none)

end candidates

namespace companies

/-- The struct `companies.Company`. -/
structure Company where
  ID : bson.ObjectID := 0
  Name : String := ""
  LegalName : String := ""
  CNPJ : String := ""
  Email : String := ""
  Password : String := ""
  Phone : String := ""
  Website : String := ""
  Logo : String := ""
  About : String := ""
  EmployeeCount : String := ""
  Location : String := ""
  Sector : String := ""
  VerificationStatus : String := ""
  CreatedAt : Time := 0
  UpdatedAt : Time := 0
  deriving DecidableEq, Repr

/-- The update document `$set: company`: fields tagged `omitempty` that are empty in
the struct are left as stored. -/
def setDocument (company stored : Company) : Company :=
  { company with
    Website := if company.Website = "" then stored.Website else company.Website
    Logo := if company.Logo = "" then stored.Logo else company.Logo
    About := if company.About = "" then stored.About else company.About
    EmployeeCount :=
      if company.EmployeeCount = "" then stored.EmployeeCount else company.EmployeeCount
    Sector := if company.Sector = "" then stored.Sector else company.Sector
    CreatedAt := bson.DateTime company.CreatedAt
    UpdatedAt := bson.DateTime company.UpdatedAt }

/-- The method `MongoRepository.GetByEmail`; `fault` is a failing driver call. -/
def GetByEmail (coll : List Company) (fault : Bool) (email : String) :
    Except mongo.Error Company :=
  if fault then .error .other
  else
    match coll.find? fun d => d.Email == email with
    | some d => .ok d
    | none => .error .ErrNoDocuments

/-- The method `MongoRepository.Update`: the collection afterwards and the error. -/
def Update (coll : List Company) (now : Time) (fault : Bool) (company : Company) :
    List Company × Option mongo.Error :=
  let company := { company with UpdatedAt := now }
  if fault then (coll, some .other)
  else (mongo.updateOne (fun d => d.ID == company.ID) (setDocument company) coll, none)

end companies

/-! ## internal/repository/password_reset.go -/

namespace repository

open models

/-- The filter of `GetByToken` at instant `now`. -/
def getByTokenFilter (now : Time) (tokenHash : String) (d : PasswordReset) : Bool :=
  d.TokenHash == tokenHash && d.Used == false && decide (d.ExpiresAt > bson.DateTime now)

/-- The method `PasswordResetRepository.Create`: the collection afterwards and the error.
`newID` is the value of `bson.NewObjectID()`; the insert fails on a failing driver
call and on an `_id` already present. -/
def Create (coll : List PasswordReset) (now : Time) (newID : bson.ObjectID) (fault : Bool)
    (reset : PasswordReset) : List PasswordReset × Option mongo.Error :=
  let reset := { reset with ID := newID, CreatedAt := now, Used := false }
  if fault then (coll, some .other)
  else if coll.any fun d => d.ID == reset.ID then (coll, some .other)
  else
    (coll ++ [{ reset with
                CreatedAt := bson.DateTime reset.CreatedAt
                ExpiresAt := bson.DateTime reset.ExpiresAt
                UsedAt := reset.UsedAt.map bson.DateTime }], none)

/-- The method `PasswordResetRepository.GetByToken`. -/
def GetByToken (coll : List PasswordReset) (now : Time) (fault : Bool) (tokenHash : String) :
    Except mongo.Error PasswordReset :=
  if fault then .error .other
  else
    match coll.find? (getByTokenFilter now tokenHash) with
    | some d => .ok d
    | none => .error .ErrNoDocuments

/-- The method `PasswordResetRepository.MarkAsUsed`. -/
def MarkAsUsed (coll : List PasswordReset) (now : Time) (fault : Bool) (id : bson.ObjectID) :
    List PasswordReset × Option mongo.Error :=
  if fault then (coll, some .other)
  else
    (mongo.updateOne (fun d => d.ID == id)
      (fun d => { d with Used := true, UsedAt := some (bson.DateTime now) }) coll, none)

/-- The method `PasswordResetRepository.InvalidateAllForUser`. -/
def InvalidateAllForUser (coll : List PasswordReset) (fault : Bool) (email userType : String) :
    List PasswordReset × Option mongo.Error :=
  if fault then (coll, some .other)
  else
    (mongo.updateMany
      (fun d => d.Email == email && d.UserType == userType && d.Used == false)
      (fun d => { d with Used := true }) coll, none)

/-- A record is active at `now`: it is unused and its expiry is still ahead, the two
conditions `GetByToken` puts on a record besides its hash. -/
def isActive (now : Time) (d : PasswordReset) : Bool :=
  d.Used == false && decide (d.ExpiresAt > bson.DateTime now)

/-- The active records of one identity (email and user kind). -/
def activeFor (now : Time) (email userType : String) (coll : List PasswordReset) :
    List PasswordReset :=
  coll.filter fun d => d.Email == email && d.UserType == userType && isActive now d

end repository

/-! ## internal/http/handlers/password_reset.go -/

namespace handlers

/-- What a handler writes: the status code and the JSON object of the body
(keys in the order `encoding/json` writes a map, sorted). -/
structure Response where
  status : Nat
  body : List (String × String)
  deriving DecidableEq, Repr

/-- The collections behind the three repositories of `PasswordResetHandler`. -/
structure DB where
  resets : List models.PasswordReset := []
  companies : List companies.Company := []
  candidates : List candidates.Candidate := []
  deriving DecidableEq, Repr

structure RequestResetRequest where
  Email : String := ""
  UserType : String := ""
  deriving DecidableEq, Repr

structure ResetPasswordRequest where
  Token : String := ""
  NewPassword : String := ""
  deriving DecidableEq, Repr

/-- What one call of `RequestReset` reads from outside the program: the clock, the two
draws of `crypto/rand`, the fresh object id, and which driver calls fail. -/
structure RequestResetEnv where
  now : Time := 0
  tokenEntropy : rand.Source := none
  hashEntropy : rand.Source := none
  newID : bson.ObjectID := 0
  getByEmailFault : Bool := false
  createFault : Bool := false

/-- What one call of `ResetPassword` reads from outside the program. -/
structure ResetPasswordEnv where
  now : Time := 0
  salt : rand.Source := none
  getByTokenFault : Bool := false
  getByEmailFault : Bool := false
  updateFault : Bool := false
  markAsUsedFault : Bool := false
  invalidateFault : Bool := false

def erro (status : Nat) (text : String) : Response :=
  { status := status, body := [("erro", text)] }

def genericMessage : String :=
  "Se o email existir, você receberá instruções para redefinir sua senha."

/-- The claims `RequestReset` has `GeneratePasswordResetToken` sign. -/
def issuedClaims (U : unicode.CaseTable) (now : Time) (bs : List Nat)
    (req : RequestResetRequest) : auth.ResetTokenClaims :=
  { Email := auth.SanitizeEmail U (auth.SanitizeEmail U req.Email)
    UserType := req.UserType
    TokenHash := auth.hashString (hex.EncodeToString bs)
    RegisteredClaims :=
      { ExpiresAt := some (jwt.NewNumericDate (now + 15 * time.Minute))
        IssuedAt := some (jwt.NewNumericDate now)
        NotBefore := some (jwt.NewNumericDate now)
        Issuer := "empregabem-api-reset" } }

/-- The block of `RequestReset` that sets `userExists`: the account lookup in the
collection of the user kind succeeded. -/
def userExists (db : DB) (fault : Bool) (userType email : String) : Bool :=
  if userType = "company" then
    match companies.GetByEmail db.companies fault email with
    | .ok _ => true
    | .error _ => false
  else
    match candidates.GetByEmail db.candidates fault email with
    | .ok _ => true
    | .error _ => false

/-- The method `PasswordResetHandler.RequestReset`; `body` is the decoded request,
`none` when decoding fails. Returns the response and the collections afterwards. -/
def RequestReset (L : jwt.Lib) (U : unicode.CaseTable) (jwtSecret : String)
    (env : RequestResetEnv) (db : DB) (body : Option RequestResetRequest) : Response × DB :=
  match body with
  | none => (erro 400 "Dados inválidos", db)
  | some req =>
    if req.Email = "" ∨ req.UserType = "" then
      (erro 400 "Campos obrigatórios: email, user_type (company ou candidate)", db)
    else if req.UserType ≠ "company" ∧ req.UserType ≠ "candidate" then
      (erro 400 "user_type deve ser \x27company\x27 ou \x27candidate\x27", db)
    else
      let email := auth.SanitizeEmail U req.Email
      if userExists db env.getByEmailFault req.UserType email then
        match auth.GeneratePasswordResetToken L U jwtSecret env.now env.tokenEntropy email
            req.UserType with
        | .error _ => ({ status := 200, body := [("mensagem", genericMessage)] }, db)
        | .ok (jwtToken, uniqueToken) =>
          let tokenHash :=
            match auth.GenerateSecureToken env.hashEntropy 32 with
            | .ok t => t
            | .error _ => uniqueToken
          let reset : models.PasswordReset :=
            { Email := email
              UserType := req.UserType
              Token := jwtToken
              TokenHash := tokenHash
              ExpiresAt := env.now + 15 * time.Minute }
          let created := repository.Create db.resets env.now env.newID env.createFault reset
          ({ status := 200
             body := [("dev_note", "Em produção, o token seria enviado por email"),
                      ("dev_token", jwtToken), ("mensagem", genericMessage)] },
           { db with resets := created.1 })
      else ({ status := 200, body := [("mensagem", genericMessage)] }, db)

/-- The block of `ResetPassword` under "Atualizar senha no banco correto": the account
of the claims' kind and email gets the new digest; an early return is the error. -/
def updatePassword (env : ResetPasswordEnv) (db : DB) (claims : auth.ResetTokenClaims)
    (hashedPassword : String) : Except Response DB :=
  if claims.UserType = "company" then
    match companies.GetByEmail db.companies env.getByEmailFault claims.Email with
    | .error _ => .error (erro 404 "Usuário não encontrado")
    | .ok company =>
      let company := { company with Password := hashedPassword, UpdatedAt := env.now }
      match companies.Update db.companies env.now env.updateFault company with
      | (_, some _) => .error (erro 500 "Erro ao atualizar senha")
      | (coll, none) => .ok { db with companies := coll }
  else
    match candidates.GetByEmail db.candidates env.getByEmailFault claims.Email with
    | .error _ => .error (erro 404 "Usuário não encontrado")
    | .ok candidate =>
      let candidate := { candidate with Password := hashedPassword, UpdatedAt := env.now }
      match candidates.Update db.candidates env.now env.updateFault candidate with
      | (_, some _) => .error (erro 500 "Erro ao atualizar senha")
      | (coll, none) => .ok { db with candidates := coll }

/-- The method `PasswordResetHandler.ResetPassword`; `body` is the decoded request,
`none` when decoding fails. Returns the response and the collections afterwards. -/
def ResetPassword (L : jwt.Lib) (B : bcrypt.Lib) (jwtSecret : String)
    (env : ResetPasswordEnv) (db : DB) (body : Option ResetPasswordRequest) : Response × DB :=
  match body with
  | none => (erro 400 "Dados inválidos", db)
  | some req =>
    if req.Token = "" ∨ req.NewPassword = "" then
      (erro 400 "Campos obrigatórios: token, new_password", db)
    else
      match auth.ValidatePasswordStrength req.NewPassword with
      | some text => (erro 400 text, db)
      | none =>
        match auth.ValidatePasswordResetToken L jwtSecret env.now req.Token with
        | .error _ => (erro 401 "Token inválido ou expirado", db)
        | .ok claims =>
          match repository.GetByToken db.resets env.now env.getByTokenFault claims.TokenHash with
          | .error .ErrNoDocuments => (erro 401 "Token inválido, expirado ou já utilizado", db)
          | .error .other => (erro 500 "Erro ao verificar token", db)
          | .ok reset =>
            match auth.HashPassword B env.salt req.NewPassword with
            | .error _ => (erro 500 "Erro ao processar senha", db)
            | .ok hashedPassword =>
              match updatePassword env db claims hashedPassword with
              | .error resp => (resp, db)
              | .ok db =>
                let marked := repository.MarkAsUsed db.resets env.now env.markAsUsedFault reset.ID
                let invalidated := repository.InvalidateAllForUser marked.1 env.invalidateFault
                  claims.Email claims.UserType
                ({ status := 200
                   body := [("mensagem",
                     "Senha alterada com sucesso! Faça login com a nova senha.")] },
                 { db with resets := invalidated.1 })

/-- The value of a key of the response body. -/
def Response.field (resp : Response) (key : String) : Option String :=
  resp.body.lookup key

/-- The states of the collections that calls of the two handlers, with any request and
any behaviour of the outside, reach from a store holding no reset record. -/
inductive Reachable (L : jwt.Lib) (U : unicode.CaseTable) (B : bcrypt.Lib) (jwtSecret : String) :
    DB → Prop
  | init (db : DB) (h : db.resets = []) : Reachable L U B jwtSecret db
  | requestReset (db : DB) (env : RequestResetEnv) (body : Option RequestResetRequest)
      (h : Reachable L U B jwtSecret db) :
      Reachable L U B jwtSecret (RequestReset L U jwtSecret env db body).2
  | resetPassword (db : DB) (env : ResetPasswordEnv) (body : Option ResetPasswordRequest)
      (h : Reachable L U B jwtSecret db) :
      Reachable L U B jwtSecret (ResetPassword L B jwtSecret env db body).2

end handlers

/-! ## internal/http/handlers/candidate_auth.go and company_auth.go -/

namespace bson

/-- The method `ObjectID.Hex`: the twelve bytes of the id in hexadecimal. -/
def Hex (id : ObjectID) : String :=
  hex.EncodeToString ((List.range 12).map fun i => id / 256 ^ (11 - i) % 256)

end bson

namespace candidates

/-- The method `MongoRepository.Create`: the collection afterwards, the struct as the call
leaves it and the error. `newID` is the value of `bson.NewObjectID()`; the insert fails on
a failing driver call and on an `_id` already present. -/
def Create (coll : List Candidate) (now : Time) (newID : bson.ObjectID) (fault : Bool)
    (candidate : Candidate) : List Candidate × Candidate × Option mongo.Error :=
  let candidate := { candidate with ID := newID, CreatedAt := now, UpdatedAt := now }
  if fault then (coll, candidate, some .other)
  else if coll.any fun d => d.ID == candidate.ID then (coll, candidate, some .other)
  else
    (coll ++ [{ candidate with
                CreatedAt := bson.DateTime candidate.CreatedAt
                UpdatedAt := bson.DateTime candidate.UpdatedAt }], candidate, none)

end candidates

namespace companies

/-- The method `MongoRepository.Create`: the collection afterwards, the struct as the call
leaves it and the error. -/
def Create (coll : List Company) (now : Time) (newID : bson.ObjectID) (fault : Bool)
    (company : Company) : List Company × Company × Option mongo.Error :=
  let company :=
    { company with
      ID := newID, CreatedAt := now, UpdatedAt := now, VerificationStatus := "pending" }
  if fault then (coll, company, some .other)
  else if coll.any fun d => d.ID == company.ID then (coll, company, some .other)
  else
    (coll ++ [{ company with
                CreatedAt := bson.DateTime company.CreatedAt
                UpdatedAt := bson.DateTime company.UpdatedAt }], company, none)

/-- The method `MongoRepository.GetByCNPJ`; `fault` is a failing driver call. -/
def GetByCNPJ (coll : List Company) (fault : Bool) (cnpj : String) :
    Except mongo.Error Company :=
  if fault then .error .other
  else
    match coll.find? fun d => d.CNPJ == cnpj with
    | some d => .ok d
    | none => .error .ErrNoDocuments

end companies

namespace handlers

structure RegisterCandidateRequest where
  Name : String := ""
  Email : String := ""
  Password : String := ""
  Phone : String := ""
  Location : String := ""
  deriving DecidableEq, Repr

structure RegisterCompanyRequest where
  Name : String := ""
  LegalName : String := ""
  CNPJ : String := ""
  Email : String := ""
  Password : String := ""
  Phone : String := ""
  Location : String := ""
  deriving DecidableEq, Repr

/-- What one call of a `Register` handler reads from outside the program: the clock, the
salt of bcrypt, the fresh object id, and which driver calls fail (the lookup by email in
the collection of the handler, the one in the other collection, the lookup by CNPJ, the
insert). -/
structure RegisterEnv where
  now : Time := 0
  salt : rand.Source := none
  newID : bson.ObjectID := 0
  getByEmailFault : Bool := false
  crossGetByEmailFault : Bool := false
  getByCNPJFault : Bool := false
  createFault : Bool := false

/-- What a `Register` handler writes: the status code, the string fields of the JSON
object and, under `candidato` or `empresa`, the account. -/
structure RegisterResponse (α : Type) where
  status : Nat
  body : List (String × String)
  account : Option α := none
  deriving DecidableEq, Repr

/-- The method `CandidateAuthHandler.Register`; `body` is the decoded request, `none` when
decoding fails. Returns the response and the collections afterwards. -/
def CandidateAuthHandler.Register (L : jwt.Lib) (B : bcrypt.Lib) (U : unicode.CaseTable)
    (jwtSecret : String) (env : RegisterEnv) (db : DB)
    (body : Option RegisterCandidateRequest) :
    RegisterResponse candidates.Candidate × DB :=
  match body with
  | none => ({ status := 400, body := [("erro", "Dados inválidos")] }, db)
  | some req =>
    if req.Name = "" ∨ req.Email = "" ∨ req.Password = "" then
      ({ status := 400, body := [("erro", "Campos obrigatórios: name, email, password")] }, db)
    else
      match auth.ValidatePasswordStrength req.Password with
      | some text => ({ status := 400, body := [("erro", text)] }, db)
      | none =>
        let email := auth.SanitizeEmail U req.Email
        match candidates.GetByEmail db.candidates env.getByEmailFault email with
        | .ok _ => ({ status := 409, body := [("erro", "Email já cadastrado")] }, db)
        | .error _ =>
          match companies.GetByEmail db.companies env.crossGetByEmailFault email with
          | .ok _ =>
            ({ status := 409
               body := [("erro", "Email já cadastrado como empresa. Use outro email.")] }, db)
          | .error _ =>
            match auth.HashPassword B env.salt req.Password with
            | .error _ => ({ status := 500, body := [("erro", "Erro ao processar senha")] }, db)
            | .ok hashedPassword =>
              let candidate : candidates.Candidate :=
                { Name := req.Name, Email := email, Password := hashedPassword
                  Phone := req.Phone, Location := req.Location }
              match candidates.Create db.candidates env.now env.newID env.createFault
                  candidate with
              | (_, _, some _) =>
                ({ status := 500, body := [("erro", "Erro ao criar candidato")] }, db)
              | (coll, candidate, none) =>
                let db := { db with candidates := coll }
                match auth.GenerateToken L jwtSecret env.now (bson.Hex candidate.ID)
                    "candidate" with
                | .error _ => ({ status := 500, body := [("erro", "Erro ao gerar token")] }, db)
                | .ok token =>
                  ({ status := 201
                     body := [("mensagem", "Candidato criado com sucesso"), ("token", token)]
                     account := some candidate }, db)

/-- The method `CompanyAuthHandler.Register`; `body` is the decoded request, `none` when
decoding fails. Returns the response and the collections afterwards. -/
def CompanyAuthHandler.Register (L : jwt.Lib) (B : bcrypt.Lib) (U : unicode.CaseTable)
    (jwtSecret : String) (env : RegisterEnv) (db : DB)
    (body : Option RegisterCompanyRequest) :
    RegisterResponse companies.Company × DB :=
  match body with
  | none => ({ status := 400, body := [("erro", "Dados inválidos")] }, db)
  | some req =>
    if req.Name = "" ∨ req.Email = "" ∨ req.Password = "" ∨ req.CNPJ = "" then
      ({ status := 400
         body := [("erro", "Campos obrigatórios: name, email, password, cnpj")] }, db)
    else
      match auth.ValidatePasswordStrength req.Password with
      | some text => ({ status := 400, body := [("erro", text)] }, db)
      | none =>
        let email := auth.SanitizeEmail U req.Email
        if len req.CNPJ ≠ 14 then
          ({ status := 400, body := [("erro", "CNPJ deve conter exatamente 14 dígitos")] }, db)
        else
          match companies.GetByEmail db.companies env.getByEmailFault email with
          | .ok _ => ({ status := 409, body := [("erro", "Email já cadastrado")] }, db)
          | .error _ =>
            match candidates.GetByEmail db.candidates env.crossGetByEmailFault email with
            | .ok _ =>
              ({ status := 409
                 body := [("erro", "Email já cadastrado como candidato. Use outro email.")] },
               db)
            | .error _ =>
              match companies.GetByCNPJ db.companies env.getByCNPJFault req.CNPJ with
              | .ok _ => ({ status := 409, body := [("erro", "CNPJ já cadastrado")] }, db)
              | .error _ =>
                match auth.HashPassword B env.salt req.Password with
                | .error _ =>
                  ({ status := 500, body := [("erro", "Erro ao processar senha")] }, db)
                | .ok hashedPassword =>
                  let company : companies.Company :=
                    { Name := req.Name, LegalName := req.LegalName, CNPJ := req.CNPJ
                      Email := email, Password := hashedPassword, Phone := req.Phone
                      Location := req.Location }
                  match companies.Create db.companies env.now env.newID env.createFault
                      company with
                  | (_, _, some _) =>
                    ({ status := 500, body := [("erro", "Erro ao criar empresa")] }, db)
                  | (coll, company, none) =>
                    let db := { db with companies := coll }
                    match auth.GenerateToken L jwtSecret env.now (bson.Hex company.ID)
                        "company" with
                    | .error _ =>
                      ({ status := 500, body := [("erro", "Erro ao gerar token")] }, db)
                    | .ok token =>
                      ({ status := 201
                         body := [("mensagem", "Empresa criada com sucesso"), ("token", token)]
                         account := some company }, db)

/-- The states of the collections that `Register` calls of the two handlers, with any
request and any behaviour of the outside, reach from empty account collections. -/
inductive Registered (L : jwt.Lib) (B : bcrypt.Lib) (U : unicode.CaseTable)
    (jwtSecret : String) : DB → Prop
  | init (db : DB) (h : db.candidates = [] ∧ db.companies = []) : Registered L B U jwtSecret db
  | candidate (db : DB) (env : RegisterEnv) (body : Option RegisterCandidateRequest)
      (h : Registered L B U jwtSecret db) :
      Registered L B U jwtSecret (CandidateAuthHandler.Register L B U jwtSecret env db body).2
  | company (db : DB) (env : RegisterEnv) (body : Option RegisterCompanyRequest)
      (h : Registered L B U jwtSecret db) :
      Registered L B U jwtSecret (CompanyAuthHandler.Register L B U jwtSecret env db body).2

end handlers

/-! ## net/http, context and internal/middleware/auth.go -/

namespace strings

/-- Go's `strings.SplitN(s, sep, 2)` for a one-character separator: the text before
the first separator and the rest, or `s` alone when it has no separator. -/
def SplitN (s : String) (sep : Char) : List String :=
  match s.data.dropWhile fun c => c != sep with
  | [] => [s]
  | _ :: rest => [String.mk (s.data.takeWhile fun c => c != sep), String.mk rest]

end strings

namespace context

/-- A `context.Context`, as the values stored under keys of the type
`middleware.contextKey` (innermost first); only package middleware can store under
such keys, and it stores strings. -/
abbrev Context := List (String × String)

/-- The function `context.WithValue(ctx, key, val)`. -/
def WithValue (ctx : Context) (key val : String) : Context := (key, val) :: ctx

/-- The method `ctx.Value(key)`; `none` is the nil interface. -/
def Value (ctx : Context) (key : String) : Option String := ctx.lookup key

end context

namespace textproto

/-- The function `validHeaderFieldByte`: the token characters of a header name. -/
def validHeaderFieldByte (c : Char) : Bool :=
  ('a' ≤ c && c ≤ 'z') || ('A' ≤ c && c ≤ 'Z') || ('0' ≤ c && c ≤ '9') ||
    "!#$%&\x27*+-.^_\x60|~".data.contains c

/-- The loop of `canonicalMIMEHeaderKey`: upper case for the first letter and for a letter
after a hyphen, lower case for every other letter. -/
def canonical (upper : Bool) : List Char → List Char
  | [] => []
  | c :: cs =>
    let c :=
      if upper && 'a' ≤ c && c ≤ 'z' then c.toUpper
      else if !upper && 'A' ≤ c && c ≤ 'Z' then c.toLower
      else c
    c :: canonical (c == '-') cs

/-- Go's `textproto.CanonicalMIMEHeaderKey`: a name holding a character that is no token
character is returned as it is. -/
def CanonicalMIMEHeaderKey (s : String) : String :=
  if s.data.all validHeaderFieldByte then String.mk (canonical true s.data) else s

end textproto

namespace http

/-- The constants `http.StatusUnauthorized` and `http.StatusForbidden`. -/
def StatusUnauthorized : Nat := 401

def StatusForbidden : Nat := 403

def StatusMethodNotAllowed : Nat := 405

def StatusTooManyRequests : Nat := 429

/-- An `*http.Request`, as far as the middleware and the router read it: its method,
the path of its URL, the address of the peer, its header fields (canonical name and
value, in order) and its context. -/
structure Request where
  Method : String := ""
  Path : String := ""
  RemoteAddr : String := ""
  Header : List (String × String) := []
  ctx : context.Context := []
  deriving DecidableEq, Repr

/-- The method `Header.Get(key)`: the first value of the field whose name is the canonical
form of `key`, or the empty string. -/
def Request.Get (r : Request) (key : String) : String :=
  (r.Header.lookup (textproto.CanonicalMIMEHeaderKey key)).getD ""

/-- The method `r.WithContext(ctx)`. -/
def Request.WithContext (r : Request) (ctx : context.Context) : Request := { r with ctx := ctx }

/-- What has been written to an `http.ResponseWriter`: the header map, the status code
once `WriteHeader` ran, the JSON objects encoded to the body, in order, and the texts
written to the body as they are. -/
structure ResponseWriter where
  header : List (String × String) := []
  status : Option Nat := none
  body : List (List (String × String)) := []
  written : List String := []
  deriving DecidableEq, Repr

/-- The call `w.Header().Set(key, value)`. -/
def ResponseWriter.Set (w : ResponseWriter) (key value : String) : ResponseWriter :=
  { w with header := (w.header.filter fun kv => kv.1 != key) ++ [(key, value)] }

/-- The call `w.WriteHeader(code)`: only the first call sets the status. -/
def ResponseWriter.WriteHeader (w : ResponseWriter) (code : Nat) : ResponseWriter :=
  match w.status with
  | none => { w with status := some code }
  | some _ => w

/-- The call `json.NewEncoder(w).Encode(obj)`: writes the object, and status 200 first when
no status has been written. -/
def ResponseWriter.Encode (w : ResponseWriter) (obj : List (String × String)) :
    ResponseWriter :=
  let w := w.WriteHeader 200
  { w with body := w.body ++ [obj] }

/-- The call `w.Write(text)`: writes the text, and status 200 first when no status has been
written. -/
def ResponseWriter.Write (w : ResponseWriter) (text : String) : ResponseWriter :=
  let w := w.WriteHeader 200
  { w with written := w.written ++ [text] }

/-- The call `w.Header().Del(key)`. -/
def ResponseWriter.Del (w : ResponseWriter) (key : String) : ResponseWriter :=
  { w with header := w.header.filter fun kv => kv.1 != key }

/-- The function `http.Error(w, text, code)`. -/
def Error (w : ResponseWriter) (text : String) (code : Nat) : ResponseWriter :=
  ((((w.Del "Content-Length").Set "Content-Type" "text/plain; charset=utf-8").Set
    "X-Content-Type-Options" "nosniff").WriteHeader code).Write (text ++ "\n")

/-- An `http.HandlerFunc`: what the call leaves written, or the message of a panic. -/
abbrev HandlerFunc := Request → ResponseWriter → Except String ResponseWriter

end http

namespace middleware

/-- The constants of type `contextKey`. -/
def UserIDKey : String := "user_id"

def UserTypeKey : String := "user_type"

/-- The block every refusal of the middleware consists of: content type, status code
and a JSON object with the key `erro`. -/
def refuse (w : http.ResponseWriter) (code : Nat) (text : String) : http.ResponseWriter :=
  ((w.Set "Content-Type" "application/json").WriteHeader code).Encode [("erro", text)]

/-- The four security headers `AuthMiddleware` sets first. -/
def securityHeaders (w : http.ResponseWriter) : http.ResponseWriter :=
  (((w.Set "X-Content-Type-Options" "nosniff").Set "X-Frame-Options" "DENY").Set
    "X-XSS-Protection" "1; mode=block").Set "Strict-Transport-Security"
    "max-age=31536000; includeSubDomains"

/-- The function `AuthMiddleware(next)`, with the package state of `auth` and the instant
of the call. -/
def AuthMiddleware (L : jwt.Lib) (jwtSecret : String) (now : Time) (next : http.HandlerFunc) :
    http.HandlerFunc := fun r w =>
  let w := securityHeaders w
  let authHeader := r.Get "Authorization"
  if authHeader = "" then .ok (refuse w http.StatusUnauthorized "Token não fornecido")
  else if len authHeader > 1024 then
    .ok (refuse w http.StatusUnauthorized "Header de autorização muito grande")
  else
    let parts := strings.SplitN authHeader ' '
    if parts.length ≠ 2 ∨ parts.getD 0 "" ≠ "Bearer" then
      .ok (refuse w http.StatusUnauthorized "Formato de token inválido")
    else
      let tokenStr := strings.TrimSpace (parts.getD 1 "")
      if tokenStr = "" then .ok (refuse w http.StatusUnauthorized "Token vazio")
      else
        match auth.ValidateToken L jwtSecret now tokenStr with
        | .error _ => .ok (refuse w http.StatusUnauthorized "Token inválido ou expirado")
        | .ok claims =>
          let ctx := context.WithValue r.ctx UserIDKey claims.ID
          let ctx := context.WithValue ctx UserTypeKey claims.Type_
          next (r.WithContext ctx) w

/-- The request `AuthMiddleware` hands to the wrapped handler for accepted claims. -/
def authenticated (r : http.Request) (claims : auth.Claims) : http.Request :=
  r.WithContext (context.WithValue
    (context.WithValue r.ctx UserIDKey claims.ID)
    UserTypeKey claims.Type_)

/-- The type assertion `r.Context().Value(UserTypeKey).(string)`: it panics on nil. -/
def userTypeOf (r : http.Request) : Except String String :=
  match context.Value r.ctx UserTypeKey with
  | none => .error "interface conversion: interface {} is nil, not string"
  | some userType => .ok userType

/-- The function `CompanyOnly(next)`. -/
def CompanyOnly (L : jwt.Lib) (jwtSecret : String) (now : Time) (next : http.HandlerFunc) :
    http.HandlerFunc :=
  AuthMiddleware L jwtSecret now fun r w =>
    match userTypeOf r with
    | .error msg => .error msg
    | .ok userType =>
      if userType ≠ "company" then
        .ok (refuse w http.StatusForbidden "Acesso restrito a empresas")
      else next r w

/-- The function `CandidateOnly(next)`. -/
def CandidateOnly (L : jwt.Lib) (jwtSecret : String) (now : Time) (next : http.HandlerFunc) :
    http.HandlerFunc :=
  AuthMiddleware L jwtSecret now fun r w =>
    match userTypeOf r with
    | .error msg => .error msg
    | .ok userType =>
      if userType ≠ "candidate" then
        .ok (refuse w http.StatusForbidden "Acesso restrito a candidatos")
      else next r w

end middleware

/-! ## internal/middleware/security.go -/

namespace middleware

/-- The function `getRealIP(r)`. -/
def getRealIP (r : http.Request) : String :=
  let forwarded := r.Get "X-Forwarded-For"
  let ips := strings.Split forwarded ','
  if forwarded ≠ "" ∧ ips.length > 0 then strings.TrimSpace (ips.getD 0 "")
  else
    let realIP := r.Get "X-Real-IP"
    if realIP ≠ "" then realIP
    else
      let ip := r.RemoteAddr
      match ip.data.reverse.dropWhile fun c => c != ':' with
      | [] => ip
      | _ :: rest => String.mk rest.reverse

/-- A value of Go's `int` (64 bits) after an addition or subtraction, wrapped around. -/
def wrapInt (x : Int) : Int := (x + 2 ^ 63) % 2 ^ 64 - 2 ^ 63

/-- The struct `RateLimiter`; the map `requests` as its entries, latest first. -/
structure RateLimiter where
  requests : List (String × Int) := []
  limit : Int
  deriving DecidableEq, Repr

/-- The function `NewRateLimiter(limit)`. -/
def NewRateLimiter (limit : Int) : RateLimiter := { requests := [], limit := limit }

/-- The read `rl.requests[ip]`: zero for a key the map does not hold. -/
def RateLimiter.get (rl : RateLimiter) (ip : String) : Int := (rl.requests.lookup ip).getD 0

/-- The write `rl.requests[ip] = v`. -/
def RateLimiter.set (rl : RateLimiter) (ip : String) (v : Int) : RateLimiter :=
  { rl with requests := (ip, v) :: rl.requests.filter fun kv => kv.1 != ip }

/-- The body the limiter writes with status 429. -/
def tooManyRequests : String :=
  "\x7b\"erro\":\"Muitas requisições. Tente novamente mais tarde.\"\x7d"

/-- The method `RateLimiter.Middleware(next)`, for one request handled on its own: what the
call leaves written (or the message of a panic of `next`, after which the counter is not
decremented) and the limiter afterwards. -/
def RateLimiter.Middleware (rl : RateLimiter) (next : http.HandlerFunc) (r : http.Request)
    (w : http.ResponseWriter) : Except String http.ResponseWriter × RateLimiter :=
  let ip := getRealIP r
  if rl.get ip ≥ rl.limit then
    (.ok ((((w.Set "Content-Type" "application/json").Set "Retry-After" "60").WriteHeader
      http.StatusTooManyRequests).Write tooManyRequests), rl)
  else
    let rl := rl.set ip (wrapInt (rl.get ip + 1))
    match next r w with
    | .error msg => (.error msg, rl)
    | .ok w =>
      (.ok w, if rl.get ip > 0 then rl.set ip (wrapInt (rl.get ip - 1)) else rl)

/-- The limiters reached from `NewRateLimiter(limit)` by requests handled one at a time,
each wrapped handler returning normally. -/
inductive RateLimiter.Reachable (limit : Int) : RateLimiter → Prop
  | init : RateLimiter.Reachable limit (NewRateLimiter limit)
  | step (rl : RateLimiter) (next : http.HandlerFunc) (r : http.Request)
      (w w' : http.ResponseWriter) (h : RateLimiter.Reachable limit rl)
      (hnext : next r w = .ok w') :
      RateLimiter.Reachable limit (rl.Middleware next r w).2

end middleware

/-! ## internal/http/router.go -/

namespace router

/-- The methods of `CompanyJobsHandler` and `ApplicationsHandler` the route
`/company/jobs/` refers to. -/
structure Handlers where
  Activate : http.HandlerFunc
  Deactivate : http.HandlerFunc
  Update : http.HandlerFunc
  Delete : http.HandlerFunc
  ListJobApplicants : http.HandlerFunc

/-- The slice `path[len(path)-n:]`, as bytes. -/
def suffix (path : String) (n : Nat) : List Nat := (bytes path).drop (len path - n)

/-- The function registered for `/company/jobs/` in `SetupRoutes`, inside the two
wrappers. -/
def companyJobs (h : Handlers) : http.HandlerFunc := fun r w =>
  let path := r.Path
  let fallback : Except String http.ResponseWriter :=
    if r.Method = "PUT" then h.Update r w
    else if r.Method = "DELETE" then h.Delete r w
    else .ok (http.Error w "Método não permitido" http.StatusMethodNotAllowed)
  if len path > len "/company/jobs/" then
    if r.Method = "PATCH" then
      if len path > 10 ∧ suffix path 10 = bytes "/activate" then h.Activate r w
      else if len path > 12 ∧ suffix path 12 = bytes "/deactivate" then h.Deactivate r w
      else fallback
    else if r.Method = "GET" ∧ len path > 11 ∧ suffix path 11 = bytes "/applicants" then
      h.ListJobApplicants r w
    else fallback
  else fallback

/-- The route `/company/jobs/` as `SetupRoutes` registers it; `now` and `later` are the
instants of the two validations. -/
def companyJobsRoute (L : jwt.Lib) (jwtSecret : String) (now later : Time) (h : Handlers) :
    http.HandlerFunc :=
  middleware.AuthMiddleware L jwtSecret now
    (middleware.CompanyOnly L jwtSecret later (companyJobs h))

end router

/-! ## A reference instance of the library parameter

A small self-contained codec and checksum satisfying every law of `jwt.Lib`:
it shows the laws are consistent and lets the embedding run on concrete
inputs. A segment is a list of fields, a field a list of numbers (the code
points of a string, or at most one date); numbers are written in decimal,
least significant digit first, each closed by `;`, and every field is closed by
`,`. -/

namespace ref

/-- Decimal digits of `n`, least significant first (`fuel` bounds the count). -/
def toDigits : Nat → Nat → List Nat
  | 0, _ => []
  | fuel + 1, n => if n = 0 then [] else n % 10 :: toDigits fuel (n / 10)

def ofDigits : List Nat → Nat
  | [] => 0
  | d :: ds => d + 10 * ofDigits ds

def digitChar (d : Nat) : Char := Char.ofNat (48 + d)

def charDigit (c : Char) : Nat := c.toNat - 48

def encNat (n : Nat) : List Char := (toDigits n n).map digitChar ++ [';']

def decNat (cs : List Char) : Nat := ofDigits (cs.map charDigit)

def encField (f : List Nat) : List Char := f.flatMap encNat ++ [',']

/-- The text of a list of fields. -/
def ser (fields : List (List Nat)) : List Char := fields.flatMap encField

/-- The items of a text in which every item is closed by `sep`. -/
def splitTerm (sep : Char) (cs : List Char) : List (List Char) :=
  (strings.splitChars sep cs).dropLast

/-- The fields of a text. -/
def deser (cs : List Char) : List (List Nat) :=
  (splitTerm ',' cs).map fun f => (splitTerm ';' f).map decNat

def strField (s : String) : List Nat := s.data.map Char.toNat

def fieldStr (f : List Nat) : String := String.mk (f.map Char.ofNat)

def optField : Option Nat → List Nat
  | none => []
  | some n => [n]

def fieldOpt (f : List Nat) : Option Nat := f.head?

def registeredFields (r : jwt.RegisteredClaims) : List (List Nat) :=
  [strField r.Issuer, strField r.Subject, strField r.ID, optField r.ExpiresAt,
   optField r.NotBefore, optField r.IssuedAt] ++ r.Audience.map strField

/-- Fields of a payload object: `id`, `type`, `email`, `user_type`, `token_hash`,
then the registered claims. -/
def objectFields (id type email userType tokenHash : String) (r : jwt.RegisteredClaims) :
    List (List Nat) :=
  [strField id, strField type, strField email, strField userType, strField tokenHash] ++
    registeredFields r

def fieldsRegistered (iss sub jti exp nbf iat : List Nat) (aud : List (List Nat)) :
    jwt.RegisteredClaims :=
  { Issuer := fieldStr iss, Subject := fieldStr sub, ID := fieldStr jti,
    ExpiresAt := fieldOpt exp, NotBefore := fieldOpt nbf, IssuedAt := fieldOpt iat,
    Audience := aud.map fieldStr }

def encodeHeader (alg : String) : String := String.mk (ser [strField alg])

def decodeHeader (s : String) : Option (Option String) :=
  match deser s.data with
  | [] => some none
  | [f] => some (some (fieldStr f))
  | _ => none

def encodeClaims (c : auth.Claims) : String :=
  String.mk (ser (objectFields c.ID c.Type_ "" "" "" c.RegisteredClaims))

def decodeClaims (s : String) : Option auth.Claims :=
  match deser s.data with
  | id :: ty :: _ :: _ :: _ :: iss :: sub :: jti :: exp :: nbf :: iat :: aud =>
    some { ID := fieldStr id, Type_ := fieldStr ty,
           RegisteredClaims := fieldsRegistered iss sub jti exp nbf iat aud }
  | _ => none

def encodeReset (c : auth.ResetTokenClaims) : String :=
  String.mk (ser (objectFields "" "" c.Email c.UserType c.TokenHash c.RegisteredClaims))

def decodeReset (s : String) : Option auth.ResetTokenClaims :=
  match deser s.data with
  | _ :: _ :: em :: ut :: th :: iss :: sub :: jti :: exp :: nbf :: iat :: aud =>
    some { Email := fieldStr em, UserType := fieldStr ut, TokenHash := fieldStr th,
           RegisteredClaims := fieldsRegistered iss sub jti exp nbf iat aud }
  | _ => none

def hashTag : jwt.Hash → Nat
  | .SHA256 => 256
  | .SHA384 => 384
  | .SHA512 => 512

/-- A keyed checksum standing in for HMAC. -/
def mac (h : jwt.Hash) (key text : String) : List Nat :=
  let d := (hashTag h :: (bytes key ++ 256 :: bytes text)).foldl
    (fun acc b => (acc * 257 + b + 1) % 4294967291) 7
  [d % 256, d / 256 % 256, d / 65536 % 256, d / 16777216 % 256]

def encodeSegment (bs : List Nat) : String := String.mk (ser [bs])

def decodeSegment (s : String) : Option (List Nat) :=
  match deser s.data with
  | [f] => some f
  | _ => none

end ref

end EmpregaBem

/-! ## Lemmas: splitting and parsing a signed string -/

namespace EmpregaBem

theorem strings.splitChars_ne_nil (sep : Char) (cs : List Char) :
    strings.splitChars sep cs ≠ [] := by
  induction cs with
  | nil => simp [strings.splitChars]
  | cons c cs ih =>
    unfold strings.splitChars
    split
    · simp
    · split <;> simp

theorem strings.splitChars_of_not_mem (sep : Char) (cs : List Char) (h : sep ∉ cs) :
    strings.splitChars sep cs = [cs] := by
  induction cs with
  | nil => rfl
  | cons c cs ih =>
    simp only [List.mem_cons, not_or] at h
    have hc : c ≠ sep := fun e => h.1 e.symm
    simp [strings.splitChars, hc, ih h.2]

theorem strings.splitChars_append (sep : Char) (a rest : List Char) (h : sep ∉ a) :
    strings.splitChars sep (a ++ sep :: rest) = a :: strings.splitChars sep rest := by
  induction a with
  | nil => simp [strings.splitChars]
  | cons c cs ih =>
    simp only [List.mem_cons, not_or] at h
    have hc : c ≠ sep := fun e => h.1 e.symm
    simp [strings.splitChars, hc, ih h.2]

theorem strings.Split_three (a b c : String) (ha : '.' ∉ a.data) (hb : '.' ∉ b.data)
    (hc : '.' ∉ c.data) : strings.Split (a ++ "." ++ b ++ "." ++ c) '.' = [a, b, c] := by
  have e : (a ++ "." ++ b ++ "." ++ c).data = a.data ++ '.' :: (b.data ++ '.' :: c.data) := by
    simp [String.data_append]
  simp [strings.Split, e, strings.splitChars_append, strings.splitChars_of_not_mem, ha, hb, hc]

theorem jwt.GetSigningMethod_Alg (h : jwt.Hash) :
    jwt.GetSigningMethod (jwt.SigningMethod.HMAC h).Alg = some (.HMAC h) := by
  cases h <;> decide

/-- Parsing a string that `SignedString` produced under the same key reaches claim
validation: the outcome is decided by the registered claims alone. -/
theorem jwt.ParseWithClaims_SignedString {α β : Type} (L : jwt.Lib) (encode : α → String)
    (decode : String → Option β) (registered : β → jwt.RegisteredClaims) (now : Time)
    (h : jwt.Hash) (claims : α) (claims' : β) (key : String)
    (hdec : decode (encode claims) = some claims') (hnd : '.' ∉ (encode claims).data) :
    jwt.ParseWithClaims L decode registered now (jwt.SignedString L encode h claims key)
        (auth.keyFunc key) =
      match jwt.Validate now (registered claims') with
      | some err => .error err
      | none => .ok
          { Raw := jwt.SignedString L encode h claims key
            Method := .HMAC h
            Claims := claims'
            Signature := L.encodeSegment
              (L.mac h key (L.encodeHeader (jwt.SigningMethod.HMAC h).Alg ++ "." ++ encode claims))
            Valid := true } := by
  unfold jwt.ParseWithClaims
  have hs := strings.Split_three (L.encodeHeader (jwt.SigningMethod.HMAC h).Alg) (encode claims)
    (L.encodeSegment
      (L.mac h key (L.encodeHeader (jwt.SigningMethod.HMAC h).Alg ++ "." ++ encode claims)))
    (L.header_nodot _) hnd (L.segment_nodot _)
  simp only [jwt.SignedString]
  rw [hs]
  simp only [L.header_roundtrip, hdec, jwt.GetSigningMethod_Alg, L.segment_roundtrip,
    auth.keyFunc, jwt.SigningMethod.isHMAC, jwt.Verify]
  simp

theorem jwt.Validate_fresh (now d : Nat) (iss sub jti : String) (aud : List String)
    (iat : Option jwt.NumericDate) (hd : time.Second ≤ d) :
    jwt.Validate now
      { Issuer := iss, Subject := sub, Audience := aud, ID := jti, IssuedAt := iat,
        ExpiresAt := some (jwt.NewNumericDate (now + d)),
        NotBefore := some (jwt.NewNumericDate now) } = none := by
  simp only [jwt.Validate, jwt.NewNumericDate, jwt.NumericDate.Time, time.Second] at *
  have h1 : now < (now + d) / 1000000000 * 1000000000 := by omega
  have h2 : ¬ now < now / 1000000000 * 1000000000 := by omega
  simp [h1, h2]

theorem len_append (a b : String) : len (a ++ b) = len a + len b := by
  cases a; cases b
  simp only [len, String.utf8ByteSize_mk]
  exact String.utf8Len_append _ _

theorem length_le_len (s : String) : s.length ≤ len s := by
  cases s with
  | mk cs =>
    simp only [len, String.utf8ByteSize_mk, String.length]
    induction cs with
    | nil => simp
    | cons c cs ih =>
      have := Char.utf8Size_pos c
      simp only [String.utf8Len_cons, List.length_cons]
      omega

theorem jwt.len_SignedString_ge {α : Type} (L : jwt.Lib) (encode : α → String) (h : jwt.Hash)
    (claims : α) (key : String) :
    len (encode claims) ≤ len (jwt.SignedString L encode h claims key) := by
  simp only [jwt.SignedString, len_append]
  omega

/-! ## Lemmas: the reference codec satisfies the laws -/

namespace ref

theorem ofDigits_toDigits (fuel n : Nat) (h : n ≤ fuel) : ofDigits (toDigits fuel n) = n := by
  induction fuel generalizing n with
  | zero =>
    have : n = 0 := by omega
    simp [toDigits, ofDigits, this]
  | succ k ih =>
    unfold toDigits
    split
    · simp [ofDigits, *]
    · have hk : n / 10 ≤ k := by omega
      simp only [ofDigits, ih _ hk]
      omega

theorem toDigits_lt (fuel n d : Nat) (h : d ∈ toDigits fuel n) : d < 10 := by
  induction fuel generalizing n with
  | zero => simp [toDigits] at h
  | succ k ih =>
    unfold toDigits at h
    split at h
    · simp at h
    · simp only [List.mem_cons] at h
      rcases h with h | h
      · omega
      · exact ih _ h

theorem charDigit_digitChar (d : Nat) (h : d < 10) : charDigit (digitChar d) = d := by
  interval_cases d <;> rfl

theorem digitChar_ne (d : Nat) (h : d < 10) :
    digitChar d ≠ '.' ∧ digitChar d ≠ ';' ∧ digitChar d ≠ ',' := by
  interval_cases d <;> decide

theorem decNat_digits (n : Nat) : decNat ((toDigits n n).map digitChar) = n := by
  have e : ((toDigits n n).map digitChar).map charDigit = toDigits n n := by
    rw [List.map_map]
    conv => rhs; rw [← List.map_id (toDigits n n)]
    apply List.map_congr_left
    intro d hd
    exact charDigit_digitChar d (toDigits_lt _ _ _ hd)
  simp [decNat, e, ofDigits_toDigits]

theorem splitChars_items (sep : Char) (items : List (List Char))
    (h : ∀ x ∈ items, sep ∉ x) :
    strings.splitChars sep (items.flatMap fun x => x ++ [sep]) = items ++ [[]] := by
  induction items with
  | nil => rfl
  | cons x xs ih =>
    have hx : sep ∉ x := h x (by simp)
    have hxs : ∀ y ∈ xs, sep ∉ y := fun y hy => h y (by simp [hy])
    simp only [List.flatMap_cons, List.append_assoc, List.singleton_append]
    rw [strings.splitChars_append sep x _ hx, ih hxs]
    rfl

theorem splitTerm_items (sep : Char) (items : List (List Char))
    (h : ∀ x ∈ items, sep ∉ x) :
    splitTerm sep (items.flatMap fun x => x ++ [sep]) = items := by
  simp [splitTerm, splitChars_items sep items h]

theorem mem_digits (n : Nat) (c : Char) (h : c ∈ (toDigits n n).map digitChar) :
    c ≠ '.' ∧ c ≠ ';' ∧ c ≠ ',' := by
  simp only [List.mem_map] at h
  obtain ⟨d, hd, rfl⟩ := h
  exact digitChar_ne d (toDigits_lt _ _ _ hd)

theorem flatMap_encNat (f : List Nat) :
    f.flatMap encNat = (f.map fun n => (toDigits n n).map digitChar).flatMap fun x => x ++ [';'] := by
  induction f with
  | nil => rfl
  | cons n ns ih => simp [encNat, List.flatMap_cons, ih]

theorem mem_flatMap_encNat (f : List Nat) (c : Char) (h : c ∈ f.flatMap encNat) :
    c ≠ '.' ∧ c ≠ ',' := by
  simp only [List.mem_flatMap, encNat, List.mem_append, List.mem_singleton] at h
  obtain ⟨n, -, h | h⟩ := h
  · exact ⟨(mem_digits n c h).1, (mem_digits n c h).2.2⟩
  · subst h; decide

theorem field_roundtrip (f : List Nat) :
    (splitTerm ';' (f.flatMap encNat)).map decNat = f := by
  rw [flatMap_encNat, splitTerm_items]
  · rw [List.map_map]
    conv => rhs; rw [← List.map_id f]
    apply List.map_congr_left
    intro n _
    exact decNat_digits n
  · intro x hx
    simp only [List.mem_map] at hx
    obtain ⟨n, -, rfl⟩ := hx
    exact fun hc => (mem_digits n _ hc).2.1 rfl

theorem deser_ser (fields : List (List Nat)) : deser (ser fields) = fields := by
  have e : ser fields = (fields.map fun f => f.flatMap encNat).flatMap fun x => x ++ [','] := by
    induction fields with
    | nil => rfl
    | cons f fs ih =>
      simp only [ser] at ih
      simp [ser, encField, List.flatMap_cons, ih]
  rw [deser, e, splitTerm_items]
  · rw [List.map_map]
    conv => rhs; rw [← List.map_id fields]
    apply List.map_congr_left
    intro f _
    exact field_roundtrip f
  · intro x hx
    simp only [List.mem_map] at hx
    obtain ⟨f, -, rfl⟩ := hx
    exact fun hc => (mem_flatMap_encNat f _ hc).2 rfl

theorem ser_nodot (fields : List (List Nat)) : '.' ∉ ser fields := by
  intro h
  simp only [ser, encField, List.mem_flatMap, List.mem_append, List.mem_singleton] at h
  obtain ⟨f, -, h | h⟩ := h
  · exact (mem_flatMap_encNat f _ (by simpa [List.mem_flatMap] using h)).1 rfl
  · exact absurd h (by decide)

theorem fieldStr_strField (s : String) : fieldStr (strField s) = s := by
  cases s with
  | mk cs =>
    simp only [fieldStr, strField, List.map_map]
    congr 1
    conv => rhs; rw [← List.map_id cs]
    apply List.map_congr_left
    intro c _
    simp

theorem fieldOpt_optField (o : Option Nat) : fieldOpt (optField o) = o := by
  cases o <;> rfl

theorem registered_roundtrip (r : jwt.RegisteredClaims) :
    fieldsRegistered (strField r.Issuer) (strField r.Subject) (strField r.ID)
      (optField r.ExpiresAt) (optField r.NotBefore) (optField r.IssuedAt)
      (r.Audience.map strField) = r := by
  cases r
  simp only [fieldsRegistered, fieldStr_strField, fieldOpt_optField, List.map_map]
  congr 1
  rename_i aud _ _ _ _
  conv => rhs; rw [← List.map_id aud]
  apply List.map_congr_left
  intro s _
  simp [fieldStr_strField]

theorem strField_empty : fieldStr (strField "") = "" := fieldStr_strField ""

theorem length_ser_ge (f : List Nat) (fs : List (List Nat)) : f.length ≤ (ser (f :: fs)).length := by
  have h : f.length ≤ (f.flatMap encNat).length := by
    induction f with
    | nil => simp
    | cons n ns ih =>
      simp only [List.flatMap_cons, List.length_append, List.length_cons, encNat,
        List.length_map, List.length_nil]
      omega
  simp only [ser, List.flatMap_cons, encField, List.length_append]
  omega

end ref

/-- The reference instance of the library parameter. -/
def refLib : jwt.Lib where
  encodeHeader := ref.encodeHeader
  decodeHeader := ref.decodeHeader
  encodeClaims := ref.encodeClaims
  decodeClaims := ref.decodeClaims
  encodeReset := ref.encodeReset
  decodeReset := ref.decodeReset
  mac := ref.mac
  encodeSegment := ref.encodeSegment
  decodeSegment := ref.decodeSegment
  header_roundtrip := by
    intro alg
    simp [ref.decodeHeader, ref.encodeHeader, ref.deser_ser, ref.fieldStr_strField]
  claims_roundtrip := by
    intro c
    simp [ref.decodeClaims, ref.encodeClaims, ref.deser_ser, ref.objectFields,
      ref.registeredFields, ref.fieldStr_strField, ref.registered_roundtrip]
  reset_roundtrip := by
    intro c
    simp [ref.decodeReset, ref.encodeReset, ref.deser_ser, ref.objectFields,
      ref.registeredFields, ref.fieldStr_strField, ref.registered_roundtrip]
  reset_of_claims := by
    intro c
    simp [ref.decodeReset, ref.encodeClaims, ref.deser_ser, ref.objectFields,
      ref.registeredFields, ref.fieldStr_strField, ref.registered_roundtrip]
  claims_of_reset := by
    intro c
    simp [ref.decodeClaims, ref.encodeReset, ref.deser_ser, ref.objectFields,
      ref.registeredFields, ref.fieldStr_strField, ref.registered_roundtrip]
  segment_roundtrip := by
    intro h key text
    simp [ref.decodeSegment, ref.encodeSegment, ref.deser_ser]
  header_nodot := fun _ => ref.ser_nodot _
  claims_nodot := fun _ => ref.ser_nodot _
  reset_nodot := fun _ => ref.ser_nodot _
  segment_nodot := fun _ => ref.ser_nodot _
  claims_size := by
    intro c
    refine Nat.le_trans ?_ (length_le_len _)
    simp only [ref.encodeClaims, ref.objectFields, List.cons_append, String.length]
    refine Nat.le_trans ?_ (ref.length_ser_ge _ _)
    simp [ref.strField]

/-- A reference case table: ASCII letters only. -/
def refCase : unicode.CaseTable where
  ToLower := Char.toLower
  ascii := fun _ _ => rfl

/-! ## Lemmas: the validators -/

theorem jwt.GetSigningMethod_isHMAC (alg : String) (m : jwt.SigningMethod)
    (h : jwt.GetSigningMethod alg = some m) (hm : m.isHMAC = true) :
    alg = "HS256" ∨ alg = "HS384" ∨ alg = "HS512" := by
  have key : ∀ p ∈ jwt.signingMethods, p.2.isHMAC = true →
      p.1 = "HS256" ∨ p.1 = "HS384" ∨ p.1 = "HS512" := by decide
  simp only [jwt.GetSigningMethod, Option.map_eq_some'] at h
  obtain ⟨p, hp, rfl⟩ := h
  have h1 := List.mem_of_find?_eq_some hp
  have h2 := List.find?_some hp
  simp only [beq_iff_eq] at h2
  rw [← h2]
  exact key p h1 hm

/-- A token that `ParseWithClaims` accepts with the repository's Keyfunc has three
segments, a header naming an HMAC method, and registered claims that pass
validation; the token returned is marked valid and carries the decoded claims. -/
theorem jwt.ParseWithClaims_ok {α : Type} (L : jwt.Lib) (decode : String → Option α)
    (registered : α → jwt.RegisteredClaims) (now : Time) (tok key : String) (t : jwt.Token α)
    (h : jwt.ParseWithClaims L decode registered now tok (auth.keyFunc key) = .ok t) :
    ∃ p0 p1 p2 alg, strings.Split tok '.' = [p0, p1, p2] ∧
      L.decodeHeader p0 = some (some alg) ∧
      (alg = "HS256" ∨ alg = "HS384" ∨ alg = "HS512") ∧
      decode p1 = some t.Claims ∧ t.Valid = true ∧
      jwt.Validate now (registered t.Claims) = none := by
  unfold jwt.ParseWithClaims at h
  split at h
  next p0 p1 p2 hsplit =>
    refine ⟨p0, p1, p2, ?_⟩
    cases hh : L.decodeHeader p0 with
    | none => simp [hh] at h
    | some header =>
      cases hc : decode p1 with
      | none => simp [hh, hc] at h
      | some claims =>
        cases header with
        | none => simp [hh, hc] at h
        | some alg =>
          cases hm : jwt.GetSigningMethod alg with
          | none => simp [hh, hc, hm] at h
          | some method =>
            cases hsig : L.decodeSegment p2 with
            | none => simp [hh, hc, hm, hsig] at h
            | some sig =>
              simp only [hh, hc, hm, hsig, auth.keyFunc] at h
              cases hmm : method.isHMAC with
              | false => simp [hmm] at h
              | true =>
                simp only [hmm, Bool.not_true, Bool.false_eq_true, if_false] at h
                split at h
                · cases hv : jwt.Validate now (registered claims) with
                  | some e => simp [hv] at h
                  | none =>
                    simp only [hv, Except.ok.injEq] at h
                    subst h
                    exact ⟨alg, hsplit, rfl, jwt.GetSigningMethod_isHMAC alg method hm hmm,
                      rfl, rfl, hv⟩
                · simp at h
  next => simp at h

theorem auth.ValidateToken_ok (L : jwt.Lib) (secret : String) (now : Time) (tok : String)
    (c : auth.Claims) (h : auth.ValidateToken L secret now tok = .ok c) :
    len secret ≠ 0 ∧ len tok ≤ 1024 ∧ c.RegisteredClaims.Issuer = "empregabem-api" ∧
    ∃ t, jwt.ParseWithClaims L L.decodeClaims (fun c => c.RegisteredClaims) now tok
      (auth.keyFunc secret) = .ok t ∧ t.Claims = c := by
  unfold auth.ValidateToken at h
  split_ifs at h with h1 h2
  split at h
  · simp at h
  · rename_i t ht
    split_ifs at h with h3 h4
    simp only [Except.ok.injEq] at h
    exact ⟨h1, by omega, by rw [← h]; exact not_not.mp h4, t, ht, h⟩

theorem auth.ValidatePasswordResetToken_ok (L : jwt.Lib) (secret : String) (now : Time)
    (tok : String) (c : auth.ResetTokenClaims)
    (h : auth.ValidatePasswordResetToken L secret now tok = .ok c) :
    len secret ≠ 0 ∧ len tok ≤ 1024 ∧ c.RegisteredClaims.Issuer = "empregabem-api-reset" ∧
    ∃ t, jwt.ParseWithClaims L L.decodeReset (fun c => c.RegisteredClaims) now tok
      (auth.keyFunc secret) = .ok t ∧ t.Claims = c := by
  unfold auth.ValidatePasswordResetToken at h
  split_ifs at h with h1 h2
  split at h
  · simp at h
  · rename_i t ht
    split_ifs at h with h3 h4
    have h5 : t.Claims = c := by
      split at h
      · split_ifs at h
        simpa using h
      · simpa using h
    exact ⟨h1, by omega, by rw [← h5]; exact not_not.mp h4, t, ht, h5⟩

theorem auth.ValidateToken_SignedString (L : jwt.Lib) (secret : String) (now : Time)
    (h : jwt.Hash) (c : auth.Claims) (hs : len secret ≠ 0)
    (hl : len (jwt.SignedString L L.encodeClaims h c secret) ≤ 1024)
    (hv : jwt.Validate now c.RegisteredClaims = none) :
    auth.ValidateToken L secret now (jwt.SignedString L L.encodeClaims h c secret) =
      if c.RegisteredClaims.Issuer ≠ "empregabem-api" then .error .invalidIssuer else .ok c := by
  unfold auth.ValidateToken
  rw [jwt.ParseWithClaims_SignedString L L.encodeClaims L.decodeClaims _ now h c c secret
    (L.claims_roundtrip c) (L.claims_nodot c)]
  simp [hs, Nat.not_lt.mpr hl, hv]

theorem auth.Error_of_not_ok {α : Type} (r : Except auth.Error α) (h : ∀ c, r ≠ .ok c) :
    ∃ e, r = .error e := by
  cases r with
  | error e => exact ⟨e, rfl⟩
  | ok c => exact absurd rfl (h c)

theorem auth.Initialize_jwtSecret (old secret : String) (h : 32 ≤ len secret) :
    (auth.Initialize old secret).jwtSecret = secret := by
  simp [auth.Initialize, Nat.not_lt.mpr h]

theorem auth.GenerateToken_eq (L : jwt.Lib) (secret : String) (now : Time) (id kind : String)
    (hs : len secret ≠ 0) :
    auth.GenerateToken L secret now id kind =
      .ok (jwt.SignedString L L.encodeClaims .SHA256
        { ID := id, Type_ := kind,
          RegisteredClaims :=
            { ExpiresAt := some (jwt.NewNumericDate (now + 24 * time.Hour))
              IssuedAt := some (jwt.NewNumericDate now)
              NotBefore := some (jwt.NewNumericDate now)
              Issuer := "empregabem-api" } } secret) := by
  simp [auth.GenerateToken, hs]

theorem auth.ValidateToken_too_large (L : jwt.Lib) (secret : String) (now : Time) (tok : String)
    (hs : len secret ≠ 0) (h : 1024 < len tok) :
    auth.ValidateToken L secret now tok = .error .tokenTooLarge := by
  simp [auth.ValidateToken, hs, h]

theorem auth.ValidatePasswordResetToken_too_large (L : jwt.Lib) (secret : String) (now : Time)
    (tok : String) (hs : len secret ≠ 0) (h : 1024 < len tok) :
    auth.ValidatePasswordResetToken L secret now tok = .error .tokenTooLarge := by
  simp [auth.ValidatePasswordResetToken, hs, h]

/-- A session token issued for an `id` of more than 1024 characters is oversized. -/
theorem auth.GenerateToken_long (L : jwt.Lib) (secret : String) (now now' : Time)
    (id kind : String) (hs : len secret ≠ 0) (hid : 1024 < id.length) :
    ∃ tok, auth.GenerateToken L secret now id kind = .ok tok ∧
      auth.ValidateToken L secret now' tok = .error .tokenTooLarge := by
  refine ⟨_, auth.GenerateToken_eq L secret now id kind hs, ?_⟩
  apply auth.ValidateToken_too_large _ _ _ _ hs
  have h1 := jwt.len_SignedString_ge L L.encodeClaims .SHA256
    { ID := id, Type_ := kind,
      RegisteredClaims :=
        { ExpiresAt := some (jwt.NewNumericDate (now + 24 * time.Hour))
          IssuedAt := some (jwt.NewNumericDate now)
          NotBefore := some (jwt.NewNumericDate now)
          Issuer := "empregabem-api" } } secret
  have h2 := L.claims_size
    { ID := id, Type_ := kind,
      RegisteredClaims :=
        { ExpiresAt := some (jwt.NewNumericDate (now + 24 * time.Hour))
          IssuedAt := some (jwt.NewNumericDate now)
          NotBefore := some (jwt.NewNumericDate now)
          Issuer := "empregabem-api" } }
  simp only at h2
  omega

/-! ## Lemmas: bytes, hexadecimal text and the two token hashes -/

theorem rand.Read_length (src : rand.Source) (n : Nat) (bs : List Nat)
    (h : rand.Read src n = some bs) : bs.length = n := by
  cases src with
  | none => simp [rand.Read] at h
  | some f =>
    simp only [rand.Read, Option.map_some', Option.some.injEq] at h
    subst h
    simp

theorem hex.length_EncodeToString (bs : List Nat) :
    (hex.EncodeToString bs).length = 2 * bs.length := by
  simp only [hex.EncodeToString, String.length]
  induction bs with
  | nil => rfl
  | cons b bs ih =>
    simp only [List.flatMap_cons, List.length_append, List.length_cons, List.length_nil, ih]
    omega

theorem hex.hextable_utf8Size (k : Nat) : (hex.hextable.getD k '0').utf8Size = 1 := by
  by_cases h : k < 16
  · interval_cases k <;> rfl
  · have : hex.hextable.length ≤ k := by simp [hex.hextable]; omega
    rw [List.getD_eq_default _ _ this]
    rfl

theorem hex.len_EncodeToString (bs : List Nat) : len (hex.EncodeToString bs) = 2 * bs.length := by
  simp only [hex.EncodeToString, len, String.utf8ByteSize_mk]
  induction bs with
  | nil => rfl
  | cons b bs ih =>
    simp only [List.flatMap_cons, String.utf8Len_append, String.utf8Len_cons,
      String.utf8Len_nil, List.length_cons, ih, hex.hextable_utf8Size]
    omega

theorem length_bytes (s : String) : (bytes s).length = len s := by
  cases s with
  | mk cs =>
    simp only [bytes, len, String.utf8ByteSize_mk]
    induction cs with
    | nil => rfl
    | cons c cs ih =>
      simp only [List.flatMap_cons, List.length_append, List.length_map,
        String.length_utf8EncodeChar, String.utf8Len_cons, ih]
      omega

theorem auth.length_hashString (s : String) : (auth.hashString s).length = 2 * len s := by
  simp [auth.hashString, hex.length_EncodeToString, length_bytes]

/-- The token hash written into the signed reset token has 128 characters. -/
theorem auth.length_hashString_uniqueToken (src : rand.Source) (bs : List Nat)
    (h : rand.Read src 32 = some bs) :
    (auth.hashString (hex.EncodeToString bs)).length = 128 := by
  rw [auth.length_hashString, hex.len_EncodeToString, rand.Read_length src 32 bs h]

/-- The token hash that `RequestReset` stores has 64 characters, on both paths. -/
theorem auth.length_storedHash (src src' : rand.Source) (bs : List Nat)
    (h : rand.Read src 32 = some bs) :
    (match auth.GenerateSecureToken src' 32 with
      | .ok t => t
      | .error _ => hex.EncodeToString bs).length = 64 := by
  unfold auth.GenerateSecureToken
  cases h' : rand.Read src' 32 with
  | none => simp [hex.length_EncodeToString, rand.Read_length src 32 bs h]
  | some bs' => simp [hex.length_EncodeToString, rand.Read_length src' 32 bs' h']

/-- A reference instance of the bcrypt parameter: the digest is the salt in
hexadecimal followed by the password (at most 72 bytes, as bcrypt requires). -/
def refBcrypt : bcrypt.Lib where
  GenerateFromPassword := fun password _ salt =>
    if 72 < len password then none
    else (rand.Read salt 16).map fun bs => hex.EncodeToString bs ++ password
  CompareHashAndPassword := fun hash password => hash.data.drop 32 == password.data
  compare_generate := by
    intro password cost salt d h
    simp only at h
    split_ifs at h
    cases hr : rand.Read salt 16 with
    | none => simp [hr] at h
    | some bs =>
      simp only [hr, Option.map_some', Option.some.injEq] at h
      subst h
      have hl : (hex.EncodeToString bs).data.length = 32 := by
        have := hex.length_EncodeToString bs
        rw [rand.Read_length salt 16 bs hr] at this
        exact this
      show List.drop 32 (hex.EncodeToString bs ++ password).data == password.data
      rw [String.data_append, ← hl, List.drop_left]
      exact beq_self_eq_true _

/-- The key bcrypt hands to the Blowfish key schedule: the bytes of the password followed by
a zero byte; the schedule, which fills 18 words of four bytes, reads its first 72 bytes. -/
def bcrypt.key (password : String) : List Nat := (bytes password ++ [0]).take 72

/-- A reference instance of the bcrypt parameter with that key handling: the digest is the
salt in hexadecimal followed by the key in hexadecimal; a password of more than 72 bytes is
refused by `GenerateFromPassword` and by it alone. -/
def keyedBcrypt : bcrypt.Lib where
  GenerateFromPassword := fun password _ salt =>
    if 72 < len password then none
    else (rand.Read salt 16).map fun bs =>
      hex.EncodeToString bs ++ hex.EncodeToString (bcrypt.key password)
  CompareHashAndPassword := fun hash password =>
    hash.data.drop 32 == (hex.EncodeToString (bcrypt.key password)).data
  compare_generate := by
    intro password cost salt d h
    simp only at h
    split_ifs at h
    cases hr : rand.Read salt 16 with
    | none => simp [hr] at h
    | some bs =>
      simp only [hr, Option.map_some', Option.some.injEq] at h
      subst h
      have hl : (hex.EncodeToString bs).data.length = 32 := by
        have := hex.length_EncodeToString bs
        rw [rand.Read_length salt 16 bs hr] at this
        exact this
      show List.drop 32 (hex.EncodeToString bs ++ hex.EncodeToString (bcrypt.key password)).data
        == (hex.EncodeToString (bcrypt.key password)).data
      rw [String.data_append, ← hl, List.drop_left]
      exact beq_self_eq_true _

/-! ## Lemmas: a token of one kind shown to the validator of the other -/

theorem auth.ValidatePasswordResetToken_session (L : jwt.Lib) (secret : String) (now : Time)
    (h : jwt.Hash) (c : auth.Claims) (hs : len secret ≠ 0)
    (hiss : c.RegisteredClaims.Issuer = "empregabem-api") :
    auth.ValidatePasswordResetToken L secret now (jwt.SignedString L L.encodeClaims h c secret) =
      if len (jwt.SignedString L L.encodeClaims h c secret) > 1024 then .error .tokenTooLarge
      else
        match jwt.Validate now c.RegisteredClaims with
        | some err => .error (.parse err)
        | none => .error .notResetToken := by
  unfold auth.ValidatePasswordResetToken
  rw [jwt.ParseWithClaims_SignedString L L.encodeClaims L.decodeReset _ now h c
    { RegisteredClaims := c.RegisteredClaims } secret (L.reset_of_claims c) (L.claims_nodot c)]
  simp only [hs, if_false]
  split_ifs
  · rfl
  · cases hv : jwt.Validate now c.RegisteredClaims with
    | some err => rfl
    | none => simp [hiss]

theorem auth.ValidateToken_reset (L : jwt.Lib) (secret : String) (now : Time)
    (h : jwt.Hash) (c : auth.ResetTokenClaims) (hs : len secret ≠ 0)
    (hiss : c.RegisteredClaims.Issuer = "empregabem-api-reset") :
    auth.ValidateToken L secret now (jwt.SignedString L L.encodeReset h c secret) =
      if len (jwt.SignedString L L.encodeReset h c secret) > 1024 then .error .tokenTooLarge
      else
        match jwt.Validate now c.RegisteredClaims with
        | some err => .error (.parse err)
        | none => .error .invalidIssuer := by
  unfold auth.ValidateToken
  rw [jwt.ParseWithClaims_SignedString L L.encodeReset L.decodeClaims _ now h c
    { RegisteredClaims := c.RegisteredClaims } secret (L.claims_of_reset c) (L.reset_nodot c)]
  simp only [hs, if_false]
  split_ifs
  · rfl
  · cases hv : jwt.Validate now c.RegisteredClaims with
    | some err => rfl
    | none => simp [hiss]

theorem auth.ValidatePasswordResetToken_session_valid (L : jwt.Lib) (secret : String)
    (now : Time) (h : jwt.Hash) (c : auth.Claims) (hs : len secret ≠ 0)
    (hiss : c.RegisteredClaims.Issuer = "empregabem-api")
    (hl : len (jwt.SignedString L L.encodeClaims h c secret) ≤ 1024)
    (hv : jwt.Validate now c.RegisteredClaims = none) :
    auth.ValidatePasswordResetToken L secret now (jwt.SignedString L L.encodeClaims h c secret) =
      .error .notResetToken := by
  rw [auth.ValidatePasswordResetToken_session L secret now h c hs hiss,
    if_neg (Nat.not_lt.mpr hl), hv]

theorem auth.ValidateToken_reset_valid (L : jwt.Lib) (secret : String) (now : Time)
    (h : jwt.Hash) (c : auth.ResetTokenClaims) (hs : len secret ≠ 0)
    (hiss : c.RegisteredClaims.Issuer = "empregabem-api-reset")
    (hl : len (jwt.SignedString L L.encodeReset h c secret) ≤ 1024)
    (hv : jwt.Validate now c.RegisteredClaims = none) :
    auth.ValidateToken L secret now (jwt.SignedString L L.encodeReset h c secret) =
      .error .invalidIssuer := by
  rw [auth.ValidateToken_reset L secret now h c hs hiss, if_neg (Nat.not_lt.mpr hl), hv]

theorem auth.GeneratePasswordResetToken_ok (L : jwt.Lib) (U : unicode.CaseTable)
    (secret : String) (now : Time) (src : rand.Source) (email kind tok uniq : String)
    (h : auth.GeneratePasswordResetToken L U secret now src email kind = .ok (tok, uniq)) :
    len secret ≠ 0 ∧ ∃ bs, rand.Read src 32 = some bs ∧ uniq = hex.EncodeToString bs ∧
      tok = jwt.SignedString L L.encodeReset .SHA256
        { Email := auth.SanitizeEmail U email
          UserType := kind
          TokenHash := auth.hashString uniq
          RegisteredClaims :=
            { ExpiresAt := some (jwt.NewNumericDate (now + 15 * time.Minute))
              IssuedAt := some (jwt.NewNumericDate now)
              NotBefore := some (jwt.NewNumericDate now)
              Issuer := "empregabem-api-reset" } } secret := by
  unfold auth.GeneratePasswordResetToken at h
  split_ifs at h with h0
  cases hr : rand.Read src 32 with
  | none => simp [hr] at h
  | some bs =>
    simp only [hr, Except.ok.injEq, Prod.mk.injEq] at h
    exact ⟨h0, bs, rfl, h.2.symm, by rw [← h.2]; exact h.1.symm⟩

/-! ## Lemmas: the reset handlers -/

theorem auth.ValidatePasswordResetToken_SignedString_ok (L : jwt.Lib) (secret : String)
    (now : Time) (h : jwt.Hash) (c c' : auth.ResetTokenClaims)
    (hok : auth.ValidatePasswordResetToken L secret now
      (jwt.SignedString L L.encodeReset h c secret) = .ok c') : c' = c := by
  obtain ⟨-, -, -, t, ht, rfl⟩ := auth.ValidatePasswordResetToken_ok L secret now _ c' hok
  rw [jwt.ParseWithClaims_SignedString L L.encodeReset L.decodeReset _ now h c c secret
    (L.reset_roundtrip c) (L.reset_nodot c)] at ht
  split at ht
  · simp at ht
  · simp only [Except.ok.injEq] at ht
    rw [← ht]

theorem repository.GetByToken_ok (coll : List models.PasswordReset) (now : Time) (fault : Bool)
    (tokenHash : String) (r : models.PasswordReset)
    (h : repository.GetByToken coll now fault tokenHash = .ok r) :
    r ∈ coll ∧ repository.getByTokenFilter now tokenHash r = true := by
  unfold repository.GetByToken at h
  split_ifs at h
  split at h
  · rename_i d hd
    simp only [Except.ok.injEq] at h
    subst h
    exact ⟨List.mem_of_find?_eq_some hd, List.find?_some hd⟩
  · simp at h

theorem repository.GetByToken_unmatched (coll : List models.PasswordReset) (now : Time)
    (tokenHash : String)
    (h : ∀ r ∈ coll, repository.getByTokenFilter now tokenHash r = false) :
    repository.GetByToken coll now false tokenHash = .error .ErrNoDocuments := by
  cases hg : repository.GetByToken coll now false tokenHash with
  | ok r =>
    obtain ⟨hm, hf⟩ := repository.GetByToken_ok coll now false tokenHash r hg
    rw [h r hm] at hf
    exact absurd hf (by decide)
  | error e =>
    unfold repository.GetByToken at hg
    simp only [Bool.false_eq_true, if_false] at hg
    split at hg
    · simp at hg
    · simp only [Except.error.injEq] at hg
      rw [← hg]

/-- When no stored record passes the filter of `GetByToken` for the hash claim of the
token presented, `ResetPassword` changes nothing and answers 400, 401 or 500; with a
strong password, a valid token and a working lookup the answer is the 401 of a token
that is invalid, expired or already used. -/
theorem handlers.ResetPassword_unmatched (L : jwt.Lib) (B : bcrypt.Lib) (secret : String)
    (env : handlers.ResetPasswordEnv) (db : handlers.DB)
    (req : handlers.ResetPasswordRequest)
    (h : ∀ claims, auth.ValidatePasswordResetToken L secret env.now req.Token = .ok claims →
      ∀ r ∈ db.resets, repository.getByTokenFilter env.now claims.TokenHash r = false) :
    (handlers.ResetPassword L B secret env db (some req)).2 = db ∧
    ((handlers.ResetPassword L B secret env db (some req)).1.status = 400 ∨
     (handlers.ResetPassword L B secret env db (some req)).1.status = 401 ∨
     (handlers.ResetPassword L B secret env db (some req)).1.status = 500) ∧
    (req.Token ≠ "" → auth.ValidatePasswordStrength req.NewPassword = none →
      (∃ claims, auth.ValidatePasswordResetToken L secret env.now req.Token = .ok claims) →
      env.getByTokenFault = false →
      (handlers.ResetPassword L B secret env db (some req)).1 =
        handlers.erro 401 "Token inválido, expirado ou já utilizado") := by
  unfold handlers.ResetPassword
  simp only
  by_cases h1 : req.Token = "" ∨ req.NewPassword = ""
  · rw [if_pos h1]
    refine ⟨rfl, Or.inl rfl, ?_⟩
    intro ht hp
    rcases h1 with h1 | h1
    · exact absurd h1 ht
    · rw [h1] at hp
      exact absurd hp (by decide)
  · rw [if_neg h1]
    cases hp : auth.ValidatePasswordStrength req.NewPassword with
    | some text => exact ⟨rfl, Or.inl rfl, fun _ hp' => absurd hp' (by simp)⟩
    | none =>
      cases hv : auth.ValidatePasswordResetToken L secret env.now req.Token with
      | error e =>
        refine ⟨rfl, Or.inr (Or.inl rfl), ?_⟩
        rintro - - ⟨claims, hc⟩
        simp at hc
      | ok claims =>
        have hnone := h claims hv
        cases hf : env.getByTokenFault with
        | true =>
          have hg : repository.GetByToken db.resets env.now true claims.TokenHash =
              .error .other := by simp [repository.GetByToken]
          dsimp only
          rw [hg]
          exact ⟨rfl, Or.inr (Or.inr rfl), fun _ _ _ hff => absurd hff (by simp)⟩
        | false =>
          dsimp only
          rw [repository.GetByToken_unmatched db.resets env.now claims.TokenHash hnone]
          exact ⟨rfl, Or.inr (Or.inl rfl), fun _ _ _ _ => rfl⟩

/-- What a call of `RequestReset` does: either it leaves the store as it is and returns no
`dev_token`, or it has drawn 32 bytes, returns the token signed over `issuedClaims` as
`dev_token`, and leaves the store as it is or with one record added, whose token hash
has 64 characters. -/
theorem handlers.RequestReset_cases (L : jwt.Lib) (U : unicode.CaseTable) (secret : String)
    (env : handlers.RequestResetEnv) (db : handlers.DB)
    (body : Option handlers.RequestResetRequest) :
    ((handlers.RequestReset L U secret env db body).2 = db ∧
      (handlers.RequestReset L U secret env db body).1.field "dev_token" = none) ∨
    ∃ req bs r, body = some req ∧ len secret ≠ 0 ∧ rand.Read env.tokenEntropy 32 = some bs ∧
      (handlers.RequestReset L U secret env db body).1.field "dev_token" =
        some (jwt.SignedString L L.encodeReset .SHA256
          (handlers.issuedClaims U env.now bs req) secret) ∧
      r.ID = env.newID ∧ r.Email = auth.SanitizeEmail U req.Email ∧
      r.UserType = req.UserType ∧
      r.Token = jwt.SignedString L L.encodeReset .SHA256
          (handlers.issuedClaims U env.now bs req) secret ∧
      r.TokenHash.length = 64 ∧ r.Used = false ∧
      r.ExpiresAt = bson.DateTime (env.now + 15 * time.Minute) ∧
      ((handlers.RequestReset L U secret env db body).2 = db ∨
       (handlers.RequestReset L U secret env db body).2 =
         { db with resets := db.resets ++ [r] }) := by
  unfold handlers.RequestReset
  cases body with
  | none => exact Or.inl ⟨rfl, rfl⟩
  | some req =>
    dsimp only
    by_cases h1 : req.Email = "" ∨ req.UserType = ""
    · rw [if_pos h1]; exact Or.inl ⟨rfl, rfl⟩
    · rw [if_neg h1]
      by_cases h2 : req.UserType ≠ "company" ∧ req.UserType ≠ "candidate"
      · rw [if_pos h2]; exact Or.inl ⟨rfl, rfl⟩
      · rw [if_neg h2]
        cases hue : handlers.userExists db env.getByEmailFault req.UserType
          (auth.SanitizeEmail U req.Email) with
        | false => exact Or.inl ⟨rfl, rfl⟩
        | true =>
          rw [if_pos rfl]
          cases hg : auth.GeneratePasswordResetToken L U secret env.now env.tokenEntropy
            (auth.SanitizeEmail U req.Email) req.UserType with
          | error e => exact Or.inl ⟨rfl, rfl⟩
          | ok p =>
            obtain ⟨tok, uniq⟩ := p
            obtain ⟨hs, bs, hr, hu, ht⟩ := auth.GeneratePasswordResetToken_ok L U secret env.now
              env.tokenEntropy _ _ tok uniq hg
            right
            dsimp only
            have hlen := auth.length_storedHash env.tokenEntropy env.hashEntropy bs hr
            rw [← hu] at hlen
            refine ⟨req, bs,
              { ID := env.newID
                Email := auth.SanitizeEmail U req.Email
                UserType := req.UserType
                Token := tok
                TokenHash :=
                  match auth.GenerateSecureToken env.hashEntropy 32 with
                  | .ok t => t
                  | .error _ => uniq
                Used := false
                CreatedAt := bson.DateTime env.now
                ExpiresAt := bson.DateTime (env.now + 15 * time.Minute)
                UsedAt := none },
              rfl, hs, hr, ?_, rfl, rfl, rfl, ?_, hlen, rfl, rfl, ?_⟩
            · rw [ht, hu]; rfl
            · rw [ht, hu]; rfl
            · unfold repository.Create
              dsimp only
              split_ifs
              · exact Or.inl rfl
              · exact Or.inl rfl
              · exact Or.inr rfl

theorem handlers.updatePassword_resets (env : handlers.ResetPasswordEnv) (db db' : handlers.DB)
    (claims : auth.ResetTokenClaims) (hashed : String)
    (h : handlers.updatePassword env db claims hashed = .ok db') : db'.resets = db.resets := by
  unfold handlers.updatePassword at h
  split_ifs at h
  · split at h
    · simp at h
    · dsimp only at h
      split at h
      · simp at h
      · simp only [Except.ok.injEq] at h
        rw [← h]
  · split at h
    · simp at h
    · dsimp only at h
      split at h
      · simp at h
      · simp only [Except.ok.injEq] at h
        rw [← h]

/-- What a call of `ResetPassword` does: either it changes nothing and answers another
status than 200, or every check passed, the account was updated, and the reset records
are those of before after `MarkAsUsed` on the record found and `InvalidateAllForUser` on
the identity of the claims. -/
theorem handlers.ResetPassword_cases (L : jwt.Lib) (B : bcrypt.Lib) (secret : String)
    (env : handlers.ResetPasswordEnv) (db : handlers.DB)
    (body : Option handlers.ResetPasswordRequest) :
    ((handlers.ResetPassword L B secret env db body).2 = db ∧
      (handlers.ResetPassword L B secret env db body).1.status ≠ 200) ∨
    ∃ req claims reset hashed db', body = some req ∧
      auth.ValidatePasswordStrength req.NewPassword = none ∧
      auth.ValidatePasswordResetToken L secret env.now req.Token = .ok claims ∧
      repository.GetByToken db.resets env.now env.getByTokenFault claims.TokenHash = .ok reset ∧
      auth.HashPassword B env.salt req.NewPassword = .ok hashed ∧
      handlers.updatePassword env db claims hashed = .ok db' ∧
      (handlers.ResetPassword L B secret env db body).1.status = 200 ∧
      (handlers.ResetPassword L B secret env db body).2 =
        { db' with resets :=
            (repository.InvalidateAllForUser
              (repository.MarkAsUsed db.resets env.now env.markAsUsedFault reset.ID).1
              env.invalidateFault claims.Email claims.UserType).1 } := by
  unfold handlers.ResetPassword
  cases body with
  | none => exact Or.inl ⟨rfl, by simp [handlers.erro]⟩
  | some req =>
    dsimp only
    by_cases h1 : req.Token = "" ∨ req.NewPassword = ""
    · rw [if_pos h1]; exact Or.inl ⟨rfl, by simp [handlers.erro]⟩
    · rw [if_neg h1]
      cases hp : auth.ValidatePasswordStrength req.NewPassword with
      | some text => exact Or.inl ⟨rfl, by simp [handlers.erro]⟩
      | none =>
        cases hv : auth.ValidatePasswordResetToken L secret env.now req.Token with
        | error e => exact Or.inl ⟨rfl, by simp [handlers.erro]⟩
        | ok claims =>
          dsimp only
          cases hg : repository.GetByToken db.resets env.now env.getByTokenFault
            claims.TokenHash with
          | error e => cases e <;> exact Or.inl ⟨rfl, by simp [handlers.erro]⟩
          | ok reset =>
            dsimp only
            cases hh : auth.HashPassword B env.salt req.NewPassword with
            | error e => exact Or.inl ⟨rfl, by simp [handlers.erro]⟩
            | ok hashed =>
              dsimp only
              cases hu : handlers.updatePassword env db claims hashed with
              | error resp =>
                refine Or.inl ⟨rfl, ?_⟩
                dsimp only
                unfold handlers.updatePassword at hu
                split_ifs at hu
                · split at hu
                  · simp only [Except.error.injEq] at hu
                    rw [← hu]; decide
                  · dsimp only at hu
                    split at hu
                    · simp only [Except.error.injEq] at hu
                      rw [← hu]; decide
                    · simp at hu
                · split at hu
                  · simp only [Except.error.injEq] at hu
                    rw [← hu]; decide
                  · dsimp only at hu
                    split at hu
                    · simp only [Except.error.injEq] at hu
                      rw [← hu]; decide
                    · simp at hu
              | ok db' =>
                right
                have hr := handlers.updatePassword_resets env db db' claims hashed hu
                exact ⟨req, claims, reset, hashed, db', rfl, hp, hv, hg, hh, hu, rfl,
                  by dsimp only; rw [hr]⟩

theorem mongo.mem_updateOne {α : Type} (filter : α → Bool) (update : α → α) (coll : List α)
    (d : α) (h : d ∈ mongo.updateOne filter update coll) :
    d ∈ coll ∨ ∃ d0 ∈ coll, filter d0 = true ∧ d = update d0 := by
  induction coll with
  | nil => simp [mongo.updateOne] at h
  | cons x xs ih =>
    unfold mongo.updateOne at h
    split_ifs at h with hx
    · simp only [List.mem_cons] at h
      rcases h with h | h
      · exact Or.inr ⟨x, by simp, hx, h⟩
      · exact Or.inl (by simp [h])
    · simp only [List.mem_cons] at h
      rcases h with h | h
      · exact Or.inl (by simp [h])
      · rcases ih h with h' | ⟨d0, hd0, hf, he⟩
        · exact Or.inl (by simp [h'])
        · exact Or.inr ⟨d0, by simp [hd0], hf, he⟩

theorem mongo.mem_updateMany {α : Type} (filter : α → Bool) (update : α → α) (coll : List α)
    (d : α) (h : d ∈ mongo.updateMany filter update coll) :
    (d ∈ coll ∧ filter d = false) ∨ ∃ d0 ∈ coll, filter d0 = true ∧ d = update d0 := by
  simp only [mongo.updateMany, List.mem_map] at h
  obtain ⟨d0, hd0, he⟩ := h
  by_cases hf : filter d0 = true
  · rw [if_pos hf] at he
    exact Or.inr ⟨d0, hd0, hf, he.symm⟩
  · rw [if_neg hf] at he
    subst he
    exact Or.inl ⟨hd0, by simpa using hf⟩

/-- The update operations `MarkAsUsed` and `InvalidateAllForUser` keep the token hash of every record. -/
theorem repository.MarkAsUsed_hash (coll : List models.PasswordReset) (now : Time) (fault : Bool)
    (id : bson.ObjectID) (r : models.PasswordReset)
    (h : r ∈ (repository.MarkAsUsed coll now fault id).1) :
    ∃ r0 ∈ coll, r.TokenHash = r0.TokenHash := by
  unfold repository.MarkAsUsed at h
  split_ifs at h
  · exact ⟨r, h, rfl⟩
  · rcases mongo.mem_updateOne _ _ _ _ h with h' | ⟨d0, hd0, -, he⟩
    · exact ⟨r, h', rfl⟩
    · exact ⟨d0, hd0, by rw [he]⟩

theorem repository.InvalidateAllForUser_hash (coll : List models.PasswordReset) (fault : Bool)
    (email userType : String) (r : models.PasswordReset)
    (h : r ∈ (repository.InvalidateAllForUser coll fault email userType).1) :
    ∃ r0 ∈ coll, r.TokenHash = r0.TokenHash := by
  unfold repository.InvalidateAllForUser at h
  split_ifs at h
  · exact ⟨r, h, rfl⟩
  · rcases mongo.mem_updateMany _ _ _ _ h with ⟨h', -⟩ | ⟨d0, hd0, -, he⟩
    · exact ⟨r, h', rfl⟩
    · exact ⟨d0, hd0, by rw [he]⟩

/-- In every reachable state, every stored token hash has 64 characters. -/
theorem handlers.Reachable_hash_length (L : jwt.Lib) (U : unicode.CaseTable) (B : bcrypt.Lib)
    (secret : String) (db : handlers.DB) (h : handlers.Reachable L U B secret db) :
    ∀ r ∈ db.resets, r.TokenHash.length = 64 := by
  induction h with
  | init db h0 => intro r hr; rw [h0] at hr; simp at hr
  | requestReset db env body _ ih =>
    intro r hr
    rcases handlers.RequestReset_cases L U secret env db body with ⟨h2, -⟩ |
      ⟨req, bs, r', -, -, -, -, -, -, -, -, hlen, -, -, h2 | h2⟩
    · rw [h2] at hr; exact ih r hr
    · rw [h2] at hr; exact ih r hr
    · rw [h2] at hr
      simp only [List.mem_append, List.mem_singleton] at hr
      rcases hr with hr | hr
      · exact ih r hr
      · rw [hr]; exact hlen
  | resetPassword db env body _ ih =>
    intro r hr
    rcases handlers.ResetPassword_cases L B secret env db body with ⟨h2, -⟩ |
      ⟨req, claims, reset, hashed, db', -, -, -, -, -, -, -, h2⟩
    · rw [h2] at hr; exact ih r hr
    · rw [h2] at hr
      obtain ⟨r1, hr1, e1⟩ := repository.InvalidateAllForUser_hash _ _ _ _ r hr
      obtain ⟨r0, hr0, e0⟩ := repository.MarkAsUsed_hash _ _ _ _ r1 hr1
      rw [e1, e0]
      exact ih r0 hr0

/-- The signed token that any call of `RequestReset` returned is never redeemed: in every
reachable state `ResetPassword` with that token changes nothing and answers 400, 401 or
500, because the hash in its claims has 128 characters and every stored one 64. -/
theorem handlers.ResetPassword_issued_token (L : jwt.Lib) (U : unicode.CaseTable)
    (B : bcrypt.Lib) (secret : String) (db0 db : handlers.DB) (env0 : handlers.RequestResetEnv)
    (body0 : Option handlers.RequestResetRequest) (env : handlers.ResetPasswordEnv)
    (req : handlers.ResetPasswordRequest) (hreach : handlers.Reachable L U B secret db)
    (hissued : (handlers.RequestReset L U secret env0 db0 body0).1.field "dev_token" =
      some req.Token) :
    (handlers.ResetPassword L B secret env db (some req)).2 = db ∧
    ((handlers.ResetPassword L B secret env db (some req)).1.status = 400 ∨
     (handlers.ResetPassword L B secret env db (some req)).1.status = 401 ∨
     (handlers.ResetPassword L B secret env db (some req)).1.status = 500) ∧
    (req.Token ≠ "" → auth.ValidatePasswordStrength req.NewPassword = none →
      (∃ claims, auth.ValidatePasswordResetToken L secret env.now req.Token = .ok claims) →
      env.getByTokenFault = false →
      (handlers.ResetPassword L B secret env db (some req)).1 =
        handlers.erro 401 "Token inválido, expirado ou já utilizado") := by
  apply handlers.ResetPassword_unmatched
  intro claims hclaims r hr
  rcases handlers.RequestReset_cases L U secret env0 db0 body0 with ⟨-, h2⟩ |
    ⟨req0, bs, r', -, -, hrand, htok, -⟩
  · rw [h2] at hissued; simp at hissued
  · rw [htok] at hissued
    simp only [Option.some.injEq] at hissued
    rw [← hissued] at hclaims
    have hc := auth.ValidatePasswordResetToken_SignedString_ok L secret env.now _ _ claims hclaims
    have h64 := handlers.Reachable_hash_length L U B secret db hreach r hr
    have h128 : claims.TokenHash.length = 128 := by
      rw [hc]
      exact auth.length_hashString_uniqueToken env0.tokenEntropy bs hrand
    have hne : r.TokenHash ≠ claims.TokenHash := by
      intro e
      rw [e, h128] at h64
      exact absurd h64 (by decide)
    simp [repository.getByTokenFilter, hne]

theorem auth.ValidatePasswordResetToken_SignedString (L : jwt.Lib) (secret : String)
    (now : Time) (h : jwt.Hash) (c : auth.ResetTokenClaims) (hs : len secret ≠ 0)
    (hl : len (jwt.SignedString L L.encodeReset h c secret) ≤ 1024)
    (hv : jwt.Validate now c.RegisteredClaims = none)
    (hiss : c.RegisteredClaims.Issuer = "empregabem-api-reset") :
    auth.ValidatePasswordResetToken L secret now (jwt.SignedString L L.encodeReset h c secret) =
      .ok c := by
  unfold auth.ValidatePasswordResetToken
  rw [jwt.ParseWithClaims_SignedString L L.encodeReset L.decodeReset _ now h c c secret
    (L.reset_roundtrip c) (L.reset_nodot c)]
  simp only [hs, if_false, Nat.not_lt.mpr hl, hv, hiss, ne_eq, not_true_eq_false, if_true]
  cases he : c.RegisteredClaims.ExpiresAt with
  | none => rfl
  | some e =>
    have hlt : ¬ e.Time < now := by
      intro hlt
      simp only [jwt.Validate, he] at hv
      have : now < e.Time ∨ ¬ now < e.Time := Classical.em _
      rcases this with h1 | h1
      · exact Nat.lt_asymm h1 hlt
      · simp [h1] at hv
    simp [hlt]

theorem auth.ValidatePasswordResetToken_ne_empty (L : jwt.Lib) (secret : String) (now : Time)
    (tok : String) (c : auth.ResetTokenClaims)
    (h : auth.ValidatePasswordResetToken L secret now tok = .ok c) : tok ≠ "" := by
  intro he
  obtain ⟨-, -, -, t, ht, -⟩ := auth.ValidatePasswordResetToken_ok L secret now tok c h
  obtain ⟨p0, p1, p2, alg, hsplit, -⟩ := jwt.ParseWithClaims_ok L L.decodeReset _ now tok secret t ht
  rw [he] at hsplit
  simp [strings.Split, strings.splitChars] at hsplit

/-- The successful path of `ResetPassword`. -/
theorem handlers.ResetPassword_ok (L : jwt.Lib) (B : bcrypt.Lib) (secret : String)
    (env : handlers.ResetPasswordEnv) (db db' : handlers.DB) (req : handlers.ResetPasswordRequest)
    (claims : auth.ResetTokenClaims) (reset : models.PasswordReset) (hashed : String)
    (hne : req.NewPassword ≠ "")
    (hp : auth.ValidatePasswordStrength req.NewPassword = none)
    (hv : auth.ValidatePasswordResetToken L secret env.now req.Token = .ok claims)
    (hg : repository.GetByToken db.resets env.now env.getByTokenFault claims.TokenHash =
      .ok reset)
    (hh : auth.HashPassword B env.salt req.NewPassword = .ok hashed)
    (hu : handlers.updatePassword env db claims hashed = .ok db') :
    handlers.ResetPassword L B secret env db (some req) =
      ({ status := 200
         body := [("mensagem", "Senha alterada com sucesso! Faça login com a nova senha.")] },
       { db' with resets :=
           (repository.InvalidateAllForUser
             (repository.MarkAsUsed db.resets env.now env.markAsUsedFault reset.ID).1
             env.invalidateFault claims.Email claims.UserType).1 }) := by
  have ht := auth.ValidatePasswordResetToken_ne_empty L secret env.now req.Token claims hv
  have hr := handlers.updatePassword_resets env db db' claims hashed hu
  unfold handlers.ResetPassword
  dsimp only
  rw [if_neg (by simp [ht, hne]), hp]
  dsimp only
  rw [hv]
  dsimp only
  rw [hg]
  dsimp only
  rw [hh]
  dsimp only
  rw [hu]
  dsimp only
  rw [hr]

/-- After a successful `InvalidateAllForUser`, every record of the identity is used. -/
theorem repository.InvalidateAllForUser_used (coll : List models.PasswordReset)
    (email userType : String) (r : models.PasswordReset)
    (h : r ∈ (repository.InvalidateAllForUser coll false email userType).1)
    (he : r.Email = email) (hk : r.UserType = userType) : r.Used = true := by
  simp only [repository.InvalidateAllForUser, Bool.false_eq_true, if_false] at h
  rcases mongo.mem_updateMany _ _ _ _ h with ⟨-, hf⟩ | ⟨d0, -, -, hd⟩
  · simp only [he, hk, beq_self_eq_true, Bool.true_and, beq_eq_false_iff_ne, ne_eq,
      Bool.not_eq_false] at hf
    exact hf
  · rw [hd]

theorem repository.activeFor_eq_nil (now : Time) (email userType : String)
    (coll : List models.PasswordReset)
    (h : ∀ r ∈ coll, r.Email = email → r.UserType = userType → r.Used = true) :
    repository.activeFor now email userType coll = [] := by
  simp only [repository.activeFor, List.filter_eq_nil_iff]
  intro r hr hf
  simp only [Bool.and_eq_true, beq_iff_eq, repository.isActive] at hf
  have := h r hr hf.1.1 hf.1.2
  rw [this] at hf
  exact absurd hf.2.1 (by decide)

/-- In a store whose record ids are pairwise distinct, after a successful `MarkAsUsed id`
every record with that id is used. -/
theorem repository.MarkAsUsed_used (coll : List models.PasswordReset) (now : Time)
    (id : bson.ObjectID) (hd : coll.Pairwise fun a b => a.ID ≠ b.ID) :
    ∀ r ∈ (repository.MarkAsUsed coll now false id).1, r.ID = id → r.Used = true := by
  simp only [repository.MarkAsUsed, Bool.false_eq_true, if_false]
  induction coll with
  | nil => simp [mongo.updateOne]
  | cons x xs ih =>
    rw [List.pairwise_cons] at hd
    intro r hr hid
    unfold mongo.updateOne at hr
    by_cases hx : x.ID = id
    · simp only [hx, beq_self_eq_true, if_true, List.mem_cons] at hr
      rcases hr with hr | hr
      · rw [hr]
      · exact absurd (hid.trans hx.symm).symm (hd.1 r hr)
    · simp only [beq_iff_eq, hx, if_false, List.mem_cons] at hr
      rcases hr with hr | hr
      · rw [hr] at hid; exact absurd hid hx
      · exact ih hd.2 r hr hid

/-! ## Lemmas: the authorization middleware -/

theorem textproto.canonical_Authorization :
    textproto.CanonicalMIMEHeaderKey "Authorization" = "Authorization" := by
  decide

theorem strings.takeWhile_ne_append (sep : Char) (a rest : List Char) (h : sep ∉ a) :
    (a ++ sep :: rest).takeWhile (fun c => c != sep) = a ∧
    (a ++ sep :: rest).dropWhile (fun c => c != sep) = sep :: rest := by
  induction a with
  | nil => simp
  | cons c cs ih =>
    simp only [List.mem_cons, not_or] at h
    have hc : c ≠ sep := fun e => h.1 e.symm
    have ih' := ih h.2
    simp [List.takeWhile_cons, List.dropWhile_cons, hc, ih'.1, ih'.2]

theorem strings.SplitN_append (a rest : String) (h : ' ' ∉ a.data) :
    strings.SplitN (a ++ " " ++ rest) ' ' = [a, rest] := by
  have e : (a ++ " " ++ rest).data = a.data ++ ' ' :: rest.data := by
    simp [String.data_append]
  have k := strings.takeWhile_ne_append ' ' a.data rest.data h
  simp only [strings.SplitN, e, k.1, k.2]

theorem strings.SplitN_two (s p0 p1 : String) (h : strings.SplitN s ' ' = [p0, p1]) :
    s = p0 ++ " " ++ p1 := by
  unfold strings.SplitN at h
  split at h
  · simp at h
  · rename_i x rest hd
    simp only [List.cons.injEq, and_true] at h
    obtain ⟨rfl, rfl⟩ := h
    have hx : x = ' ' := by
      have := List.head_dropWhile_not (fun c => c != ' ') s.data (by rw [hd]; simp)
      simp only [hd, List.head_cons, bne_iff_ne, ne_eq, Bool.not_eq_true,
        Bool.decide_eq_false, Bool.not_eq_eq_eq_not, Bool.not_true, bne_eq_false_iff_eq] at this
      exact this
    subst hx
    have hs : s.data = s.data.takeWhile (fun c => c != ' ') ++ ' ' :: rest := by
      rw [← hd]
      exact (List.takeWhile_append_dropWhile _ _).symm
    apply String.ext
    simp only [String.data_append, List.append_assoc]
    exact hs

theorem strings.SplitN_length (s : String) :
    (strings.SplitN s ' ').length = 1 ∨
      ∃ p0 p1, strings.SplitN s ' ' = [p0, p1] := by
  unfold strings.SplitN
  split
  · exact Or.inl rfl
  · exact Or.inr ⟨_, _, rfl⟩

/-- The header has the form `Bearer`, one space, anything: what the check on `parts`
of `AuthMiddleware` accepts. -/
theorem middleware.parts_iff (authHeader : String) :
    (¬ ((strings.SplitN authHeader ' ').length ≠ 2 ∨
        (strings.SplitN authHeader ' ').getD 0 "" ≠ "Bearer")) ↔
      ∃ rest, authHeader = "Bearer " ++ rest := by
  constructor
  · intro h
    simp only [not_or, not_not] at h
    rcases strings.SplitN_length authHeader with h1 | ⟨p0, p1, h2⟩
    · rw [h1] at h; exact absurd h.1 (by decide)
    · rw [h2] at h
      simp only [List.getD_cons_zero] at h
      have := strings.SplitN_two authHeader p0 p1 h2
      rw [h.2] at this
      exact ⟨p1, this⟩
  · rintro ⟨rest, rfl⟩
    have : strings.SplitN ("Bearer" ++ " " ++ rest) ' ' = ["Bearer", rest] :=
      strings.SplitN_append "Bearer" rest (by decide)
    have e : ("Bearer " : String) ++ rest = "Bearer" ++ " " ++ rest := by
      apply String.ext; simp [String.data_append]
    rw [e, this]
    simp

theorem middleware.parts_rest (rest : String) :
    (strings.SplitN ("Bearer " ++ rest) ' ').getD 1 "" = rest := by
  have : strings.SplitN ("Bearer" ++ " " ++ rest) ' ' = ["Bearer", rest] :=
    strings.SplitN_append "Bearer" rest (by decide)
  have e : ("Bearer " : String) ++ rest = "Bearer" ++ " " ++ rest := by
    apply String.ext; simp [String.data_append]
  rw [e, this]
  rfl

theorem middleware.bearer_ne_empty (rest : String) : ("Bearer " : String) ++ rest ≠ "" := by
  intro h
  have := congrArg String.length h
  simp only [String.length_append] at this
  have h7 : ("Bearer " : String).length = 7 := by decide
  have h0 : ("" : String).length = 0 := by decide
  omega

/-- The refusals of `AuthMiddleware` before any token is looked at. -/
theorem middleware.AuthMiddleware_absent (L : jwt.Lib) (secret : String) (now : Time)
    (next : http.HandlerFunc) (r : http.Request) (w : http.ResponseWriter)
    (h : r.Get "Authorization" = "") :
    middleware.AuthMiddleware L secret now next r w =
      .ok (middleware.refuse (middleware.securityHeaders w) 401 "Token não fornecido") := by
  simp only [middleware.AuthMiddleware, h, if_true, http.StatusUnauthorized]

theorem middleware.AuthMiddleware_oversize (L : jwt.Lib) (secret : String) (now : Time)
    (next : http.HandlerFunc) (r : http.Request) (w : http.ResponseWriter)
    (h0 : r.Get "Authorization" ≠ "") (h : 1024 < len (r.Get "Authorization")) :
    middleware.AuthMiddleware L secret now next r w =
      .ok (middleware.refuse (middleware.securityHeaders w) 401
        "Header de autorização muito grande") := by
  simp only [middleware.AuthMiddleware, h0, if_false, gt_iff_lt, h, if_true,
    http.StatusUnauthorized]

theorem middleware.AuthMiddleware_malformed (L : jwt.Lib) (secret : String) (now : Time)
    (next : http.HandlerFunc) (r : http.Request) (w : http.ResponseWriter)
    (h0 : r.Get "Authorization" ≠ "") (h1 : len (r.Get "Authorization") ≤ 1024)
    (h : ¬ ∃ rest, r.Get "Authorization" = "Bearer " ++ rest) :
    middleware.AuthMiddleware L secret now next r w =
      .ok (middleware.refuse (middleware.securityHeaders w) 401
        "Formato de token inválido") := by
  have hp := (not_congr (middleware.parts_iff (r.Get "Authorization"))).mpr h
  simp only [not_not] at hp
  simp only [middleware.AuthMiddleware, h0, if_false, gt_iff_lt, Nat.not_lt.mpr h1,
    http.StatusUnauthorized]
  rw [if_pos hp]

/-- For a header of the form `Bearer`, one space, `rest` within the size limit,
`AuthMiddleware` goes by the trimmed `rest`. -/
theorem middleware.AuthMiddleware_bearer (L : jwt.Lib) (secret : String) (now : Time)
    (next : http.HandlerFunc) (r : http.Request) (w : http.ResponseWriter) (rest : String)
    (h : r.Get "Authorization" = "Bearer " ++ rest)
    (h1 : len (r.Get "Authorization") ≤ 1024) :
    middleware.AuthMiddleware L secret now next r w =
      if strings.TrimSpace rest = "" then
        .ok (middleware.refuse (middleware.securityHeaders w) 401 "Token vazio")
      else
        match auth.ValidateToken L secret now (strings.TrimSpace rest) with
        | .error _ => .ok (middleware.refuse (middleware.securityHeaders w) 401
            "Token inválido ou expirado")
        | .ok claims =>
          next (r.WithContext (context.WithValue
            (context.WithValue r.ctx middleware.UserIDKey claims.ID)
            middleware.UserTypeKey claims.Type_)) (middleware.securityHeaders w) := by
  have h0 : r.Get "Authorization" ≠ "" := by rw [h]; exact middleware.bearer_ne_empty rest
  have hp := (middleware.parts_iff (r.Get "Authorization")).mpr ⟨rest, h⟩
  have hr : (strings.SplitN (r.Get "Authorization") ' ').getD 1 "" = rest := by
    rw [h]; exact middleware.parts_rest rest
  simp only [middleware.AuthMiddleware, h0, if_false, gt_iff_lt, Nat.not_lt.mpr h1,
    http.StatusUnauthorized]
  rw [if_neg hp, hr]

theorem auth.ValidateToken_ne_empty (L : jwt.Lib) (secret : String) (now : Time)
    (tok : String) (c : auth.Claims) (h : auth.ValidateToken L secret now tok = .ok c) :
    tok ≠ "" := by
  intro he
  obtain ⟨-, -, -, t, ht, -⟩ := auth.ValidateToken_ok L secret now tok c h
  obtain ⟨p0, p1, p2, alg, hsplit, -⟩ := jwt.ParseWithClaims_ok L L.decodeClaims _ now tok secret t ht
  rw [he] at hsplit
  simp [strings.Split, strings.splitChars] at hsplit

theorem middleware.authenticated_values (r : http.Request) (claims : auth.Claims) :
    context.Value (middleware.authenticated r claims).ctx middleware.UserIDKey =
      some claims.ID ∧
    context.Value (middleware.authenticated r claims).ctx middleware.UserTypeKey =
      some claims.Type_ := by
  constructor
  · simp [middleware.authenticated, http.Request.WithContext, context.Value,
      context.WithValue, List.lookup, middleware.UserIDKey, middleware.UserTypeKey]
  · simp [middleware.authenticated, http.Request.WithContext, context.Value,
      context.WithValue, List.lookup, middleware.UserTypeKey]

theorem middleware.AuthMiddleware_accepted (L : jwt.Lib) (secret : String) (now : Time)
    (next : http.HandlerFunc) (r : http.Request) (w : http.ResponseWriter) (rest : String)
    (claims : auth.Claims) (h : r.Get "Authorization" = "Bearer " ++ rest)
    (h1 : len (r.Get "Authorization") ≤ 1024)
    (hv : auth.ValidateToken L secret now (strings.TrimSpace rest) = .ok claims) :
    middleware.AuthMiddleware L secret now next r w =
      next (middleware.authenticated r claims) (middleware.securityHeaders w) := by
  rw [middleware.AuthMiddleware_bearer L secret now next r w rest h h1,
    if_neg (auth.ValidateToken_ne_empty L secret now _ claims hv), hv]
  rfl

theorem middleware.AuthMiddleware_invalid (L : jwt.Lib) (secret : String) (now : Time)
    (next : http.HandlerFunc) (r : http.Request) (w : http.ResponseWriter) (rest : String)
    (e : auth.Error) (h : r.Get "Authorization" = "Bearer " ++ rest)
    (h1 : len (r.Get "Authorization") ≤ 1024) (h2 : strings.TrimSpace rest ≠ "")
    (hv : auth.ValidateToken L secret now (strings.TrimSpace rest) = .error e) :
    middleware.AuthMiddleware L secret now next r w =
      .ok (middleware.refuse (middleware.securityHeaders w) 401
        "Token inválido ou expirado") := by
  rw [middleware.AuthMiddleware_bearer L secret now next r w rest h h1, if_neg h2, hv]

/-- Unless the header has the form, is within the size limit and its trimmed token
validates, `AuthMiddleware` answers with a refusal that does not depend on the wrapped
handler. -/
theorem middleware.AuthMiddleware_refused (L : jwt.Lib) (secret : String) (now : Time)
    (r : http.Request) (w : http.ResponseWriter)
    (h : ¬ ∃ rest claims, r.Get "Authorization" = "Bearer " ++ rest ∧
      len (r.Get "Authorization") ≤ 1024 ∧
      auth.ValidateToken L secret now (strings.TrimSpace rest) = .ok claims) :
    ∃ text, ∀ next, middleware.AuthMiddleware L secret now next r w =
      .ok (middleware.refuse (middleware.securityHeaders w) 401 text) := by
  by_cases h0 : r.Get "Authorization" = ""
  · exact ⟨_, fun next => middleware.AuthMiddleware_absent L secret now next r w h0⟩
  by_cases h1 : 1024 < len (r.Get "Authorization")
  · exact ⟨_, fun next => middleware.AuthMiddleware_oversize L secret now next r w h0 h1⟩
  have h1' : len (r.Get "Authorization") ≤ 1024 := Nat.not_lt.mp h1
  by_cases hf : ∃ rest, r.Get "Authorization" = "Bearer " ++ rest
  · obtain ⟨rest, hrest⟩ := hf
    by_cases ht : strings.TrimSpace rest = ""
    · refine ⟨"Token vazio", fun next => ?_⟩
      rw [middleware.AuthMiddleware_bearer L secret now next r w rest hrest h1', if_pos ht]
    · cases hv : auth.ValidateToken L secret now (strings.TrimSpace rest) with
      | ok claims => exact absurd ⟨rest, claims, hrest, h1', hv⟩ h
      | error e =>
        exact ⟨_, fun next =>
          middleware.AuthMiddleware_invalid L secret now next r w rest e hrest h1' ht hv⟩
  · exact ⟨_, fun next => middleware.AuthMiddleware_malformed L secret now next r w h0 h1' hf⟩

theorem middleware.securityHeaders_status (w : http.ResponseWriter) :
    (middleware.securityHeaders w).status = w.status := rfl

theorem middleware.refuse_status (w : http.ResponseWriter) (code : Nat) (text : String)
    (hw : w.status = none) : (middleware.refuse w code text).status = some code := by
  simp [middleware.refuse, http.ResponseWriter.Encode, http.ResponseWriter.WriteHeader,
    http.ResponseWriter.Set, hw]

theorem middleware.refuse_body (w : http.ResponseWriter) (code : Nat) (text : String) :
    (middleware.refuse w code text).body = w.body ++ [[("erro", text)]] := by
  simp only [middleware.refuse, http.ResponseWriter.Encode, http.ResponseWriter.WriteHeader,
    http.ResponseWriter.Set]
  cases w.status <;> rfl

theorem middleware.userTypeOf_authenticated (r : http.Request) (claims : auth.Claims) :
    middleware.userTypeOf (middleware.authenticated r claims) = .ok claims.Type_ := by
  simp [middleware.userTypeOf, (middleware.authenticated_values r claims).2]

/-! ## Lemmas: validity windows -/

theorem jwt.NewNumericDate_bounds (t : Time) :
    (jwt.NewNumericDate t).Time ≤ t ∧ t < (jwt.NewNumericDate t).Time + time.Second := by
  have key : ∀ n : Nat,
      n / 1000000000 * 1000000000 ≤ n ∧ n < n / 1000000000 * 1000000000 + 1000000000 := by
    intro n; omega
  exact key t

theorem jwt.Validate_window (now : Time) (c : jwt.RegisteredClaims) (e n : jwt.NumericDate)
    (he : c.ExpiresAt = some e) (hn : c.NotBefore = some n) :
    (n.Time ≤ now → now < e.Time → jwt.Validate now c = none) ∧
    (e.Time ≤ now → ∃ b, jwt.Validate now c = some (.invalidClaims true b)) ∧
    (now < n.Time → ∃ a, jwt.Validate now c = some (.invalidClaims a true)) := by
  refine ⟨?_, ?_, ?_⟩
  · intro h1 h2
    have h3 : ¬ now < n.Time := Nat.not_lt.mpr h1
    simp [jwt.Validate, he, hn, h2, h3]
  · intro h1
    have h3 : ¬ now < e.Time := Nat.not_lt.mpr h1
    exact ⟨decide (now < n.Time), by simp [jwt.Validate, he, hn, h3]⟩
  · intro h1
    exact ⟨!decide (now < e.Time), by simp [jwt.Validate, he, hn, h1]⟩

theorem auth.ValidateToken_SignedString_eq (L : jwt.Lib) (secret : String) (now : Time)
    (h : jwt.Hash) (c : auth.Claims) (hs : len secret ≠ 0)
    (hl : len (jwt.SignedString L L.encodeClaims h c secret) ≤ 1024) :
    auth.ValidateToken L secret now (jwt.SignedString L L.encodeClaims h c secret) =
      match jwt.Validate now c.RegisteredClaims with
      | some err => .error (.parse err)
      | none =>
        if c.RegisteredClaims.Issuer ≠ "empregabem-api" then .error .invalidIssuer else .ok c := by
  unfold auth.ValidateToken
  rw [jwt.ParseWithClaims_SignedString L L.encodeClaims L.decodeClaims _ now h c c secret
    (L.claims_roundtrip c) (L.claims_nodot c)]
  simp only [hs, if_false, gt_iff_lt, Nat.not_lt.mpr hl]
  cases jwt.Validate now c.RegisteredClaims with
  | some err => rfl
  | none => simp

theorem auth.ValidateToken_SignedString_ok (L : jwt.Lib) (secret : String)
    (now : Time) (h : jwt.Hash) (c c' : auth.Claims)
    (hok : auth.ValidateToken L secret now
      (jwt.SignedString L L.encodeClaims h c secret) = .ok c') :
    c' = c ∧ jwt.Validate now c.RegisteredClaims = none := by
  obtain ⟨-, -, -, t, ht, rfl⟩ := auth.ValidateToken_ok L secret now _ c' hok
  rw [jwt.ParseWithClaims_SignedString L L.encodeClaims L.decodeClaims _ now h c c secret
    (L.claims_roundtrip c) (L.claims_nodot c)] at ht
  split at ht
  · simp at ht
  · rename_i hv
    simp only [Except.ok.injEq] at ht
    rw [← ht]
    exact ⟨rfl, hv⟩

theorem auth.ValidatePasswordResetToken_SignedString_valid (L : jwt.Lib) (secret : String)
    (now : Time) (h : jwt.Hash) (c c' : auth.ResetTokenClaims)
    (hok : auth.ValidatePasswordResetToken L secret now
      (jwt.SignedString L L.encodeReset h c secret) = .ok c') :
    jwt.Validate now c.RegisteredClaims = none := by
  obtain ⟨-, -, -, t, ht, rfl⟩ := auth.ValidatePasswordResetToken_ok L secret now _ c' hok
  rw [jwt.ParseWithClaims_SignedString L L.encodeReset L.decodeReset _ now h c c secret
    (L.reset_roundtrip c) (L.reset_nodot c)] at ht
  split at ht
  · simp at ht
  · rename_i hv
    exact hv

theorem auth.GeneratePasswordResetToken_eq (L : jwt.Lib) (U : unicode.CaseTable)
    (secret : String) (now : Time) (src : rand.Source) (email kind : String) (bs : List Nat)
    (hs : len secret ≠ 0) (hr : rand.Read src 32 = some bs) :
    auth.GeneratePasswordResetToken L U secret now src email kind =
      .ok (jwt.SignedString L L.encodeReset .SHA256
        { Email := auth.SanitizeEmail U email
          UserType := kind
          TokenHash := auth.hashString (hex.EncodeToString bs)
          RegisteredClaims :=
            { ExpiresAt := some (jwt.NewNumericDate (now + 15 * time.Minute))
              IssuedAt := some (jwt.NewNumericDate now)
              NotBefore := some (jwt.NewNumericDate now)
              Issuer := "empregabem-api-reset" } } secret, hex.EncodeToString bs) := by
  simp [auth.GeneratePasswordResetToken, hs, hr]

/-- A correctly signed session token with the service issuer, expiry `e` and not-before
`n`: when within the size limit it is accepted at every instant from `n` up to, not
including, `e`; from `e` on it is rejected. -/
theorem auth.ValidateToken_window (L : jwt.Lib) (secret : String) (h : jwt.Hash)
    (c : auth.Claims) (e n : jwt.NumericDate) (hs : len secret ≠ 0)
    (he : c.RegisteredClaims.ExpiresAt = some e) (hn : c.RegisteredClaims.NotBefore = some n)
    (hiss : c.RegisteredClaims.Issuer = "empregabem-api") :
    (len (jwt.SignedString L L.encodeClaims h c secret) ≤ 1024 → ∀ u, n.Time ≤ u → u < e.Time →
      auth.ValidateToken L secret u (jwt.SignedString L L.encodeClaims h c secret) = .ok c) ∧
    (∀ u, e.Time ≤ u → ∃ err,
      auth.ValidateToken L secret u (jwt.SignedString L L.encodeClaims h c secret) =
        .error err) := by
  constructor
  · intro hl u h1 h2
    rw [auth.ValidateToken_SignedString_eq L secret u h c hs hl,
      (jwt.Validate_window u c.RegisteredClaims e n he hn).1 h1 h2]
    simp [hiss]
  · intro u h1
    apply auth.Error_of_not_ok
    intro c' hc'
    have hv := (auth.ValidateToken_SignedString_ok L secret u h c c' hc').2
    obtain ⟨b, hb⟩ := (jwt.Validate_window u c.RegisteredClaims e n he hn).2.1 h1
    rw [hb] at hv
    exact Option.noConfusion hv

/-- The same for a signed reset token with the reset issuer. -/
theorem auth.ValidatePasswordResetToken_window (L : jwt.Lib) (secret : String) (h : jwt.Hash)
    (c : auth.ResetTokenClaims) (e n : jwt.NumericDate) (hs : len secret ≠ 0)
    (he : c.RegisteredClaims.ExpiresAt = some e) (hn : c.RegisteredClaims.NotBefore = some n)
    (hiss : c.RegisteredClaims.Issuer = "empregabem-api-reset") :
    (len (jwt.SignedString L L.encodeReset h c secret) ≤ 1024 → ∀ u, n.Time ≤ u → u < e.Time →
      auth.ValidatePasswordResetToken L secret u
        (jwt.SignedString L L.encodeReset h c secret) = .ok c) ∧
    (∀ u, e.Time ≤ u → ∃ err,
      auth.ValidatePasswordResetToken L secret u
        (jwt.SignedString L L.encodeReset h c secret) = .error err) := by
  constructor
  · intro hl u h1 h2
    exact auth.ValidatePasswordResetToken_SignedString L secret u h c hs hl
      ((jwt.Validate_window u c.RegisteredClaims e n he hn).1 h1 h2) hiss
  · intro u h1
    apply auth.Error_of_not_ok
    intro c' hc'
    have hv := auth.ValidatePasswordResetToken_SignedString_valid L secret u h c c' hc'
    obtain ⟨b, hb⟩ := (jwt.Validate_window u c.RegisteredClaims e n he hn).2.1 h1
    rw [hb] at hv
    exact Option.noConfusion hv

theorem auth.ValidatePasswordResetToken_SignedString_invalid (L : jwt.Lib) (secret : String)
    (now : Time) (h : jwt.Hash) (c : auth.ResetTokenClaims) (err : jwt.Error)
    (hs : len secret ≠ 0) (hl : len (jwt.SignedString L L.encodeReset h c secret) ≤ 1024)
    (hv : jwt.Validate now c.RegisteredClaims = some err) :
    auth.ValidatePasswordResetToken L secret now (jwt.SignedString L L.encodeReset h c secret) =
      .error (.parse err) := by
  unfold auth.ValidatePasswordResetToken
  rw [jwt.ParseWithClaims_SignedString L L.encodeReset L.decodeReset _ now h c c secret
    (L.reset_roundtrip c) (L.reset_nodot c)]
  simp only [hs, if_false, gt_iff_lt, Nat.not_lt.mpr hl, hv]

/-! ## Lemmas: the refusals of the middleware -/

theorem middleware.refuse_ne (w : http.ResponseWriter) (code code' : Nat) (a b : String)
    (h : a ≠ b) : middleware.refuse w code a ≠ middleware.refuse w code' b := by
  intro he
  have hb := congrArg http.ResponseWriter.body he
  rw [middleware.refuse_body, middleware.refuse_body] at hb
  simp only [List.append_cancel_left_eq, List.cons.injEq, Prod.mk.injEq, true_and,
    and_true] at hb
  exact h hb

theorem middleware.AuthMiddleware_long_token (L : jwt.Lib) (secret : String) (now : Time)
    (next : http.HandlerFunc) (r : http.Request) (w : http.ResponseWriter) (rest : String)
    (h : r.Get "Authorization" = "Bearer " ++ rest) (hl : 1024 < len rest) :
    middleware.AuthMiddleware L secret now next r w =
      .ok (middleware.refuse (middleware.securityHeaders w) 401
        "Header de autorização muito grande") := by
  apply middleware.AuthMiddleware_oversize
  · rw [h]; exact middleware.bearer_ne_empty rest
  · rw [h, len_append]; omega

theorem strings.TrimSpace_blank (s : String) (h : ∀ c ∈ s.data, unicode.IsSpace c = true) :
    strings.TrimSpace s = "" := by
  have hd : s.data.dropWhile unicode.IsSpace = [] := List.dropWhile_eq_nil_iff.mpr h
  simp only [strings.TrimSpace, hd, List.reverse_nil, List.dropWhile_nil]

theorem middleware.AuthMiddleware_blank (L : jwt.Lib) (secret : String) (now : Time)
    (next : http.HandlerFunc) (r : http.Request) (w : http.ResponseWriter) (rest : String)
    (h : r.Get "Authorization" = "Bearer " ++ rest)
    (h1 : len (r.Get "Authorization") ≤ 1024)
    (hsp : ∀ c ∈ rest.data, unicode.IsSpace c = true) :
    middleware.AuthMiddleware L secret now next r w =
      .ok (middleware.refuse (middleware.securityHeaders w) 401 "Token vazio") := by
  rw [middleware.AuthMiddleware_bearer L secret now next r w rest h h1,
    if_pos (strings.TrimSpace_blank rest hsp)]

/-! ## Lemmas: what a reset request shows -/

/-- The status and the body without the two development-only fields of the response of
`RequestReset` are those of the same request on an empty store. -/
theorem handlers.RequestReset_public (L : jwt.Lib) (U : unicode.CaseTable) (secret : String)
    (env : handlers.RequestResetEnv) (db : handlers.DB)
    (body : Option handlers.RequestResetRequest) :
    (handlers.RequestReset L U secret env db body).1.status =
      (handlers.RequestReset L U secret { } { } body).1.status ∧
    (handlers.RequestReset L U secret env db body).1.body.filter
        (fun kv => kv.1 ≠ "dev_token" ∧ kv.1 ≠ "dev_note") =
      (handlers.RequestReset L U secret { } { } body).1.body := by
  unfold handlers.RequestReset
  cases body with
  | none => exact ⟨rfl, by simp [handlers.erro]⟩
  | some req =>
    dsimp only
    by_cases h1 : req.Email = "" ∨ req.UserType = ""
    · rw [if_pos h1, if_pos h1]; exact ⟨rfl, by simp [handlers.erro]⟩
    · rw [if_neg h1, if_neg h1]
      by_cases h2 : req.UserType ≠ "company" ∧ req.UserType ≠ "candidate"
      · rw [if_pos h2, if_pos h2]; exact ⟨rfl, by simp [handlers.erro]⟩
      · rw [if_neg h2, if_neg h2]
        have h0 : handlers.userExists { } false req.UserType (auth.SanitizeEmail U req.Email) =
            false := by
          unfold handlers.userExists
          by_cases hk : req.UserType = "company"
          · rw [if_pos hk]; rfl
          · rw [if_neg hk]; rfl
        rw [h0]
        cases handlers.userExists db env.getByEmailFault req.UserType
          (auth.SanitizeEmail U req.Email) with
        | false => exact ⟨rfl, by simp [handlers.erro]⟩
        | true =>
          rw [if_pos rfl]
          cases auth.GeneratePasswordResetToken L U secret env.now env.tokenEntropy
            (auth.SanitizeEmail U req.Email) req.UserType with
          | error e => exact ⟨rfl, by simp [handlers.erro]⟩
          | ok p => exact ⟨rfl, by simp⟩

theorem lookup_filter_of_kept (p : String × String → Bool) (k : String)
    (hp : ∀ v, p (k, v) = true) (l : List (String × String)) :
    (l.filter p).lookup k = l.lookup k := by
  induction l with
  | nil => rfl
  | cons x t ih =>
    obtain ⟨a, b⟩ := x
    by_cases hk : k = a
    · subst hk
      simp [List.filter, hp b, List.lookup]
    · have hka : (k == a) = false := by simpa using hk
      cases hpx : p (a, b) with
      | true => simp [List.filter, hpx, List.lookup, hka, ih]
      | false => simp [List.filter, hpx, List.lookup, hka, ih]

/-! ## Lemmas: trimming and lower-casing -/

theorem strings.trim_eq (p : Char → Bool) (l : List Char) :
    ((l.dropWhile p).reverse.dropWhile p).reverse = List.rdropWhile p (l.dropWhile p) := rfl

theorem strings.rdropWhile_map (f : Char → Char) (p : Char → Bool) (l : List Char) :
    List.rdropWhile p (l.map f) = (List.rdropWhile (p ∘ f) l).map f := by
  simp only [List.rdropWhile, ← List.map_reverse, List.dropWhile_map]

/-- Trimming commutes with a map that keeps the trimmed class. -/
theorem strings.trim_map (f : Char → Char) (p : Char → Bool) (hf : ∀ c, p (f c) = p c)
    (l : List Char) :
    List.rdropWhile p ((l.map f).dropWhile p) = (List.rdropWhile p (l.dropWhile p)).map f := by
  have hpf : p ∘ f = p := funext hf
  rw [List.dropWhile_map, strings.rdropWhile_map, hpf]

theorem strings.dropWhile_trim (p : Char → Bool) (l : List Char) :
    (List.rdropWhile p (l.dropWhile p)).dropWhile p = List.rdropWhile p (l.dropWhile p) := by
  cases hm : l.dropWhile p with
  | nil => simp
  | cons a t =>
    have ha : ¬ p a = true := by
      have := List.dropWhile_get_zero_not p l (by rw [hm]; simp)
      simpa [hm] using this
    obtain ⟨s, hs⟩ := List.rdropWhile_prefix p (a :: t)
    cases hr : List.rdropWhile p (a :: t) with
    | nil => rfl
    | cons b u =>
      rw [hr] at hs
      simp only [List.cons_append, List.cons.injEq] at hs
      rw [hs.1, List.dropWhile_cons_of_neg ha]

/-- A trimmed list is its own trimming. -/
theorem strings.trim_trim (p : Char → Bool) (l : List Char) :
    List.rdropWhile p ((List.rdropWhile p (l.dropWhile p)).dropWhile p) =
      List.rdropWhile p (l.dropWhile p) := by
  rw [strings.dropWhile_trim, List.rdropWhile_idempotent]

theorem strings.rdropWhile_append_rtakeWhile (p : Char → Bool) (l : List Char) :
    List.rdropWhile p l ++ List.rtakeWhile p l = l := by
  simp only [List.rdropWhile, List.rtakeWhile, ← List.reverse_append,
    List.takeWhile_append_dropWhile, List.reverse_reverse]

theorem strings.rdropWhile_append_of_pos (p : Char → Bool) (l post : List Char)
    (h : ∀ c ∈ post, p c = true) : List.rdropWhile p (l ++ post) = List.rdropWhile p l := by
  simp only [List.rdropWhile, List.reverse_append]
  rw [List.dropWhile_append_of_pos (fun a ha => h a (List.mem_reverse.mp ha))]

/-- White space around a list does not change its trimming. -/
theorem strings.trim_surrounded (p : Char → Bool) (pre l post : List Char)
    (hpre : ∀ c ∈ pre, p c = true) (hpost : ∀ c ∈ post, p c = true) :
    List.rdropWhile p ((pre ++ l ++ post).dropWhile p) = List.rdropWhile p (l.dropWhile p) := by
  rw [List.append_assoc, List.dropWhile_append_of_pos hpre, List.dropWhile_append]
  by_cases hl : (l.dropWhile p).isEmpty = true
  · rw [if_pos hl]
    have hnil : l.dropWhile p = [] := List.isEmpty_iff.mp hl
    rw [hnil, List.dropWhile_eq_nil_iff.mpr hpost]
  · rw [if_neg hl, strings.rdropWhile_append_of_pos p _ post hpost]

theorem strings.TrimSpace_data (s : String) :
    (strings.TrimSpace s).data = List.rdropWhile unicode.IsSpace (s.data.dropWhile unicode.IsSpace) :=
  rfl

theorem auth.SanitizeEmail_data (U : unicode.CaseTable) (e : String) :
    (auth.SanitizeEmail U e).data =
      (List.rdropWhile unicode.IsSpace (e.data.dropWhile unicode.IsSpace)).map U.ToLower := rfl

theorem refCase_toLower_of_upper (c : Char) (h : 65 ≤ c.toNat ∧ c.toNat ≤ 90) :
    (refCase.ToLower c).toNat = c.toNat + 32 := by
  obtain ⟨h1, h2⟩ := h
  have hc : c = Char.ofNat c.toNat := (Char.ofNat_toNat c).symm
  generalize c.toNat = n at hc h1 h2
  subst hc
  interval_cases n <;> decide

theorem refCase_idem (c : Char) : refCase.ToLower (refCase.ToLower c) = refCase.ToLower c := by
  by_cases h : 65 ≤ c.toNat ∧ c.toNat ≤ 90
  · have h32 := refCase_toLower_of_upper c h
    have hn : ¬ ((refCase.ToLower c).toNat ≥ 65 ∧ (refCase.ToLower c).toNat ≤ 90) := by omega
    show Char.toLower (refCase.ToLower c) = refCase.ToLower c
    unfold Char.toLower
    simp only [if_neg hn]
  · show Char.toLower (Char.toLower c) = Char.toLower c
    have hc : Char.toLower c = c := by
      unfold Char.toLower
      simp only [ge_iff_le, if_neg h]
    rw [hc, hc]

theorem refCase_space (c : Char) : unicode.IsSpace (refCase.ToLower c) = unicode.IsSpace c := by
  by_cases h : 65 ≤ c.toNat ∧ c.toNat ≤ 90
  · obtain ⟨h1, h2⟩ := h
    have hc : c = Char.ofNat c.toNat := (Char.ofNat_toNat c).symm
    generalize c.toNat = n at hc h1 h2
    subst hc
    interval_cases n <;> decide
  · have hc : refCase.ToLower c = c := by
      show Char.toLower c = c
      unfold Char.toLower
      simp only [ge_iff_le, if_neg h]
    rw [hc]

/-- What trimming removes: a list is a run of the class, its trimming, and a run of the
class; the trimming neither starts nor ends in the class. -/
theorem strings.trim_parts (p : Char → Bool) (l : List Char) :
    ∃ pre post, l = pre ++ List.rdropWhile p (l.dropWhile p) ++ post ∧
      (∀ c ∈ pre, p c = true) ∧ (∀ c ∈ post, p c = true) ∧
      (∀ c, (List.rdropWhile p (l.dropWhile p)).head? = some c → p c = false) ∧
      (∀ c, (List.rdropWhile p (l.dropWhile p)).getLast? = some c → p c = false) := by
  refine ⟨l.takeWhile p, List.rtakeWhile p (l.dropWhile p), ?_, ?_, ?_, ?_, ?_⟩
  · rw [List.append_assoc, strings.rdropWhile_append_rtakeWhile, List.takeWhile_append_dropWhile]
  · intro c hc
    exact List.mem_takeWhile_imp hc
  · intro c hc
    exact List.mem_rtakeWhile_imp hc
  · intro c hc
    have h' := strings.dropWhile_trim p l
    cases hm : List.rdropWhile p (l.dropWhile p) with
    | nil => rw [hm] at hc; simp at hc
    | cons a t =>
      rw [hm] at hc h'
      simp only [List.head?_cons, Option.some.injEq] at hc
      subst hc
      by_cases ha : p a = true
      · exfalso
        rw [List.dropWhile_cons_of_pos ha] at h'
        have h2 : (t.dropWhile p).length ≤ t.length := (List.dropWhile_suffix p).length_le
        have hlen := congrArg List.length h'
        simp only [List.length_cons] at hlen
        omega
      · simpa using ha
  · intro c hc
    have hne : List.rdropWhile p (l.dropWhile p) ≠ [] := by
      intro h0
      rw [h0] at hc
      simp at hc
    have hl := List.rdropWhile_last_not p (l.dropWhile p) hne
    rw [List.getLast?_eq_getLast _ hne] at hc
    simp only [Option.some.injEq] at hc
    rw [← hc]
    simpa using hl

/-! ## Lemmas: the bytes of a string, hexadecimal text and `hashString` -/

/-- The UTF-8 encoding of a code point, on numbers. -/
theorem utf8_byte_masks :
    ∀ n, n < 256 →
      ((UInt8.ofNat n) &&& 0x1f ||| 0xc0).toNat = 192 + n % 32 ∧
      ((UInt8.ofNat n) &&& 0x3f ||| 0x80).toNat = 128 + n % 64 ∧
      ((UInt8.ofNat n) &&& 0x0f ||| 0xe0).toNat = 224 + n % 16 ∧
      ((UInt8.ofNat n) &&& 0x07 ||| 0xf0).toNat = 240 + n % 8 := by
  decide!

theorem utf8.shiftRight_6 (v : UInt32) : (v >>> 6).toNat = v.toNat / 64 := by
  show (v.toBitVec >>> (UInt32.mod 6 32).toBitVec).toNat = _
  rw [BitVec.ushiftRight_eq', BitVec.toNat_ushiftRight, Nat.shiftRight_eq_div_pow]
  rfl

theorem utf8.shiftRight_12 (v : UInt32) : (v >>> 12).toNat = v.toNat / 4096 := by
  show (v.toBitVec >>> (UInt32.mod 12 32).toBitVec).toNat = _
  rw [BitVec.ushiftRight_eq', BitVec.toNat_ushiftRight, Nat.shiftRight_eq_div_pow]
  rfl

theorem utf8.shiftRight_18 (v : UInt32) : (v >>> 18).toNat = v.toNat / 262144 := by
  show (v.toBitVec >>> (UInt32.mod 18 32).toBitVec).toNat = _
  rw [BitVec.ushiftRight_eq', BitVec.toNat_ushiftRight, Nat.shiftRight_eq_div_pow]
  rfl

theorem utf8.toUInt8_eq (v : UInt32) : v.toUInt8 = UInt8.ofNat (v.toNat % 256) := by
  apply UInt8.toNat.inj
  simp [UInt32.toUInt8, Nat.toUInt8, UInt8.ofNat, UInt8.toNat]

theorem utf8.toNat_toUInt8 (v : UInt32) : v.toUInt8.toNat = v.toNat % 256 := by
  simp [UInt32.toUInt8, Nat.toUInt8, UInt8.ofNat, UInt8.toNat]

theorem utf8.le_iff (v : UInt32) (n : Nat) (h : n < 4294967296) :
    v ≤ UInt32.ofNat n ↔ v.toNat ≤ n := by
  rw [UInt32.le_def, BitVec.le_def]
  show v.toNat ≤ (UInt32.ofNat n).toNat ↔ _
  rw [UInt32.toNat_ofNat_of_lt h]

/-- The bytes Lean's encoder gives a character are those of Go's, as numbers. -/
theorem utf8.encodeChar_toNat (c : Char) :
    (String.utf8EncodeChar c).map UInt8.toNat = utf8.encodeRune c.toNat := by
  have m1 : ∀ n : Nat, ((UInt8.ofNat (n % 256)) &&& 0x1f ||| 0xc0).toNat = 192 + n % 256 % 32 :=
    fun n => (utf8_byte_masks (n % 256) (Nat.mod_lt _ (by decide))).1
  have m2 : ∀ n : Nat, ((UInt8.ofNat (n % 256)) &&& 0x3f ||| 0x80).toNat = 128 + n % 256 % 64 :=
    fun n => (utf8_byte_masks (n % 256) (Nat.mod_lt _ (by decide))).2.1
  have m3 : ∀ n : Nat, ((UInt8.ofNat (n % 256)) &&& 0x0f ||| 0xe0).toNat = 224 + n % 256 % 16 :=
    fun n => (utf8_byte_masks (n % 256) (Nat.mod_lt _ (by decide))).2.2.1
  have m4 : ∀ n : Nat, ((UInt8.ofNat (n % 256)) &&& 0x07 ||| 0xf0).toNat = 240 + n % 256 % 8 :=
    fun n => (utf8_byte_masks (n % 256) (Nat.mod_lt _ (by decide))).2.2.2
  have h1 : c.val ≤ 0x7f ↔ c.toNat ≤ 0x7f := utf8.le_iff c.val 0x7f (by decide)
  have h2 : c.val ≤ 0x7ff ↔ c.toNat ≤ 0x7ff := utf8.le_iff c.val 0x7ff (by decide)
  have h3 : c.val ≤ 0xffff ↔ c.toNat ≤ 0xffff := utf8.le_iff c.val 0xffff (by decide)
  have e6 := utf8.shiftRight_6 c.val
  have e12 := utf8.shiftRight_12 c.val
  have e18 := utf8.shiftRight_18 c.val
  have hv : c.val.toNat = c.toNat := rfl
  unfold String.utf8EncodeChar utf8.encodeRune
  simp only [h1, h2, h3]
  by_cases c1 : c.toNat ≤ 0x7f
  · simp only [if_pos c1, List.map_cons, List.map_nil, utf8.toNat_toUInt8, hv]
    congr 1
    omega
  · simp only [if_neg c1]
    by_cases c2 : c.toNat ≤ 0x7ff
    · simp only [if_pos c2, List.map_cons, List.map_nil, utf8.toUInt8_eq, m1, m2,
        e6, hv]
      congr 1
      · omega
      · congr 1
        omega
    · simp only [if_neg c2]
      by_cases c3 : c.toNat ≤ 0xffff
      · simp only [if_pos c3, List.map_cons, List.map_nil, utf8.toUInt8_eq, m2,
          m3, e6, e12, hv]
        congr 1
        · omega
        · congr 1
          · omega
          · congr 1
            omega
      · simp only [if_neg c3, List.map_cons, List.map_nil, utf8.toUInt8_eq, m2,
          m4, e6, e12, e18, hv]
        congr 1
        · omega
        · congr 1
          · omega
          · congr 1
            · omega
            · congr 1
              omega

/-- The encoding of a rune is read back from the head of a byte sequence in one way. -/
theorem utf8.encodeRune_append_inj (n m : Nat) (r r' : List Nat) (hn : n < 0x110000)
    (hm : m < 0x110000) (h : utf8.encodeRune n ++ r = utf8.encodeRune m ++ r') :
    n = m ∧ r = r' := by
  unfold utf8.encodeRune at h
  by_cases n1 : n ≤ 0x7f <;> by_cases m1 : m ≤ 0x7f <;>
  by_cases n2 : n ≤ 0x7ff <;> by_cases m2 : m ≤ 0x7ff <;>
  by_cases n3 : n ≤ 0xffff <;> by_cases m3 : m ≤ 0xffff <;>
  simp only [n1, m1, n2, m2, n3, m3, if_true, if_false, List.cons_append, List.nil_append,
    List.cons.injEq] at h <;>
  first
  | omega
  | (refine ⟨by omega, ?_⟩
     first
     | exact h.2
     | exact h.2.2
     | exact h.2.2.2
     | exact h.2.2.2.2)

theorem utf8.rune_lt (c : Char) : c.toNat < 0x110000 := by
  have h := c.valid
  show c.val.toNat < 0x110000
  rcases h with h | h
  · have : c.val.toNat < 0xd800 := h
    omega
  · exact h.2

theorem bytes_injective (s t : String) (h : bytes s = bytes t) : s = t := by
  apply String.ext
  have key : ∀ a b : List Char,
      (a.flatMap fun c => (String.utf8EncodeChar c).map UInt8.toNat) =
        (b.flatMap fun c => (String.utf8EncodeChar c).map UInt8.toNat) → a = b := by
    intro a
    induction a with
    | nil =>
      intro b hb
      cases b with
      | nil => rfl
      | cons d ds =>
        exfalso
        have hl := congrArg List.length hb
        simp only [List.flatMap_nil, List.length_nil, List.flatMap_cons, List.length_append,
          List.length_map, String.length_utf8EncodeChar] at hl
        have := Char.utf8Size_pos d
        omega
    | cons c cs ih =>
      intro b hb
      cases b with
      | nil =>
        exfalso
        have hl := congrArg List.length hb
        simp only [List.flatMap_nil, List.length_nil, List.flatMap_cons, List.length_append,
          List.length_map, String.length_utf8EncodeChar] at hl
        have := Char.utf8Size_pos c
        omega
      | cons d ds =>
        simp only [List.flatMap_cons, utf8.encodeChar_toNat] at hb
        obtain ⟨h1, h2⟩ := utf8.encodeRune_append_inj _ _ _ _ (utf8.rune_lt c)
          (utf8.rune_lt d) hb
        have hcd : c = d := by
          rw [← Char.ofNat_toNat c, ← Char.ofNat_toNat d, h1]
        rw [hcd, ih ds (by simpa only [utf8.encodeChar_toNat] using h2)]
  exact key s.data t.data h

theorem hex.fromHexChar_hextable :
    ∀ k, k < 16 → hex.fromHexChar (hex.hextable.getD k '0') = some k := by
  decide

theorem hex.decode_pair (a b : Char) (rest : List Char) (x y : Nat) (bs : List Nat)
    (ha : hex.fromHexChar a = some x) (hb : hex.fromHexChar b = some y)
    (hr : hex.decode rest = some bs) :
    hex.decode (a :: b :: rest) = some ((x * 16 + y) :: bs) := by
  rw [hex.decode, ha, hb, hr]

theorem hex.decode_encode (bs : List Nat) (h : ∀ b ∈ bs, b < 256) :
    hex.DecodeString (hex.EncodeToString bs) = some bs := by
  unfold hex.DecodeString hex.EncodeToString
  induction bs with
  | nil => rfl
  | cons b bs ih =>
    have hb : b < 256 := h b (List.mem_cons_self _ _)
    have ih' := ih fun x hx => h x (List.mem_cons_of_mem _ hx)
    have hd := hex.decode_pair _ _ _ _ _ _
      (hex.fromHexChar_hextable (b / 16 % 16) (Nat.mod_lt _ (by decide)))
      (hex.fromHexChar_hextable (b % 16) (Nat.mod_lt _ (by decide))) ih'
    have hbb : b / 16 % 16 * 16 + b % 16 = b := by omega
    rw [hbb] at hd
    exact hd

theorem bytes_lt (s : String) : ∀ b ∈ bytes s, b < 256 := by
  intro b hb
  simp only [bytes, List.mem_flatMap, List.mem_map] at hb
  obtain ⟨c, -, u, -, rfl⟩ := hb
  exact u.toNat_lt_size

/-- Decoding the output of `hashString` and undoing the exclusive-or gives the bytes. -/
theorem auth.unhashString (s : String) :
    (hex.DecodeString (auth.hashString s)).map (fun bs => bs.map fun b => b ^^^ 0xAA) =
      some (bytes s) := by
  unfold auth.hashString
  rw [hex.decode_encode]
  · simp only [Option.map_some', List.map_map, Option.some.injEq]
    conv_rhs => rw [← List.map_id (bytes s)]
    apply List.map_congr_left
    intro b _
    simp only [Function.comp_apply, id_eq, Nat.xor_assoc, Nat.xor_self, Nat.xor_zero]
  · intro b hb
    simp only [List.mem_map] at hb
    obtain ⟨a, ha, rfl⟩ := hb
    exact Nat.xor_lt_two_pow (n := 8) (bytes_lt s a ha) (by decide)

theorem auth.hashString_injective (s t : String) (h : auth.hashString s = auth.hashString t) :
    s = t := by
  apply bytes_injective
  have hs := auth.unhashString s
  rw [h, auth.unhashString t] at hs
  exact (Option.some.inj hs).symm

theorem hex.hextable_ascii : ∀ k, k < 16 → (hex.hextable.getD k '0').toNat ≤ 0x7f := by
  decide

theorem hex.hextable_mem : ∀ k, k < 16 → hex.hextable.getD k '0' ∈ hex.hextable := by
  decide

theorem hex.EncodeToString_mem (bs : List Nat) :
    ∀ c ∈ (hex.EncodeToString bs).data, ∃ k, k < 16 ∧ c = hex.hextable.getD k '0' := by
  intro c hc
  simp only [hex.EncodeToString, List.mem_flatMap, List.mem_cons, List.mem_singleton,
    List.not_mem_nil, or_false] at hc
  obtain ⟨b, -, h | h⟩ := hc
  · exact ⟨b / 16 % 16, Nat.mod_lt _ (by decide), h⟩
  · exact ⟨b % 16, Nat.mod_lt _ (by decide), h⟩

/-- The bytes of a text of ASCII characters, read as characters, are the text. -/
theorem bytes_ascii (l : List Char) (h : ∀ c ∈ l, c.toNat ≤ 0x7f) :
    (l.flatMap fun c => (String.utf8EncodeChar c).map UInt8.toNat).map Char.ofNat = l := by
  induction l with
  | nil => rfl
  | cons c cs ih =>
    have hc := h c (List.mem_cons_self _ _)
    have ih' := ih fun x hx => h x (List.mem_cons_of_mem _ hx)
    simp only [List.flatMap_cons, List.map_append, utf8.encodeChar_toNat] at ih' ⊢
    rw [ih']
    simp only [utf8.encodeRune, if_pos hc, List.map_cons, List.map_nil, Char.ofNat_toNat,
      List.singleton_append]

/-- The delivery token is read back from its `hashString`. -/
theorem auth.recover_uniqueToken (bs : List Nat) :
    ∃ ds, hex.DecodeString (auth.hashString (hex.EncodeToString bs)) = some ds ∧
      String.mk ((ds.map fun b => b ^^^ 0xAA).map Char.ofNat) = hex.EncodeToString bs := by
  have h := auth.unhashString (hex.EncodeToString bs)
  cases hd : hex.DecodeString (auth.hashString (hex.EncodeToString bs)) with
  | none => rw [hd] at h; simp at h
  | some ds =>
    rw [hd] at h
    simp only [Option.map_some', Option.some.injEq] at h
    refine ⟨ds, rfl, ?_⟩
    rw [h]
    apply String.ext
    apply bytes_ascii
    intro c hc
    obtain ⟨k, hk, rfl⟩ := hex.EncodeToString_mem bs c hc
    exact hex.hextable_ascii k hk

/-! ## Lemmas: the outcomes of the middleware -/

/-- `AuthMiddleware` either refuses with 401, whatever the wrapped handler is, or runs the
wrapped handler on a request whose context holds the id and the kind of the claims. -/
theorem middleware.AuthMiddleware_cases (L : jwt.Lib) (secret : String) (now : Time)
    (r : http.Request) (w : http.ResponseWriter) :
    (∃ text, ∀ inner, middleware.AuthMiddleware L secret now inner r w =
      .ok (middleware.refuse (middleware.securityHeaders w) 401 text)) ∨
    ∃ claims, ∀ inner, middleware.AuthMiddleware L secret now inner r w =
      inner (middleware.authenticated r claims) (middleware.securityHeaders w) := by
  by_cases h : ∃ rest claims, r.Get "Authorization" = "Bearer " ++ rest ∧
      len (r.Get "Authorization") ≤ 1024 ∧
      auth.ValidateToken L secret now (strings.TrimSpace rest) = .ok claims
  · obtain ⟨rest, claims, h1, h2, h3⟩ := h
    exact Or.inr ⟨claims, fun inner =>
      middleware.AuthMiddleware_accepted L secret now inner r w rest claims h1 h2 h3⟩
  · exact Or.inl (middleware.AuthMiddleware_refused L secret now r w h)

theorem middleware.CompanyOnly_cases (L : jwt.Lib) (secret : String) (now : Time)
    (next : http.HandlerFunc) (r : http.Request) (w : http.ResponseWriter) :
    (∃ text, middleware.CompanyOnly L secret now next r w =
      .ok (middleware.refuse (middleware.securityHeaders w) 401 text)) ∨
    (∃ text, middleware.CompanyOnly L secret now next r w =
      .ok (middleware.refuse (middleware.securityHeaders w) 403 text)) ∨
    ∃ claims, middleware.CompanyOnly L secret now next r w =
      next (middleware.authenticated r claims) (middleware.securityHeaders w) := by
  unfold middleware.CompanyOnly
  rcases middleware.AuthMiddleware_cases L secret now r w with ⟨text, h⟩ | ⟨claims, h⟩
  · exact Or.inl ⟨text, h _⟩
  · rw [h]
    simp only [middleware.userTypeOf_authenticated]
    by_cases hk : claims.Type_ ≠ "company"
    · rw [if_pos hk]; exact Or.inr (Or.inl ⟨_, rfl⟩)
    · rw [if_neg hk]; exact Or.inr (Or.inr ⟨claims, rfl⟩)

theorem middleware.CandidateOnly_cases (L : jwt.Lib) (secret : String) (now : Time)
    (next : http.HandlerFunc) (r : http.Request) (w : http.ResponseWriter) :
    (∃ text, middleware.CandidateOnly L secret now next r w =
      .ok (middleware.refuse (middleware.securityHeaders w) 401 text)) ∨
    (∃ text, middleware.CandidateOnly L secret now next r w =
      .ok (middleware.refuse (middleware.securityHeaders w) 403 text)) ∨
    ∃ claims, middleware.CandidateOnly L secret now next r w =
      next (middleware.authenticated r claims) (middleware.securityHeaders w) := by
  unfold middleware.CandidateOnly
  rcases middleware.AuthMiddleware_cases L secret now r w with ⟨text, h⟩ | ⟨claims, h⟩
  · exact Or.inl ⟨text, h _⟩
  · rw [h]
    simp only [middleware.userTypeOf_authenticated]
    by_cases hk : claims.Type_ ≠ "candidate"
    · rw [if_pos hk]; exact Or.inr (Or.inl ⟨_, rfl⟩)
    · rw [if_neg hk]; exact Or.inr (Or.inr ⟨claims, rfl⟩)

/-- A wrapper whose outcomes are refusals or runs of a handler that returns normally
returns normally. -/
theorem middleware.returns_of_cases (next : http.HandlerFunc)
    (hnext : ∀ r w, ∃ w', next r w = .ok w') (res : Except String http.ResponseWriter)
    (w : http.ResponseWriter)
    (h : (∃ text, res = .ok (middleware.refuse (middleware.securityHeaders w) 401 text)) ∨
      (∃ text, res = .ok (middleware.refuse (middleware.securityHeaders w) 403 text)) ∨
      ∃ r', res = next r' (middleware.securityHeaders w)) :
    ∃ w', res = .ok w' := by
  rcases h with ⟨text, h⟩ | ⟨text, h⟩ | ⟨r', h⟩
  · exact ⟨_, h⟩
  · exact ⟨_, h⟩
  · rw [h]; exact hnext _ _

/-! ## Lemmas: the route `/company/jobs/` -/

theorem router.length_suffix (path : String) (n : Nat) (h : n < len path) :
    (router.suffix path n).length = n := by
  simp only [router.suffix, List.length_drop, length_bytes]
  omega

theorem router.suffix_ne_activate (path : String) (h : len path > 10) :
    router.suffix path 10 ≠ bytes "/activate" := by
  intro he
  have hl := congrArg List.length he
  rw [router.length_suffix path 10 h] at hl
  exact absurd hl (by decide)

theorem router.suffix_ne_deactivate (path : String) (h : len path > 12) :
    router.suffix path 12 ≠ bytes "/deactivate" := by
  intro he
  have hl := congrArg List.length he
  rw [router.length_suffix path 12 h] at hl
  exact absurd hl (by decide)

/-- What the function of the route does, without the two branches that cannot be taken. -/
theorem router.companyJobs_eq (h : router.Handlers) (r : http.Request)
    (w : http.ResponseWriter) :
    router.companyJobs h r w =
      if len r.Path > len "/company/jobs/" ∧ r.Method = "GET" ∧ len r.Path > 11 ∧
          router.suffix r.Path 11 = bytes "/applicants" then h.ListJobApplicants r w
      else if r.Method = "PUT" then h.Update r w
      else if r.Method = "DELETE" then h.Delete r w
      else .ok (http.Error w "Método não permitido" http.StatusMethodNotAllowed) := by
  have ha : ¬ (len r.Path > 10 ∧ router.suffix r.Path 10 = bytes "/activate") :=
    fun hc => router.suffix_ne_activate r.Path hc.1 hc.2
  have hd : ¬ (len r.Path > 12 ∧ router.suffix r.Path 12 = bytes "/deactivate") :=
    fun hc => router.suffix_ne_deactivate r.Path hc.1 hc.2
  unfold router.companyJobs
  simp only [if_neg ha, if_neg hd]
  by_cases h1 : len r.Path > len "/company/jobs/"
  · by_cases h2 : r.Method = "PATCH"
    · have h3 : ¬ r.Method = "GET" := by rw [h2]; decide
      simp [h1, h2, h3]
    · by_cases h3 : r.Method = "GET" ∧ len r.Path > 11 ∧
          router.suffix r.Path 11 = bytes "/applicants"
      · simp only [if_pos h1, if_neg h2, if_pos h3, if_pos (And.intro h1 h3)]
      · have h4 : ¬ (len r.Path > len "/company/jobs/" ∧ r.Method = "GET" ∧ len r.Path > 11 ∧
            router.suffix r.Path 11 = bytes "/applicants") := fun hc => h3 hc.2
        simp only [if_pos h1, if_neg h2, if_neg h3, if_neg h4]
  · have h4 : ¬ (len r.Path > len "/company/jobs/" ∧ r.Method = "GET" ∧ len r.Path > 11 ∧
        router.suffix r.Path 11 = bytes "/applicants") := fun hc => h1 hc.1
    simp only [if_neg h1, if_neg h4]

theorem middleware.CompanyOnly_accepted (L : jwt.Lib) (secret : String) (now : Time)
    (next : http.HandlerFunc) (r : http.Request) (w : http.ResponseWriter) (rest : String)
    (claims : auth.Claims) (h : r.Get "Authorization" = "Bearer " ++ rest)
    (h1 : len (r.Get "Authorization") ≤ 1024)
    (hv : auth.ValidateToken L secret now (strings.TrimSpace rest) = .ok claims)
    (hk : claims.Type_ = "company") :
    middleware.CompanyOnly L secret now next r w =
      next (middleware.authenticated r claims) (middleware.securityHeaders w) := by
  unfold middleware.CompanyOnly
  rw [middleware.AuthMiddleware_accepted L secret now _ r w rest claims h h1 hv]
  simp [middleware.userTypeOf_authenticated, hk]

/-- The route for a request that passes both validations as a company. -/
theorem router.companyJobsRoute_accepted (L : jwt.Lib) (secret : String) (now later : Time)
    (h : router.Handlers) (r : http.Request) (w : http.ResponseWriter) (rest : String)
    (claims claims' : auth.Claims) (hh : r.Get "Authorization" = "Bearer " ++ rest)
    (h1 : len (r.Get "Authorization") ≤ 1024)
    (hv : auth.ValidateToken L secret now (strings.TrimSpace rest) = .ok claims)
    (hv' : auth.ValidateToken L secret later (strings.TrimSpace rest) = .ok claims')
    (hk : claims'.Type_ = "company") :
    router.companyJobsRoute L secret now later h r w =
      router.companyJobs h
        (middleware.authenticated (middleware.authenticated r claims) claims')
        (middleware.securityHeaders (middleware.securityHeaders w)) := by
  unfold router.companyJobsRoute
  rw [middleware.AuthMiddleware_accepted L secret now _ r w rest claims hh h1 hv]
  exact middleware.CompanyOnly_accepted L secret later _ (middleware.authenticated r claims) _
    rest claims' hh h1 hv' hk

/-! ## Lemmas: the rate limiter -/

theorem middleware.RateLimiter.get_set (rl : middleware.RateLimiter) (ip ip' : String)
    (v : Int) : (rl.set ip v).get ip' = if ip' = ip then v else rl.get ip' := by
  unfold middleware.RateLimiter.set middleware.RateLimiter.get
  by_cases h : ip' = ip
  · subst h
    simp [List.lookup]
  · have hb : (ip' == ip) = false := by simpa using h
    simp only [List.lookup, hb, if_neg h]
    congr 1
    induction rl.requests with
    | nil => rfl
    | cons kv t ih =>
      obtain ⟨k, x⟩ := kv
      by_cases hk : k = ip
      · subst hk
        have hb' : (ip' == k) = false := hb
        simp [List.filter, List.lookup, hb', ih]
      · have hne : (k != ip) = true := by simpa using hk
        simp only [List.filter, hne, List.lookup]
        cases ip' == k
        · exact ih
        · rfl

theorem middleware.RateLimiter.limit_set (rl : middleware.RateLimiter) (ip : String) (v : Int) :
    (rl.set ip v).limit = rl.limit := rfl

/-- One request through a limiter whose counters are all zero. -/
theorem middleware.RateLimiter.Middleware_eq (rl : middleware.RateLimiter)
    (next : http.HandlerFunc) (r : http.Request) (w w' : http.ResponseWriter)
    (hz : ∀ ip, rl.get ip = 0) (hl : 1 ≤ rl.limit) (hnext : next r w = .ok w') :
    rl.Middleware next r w =
      (.ok w', (rl.set (middleware.getRealIP r) 1).set (middleware.getRealIP r) 0) := by
  have hlt : ¬ rl.get (middleware.getRealIP r) ≥ rl.limit := by
    rw [hz]; omega
  have h1 : middleware.wrapInt (0 + 1) = 1 := by decide
  have h0 : middleware.wrapInt (1 - 1) = 0 := by decide
  have hg : (rl.set (middleware.getRealIP r) 1).get (middleware.getRealIP r) = 1 := by
    rw [middleware.RateLimiter.get_set, if_pos rfl]
  unfold middleware.RateLimiter.Middleware
  simp only [if_neg hlt, hnext]
  rw [hz, h1, hg, h0, if_pos (by decide)]

theorem middleware.RateLimiter.Middleware_zero (rl : middleware.RateLimiter)
    (next : http.HandlerFunc) (r : http.Request) (w w' : http.ResponseWriter)
    (hz : ∀ ip, rl.get ip = 0) (hl : 1 ≤ rl.limit) (hnext : next r w = .ok w') :
    (rl.Middleware next r w).1 = .ok w' ∧ (rl.Middleware next r w).2.limit = rl.limit ∧
    ∀ ip, (rl.Middleware next r w).2.get ip = rl.get ip := by
  rw [middleware.RateLimiter.Middleware_eq rl next r w w' hz hl hnext]
  refine ⟨rfl, rfl, fun ip => ?_⟩
  simp only [middleware.RateLimiter.get_set, hz]
  split_ifs <;> rfl

/-- One request through a limiter whose limit no counter is below. -/
theorem middleware.RateLimiter.Middleware_refused (rl : middleware.RateLimiter)
    (next : http.HandlerFunc) (r : http.Request) (w : http.ResponseWriter)
    (h : rl.limit ≤ rl.get (middleware.getRealIP r)) :
    rl.Middleware next r w =
      (.ok ((((w.Set "Content-Type" "application/json").Set "Retry-After" "60").WriteHeader
        429).Write middleware.tooManyRequests), rl) := by
  unfold middleware.RateLimiter.Middleware
  simp only [ge_iff_le, if_pos h, http.StatusTooManyRequests]

theorem middleware.RateLimiter.Reachable_zero (limit : Int) (rl : middleware.RateLimiter)
    (h : middleware.RateLimiter.Reachable limit rl) :
    rl.limit = limit ∧ ∀ ip, rl.get ip = 0 := by
  induction h with
  | init => exact ⟨rfl, fun _ => rfl⟩
  | step rl next r w w' _ hnext ih =>
    by_cases hl : 1 ≤ rl.limit
    · obtain ⟨-, h2, h3⟩ := middleware.RateLimiter.Middleware_zero rl next r w w' ih.2 hl hnext
      exact ⟨h2.trans ih.1, fun ip => (h3 ip).trans (ih.2 ip)⟩
    · have hle : rl.limit ≤ rl.get (middleware.getRealIP r) := by rw [ih.2]; omega
      rw [middleware.RateLimiter.Middleware_refused rl next r w hle]
      exact ih

theorem len_ascii (s : String) (h : ∀ c ∈ s.data, c.toNat ≤ 0x7f) : len s = s.length := by
  have hb := congrArg List.length (bytes_ascii s.data h)
  rw [List.length_map] at hb
  rw [← length_bytes]
  exact hb

/-! ## Lemmas: registration -/

theorem candidates.GetByEmail_error (coll : List candidates.Candidate) (email : String)
    (e : mongo.Error) (h : candidates.GetByEmail coll false email = .error e) :
    ∀ d ∈ coll, d.Email ≠ email := by
  intro d hd he
  unfold candidates.GetByEmail at h
  simp only [Bool.false_eq_true, if_false] at h
  cases hf : coll.find? fun d => d.Email == email with
  | some x => rw [hf] at h; exact Except.noConfusion h
  | none =>
    have := List.find?_eq_none.mp hf d hd
    simp [he] at this

theorem companies.GetByEmail_miss (coll : List companies.Company) (email : String)
    (e : mongo.Error) (h : companies.GetByEmail coll false email = .error e) :
    ∀ d ∈ coll, d.Email ≠ email := by
  intro d hd he
  unfold companies.GetByEmail at h
  simp only [Bool.false_eq_true, if_false] at h
  cases hf : coll.find? fun d => d.Email == email with
  | some x => rw [hf] at h; exact Except.noConfusion h
  | none =>
    have := List.find?_eq_none.mp hf d hd
    simp [he] at this

theorem candidates.Create_cases (coll : List candidates.Candidate) (now : Time)
    (newID : bson.ObjectID) (fault : Bool) (candidate : candidates.Candidate) :
    (∃ e, (candidates.Create coll now newID fault candidate).2.2 = some e) ∨
    ∃ stored, stored.Email = candidate.Email ∧
      (candidates.Create coll now newID fault candidate).1 = coll ++ [stored] ∧
      (candidates.Create coll now newID fault candidate).2.2 = none := by
  unfold candidates.Create
  by_cases hf : fault = true
  · simp [hf]
  · by_cases hd : (coll.any fun d => d.ID == newID) = true
    · simp [hf, hd]
    · exact Or.inr ⟨{ candidate with
          ID := newID, CreatedAt := bson.DateTime now, UpdatedAt := bson.DateTime now },
        rfl, by simp [hf, hd], by simp [hf, hd]⟩

theorem companies.Create_outcomes (coll : List companies.Company) (now : Time)
    (newID : bson.ObjectID) (fault : Bool) (company : companies.Company) :
    (∃ e, (companies.Create coll now newID fault company).2.2 = some e) ∨
    ∃ stored, stored.Email = company.Email ∧
      (companies.Create coll now newID fault company).1 = coll ++ [stored] ∧
      (companies.Create coll now newID fault company).2.2 = none := by
  unfold companies.Create
  by_cases hf : fault = true
  · simp [hf]
  · by_cases hd : (coll.any fun d => d.ID == newID) = true
    · simp [hf, hd]
    · exact Or.inr ⟨{ company with
          ID := newID, CreatedAt := bson.DateTime now, UpdatedAt := bson.DateTime now,
          VerificationStatus := "pending" },
        rfl, by simp [hf, hd], by simp [hf, hd]⟩

/-- What a candidate registration does to the collections: nothing, or it appends one
candidate with the sanitised email after both lookups by that email returned an error. -/
theorem handlers.CandidateRegister_cases (L : jwt.Lib) (B : bcrypt.Lib) (U : unicode.CaseTable)
    (secret : String) (env : handlers.RegisterEnv) (db : handlers.DB)
    (body : Option handlers.RegisterCandidateRequest) :
    (handlers.CandidateAuthHandler.Register L B U secret env db body).2 = db ∨
    ∃ req stored e e', body = some req ∧ stored.Email = auth.SanitizeEmail U req.Email ∧
      candidates.GetByEmail db.candidates env.getByEmailFault
        (auth.SanitizeEmail U req.Email) = .error e ∧
      companies.GetByEmail db.companies env.crossGetByEmailFault
        (auth.SanitizeEmail U req.Email) = .error e' ∧
      (handlers.CandidateAuthHandler.Register L B U secret env db body).2 =
        { db with candidates := db.candidates ++ [stored] } := by
  unfold handlers.CandidateAuthHandler.Register
  cases body with
  | none => exact Or.inl rfl
  | some req =>
    dsimp only
    split_ifs
    · exact Or.inl rfl
    · cases auth.ValidatePasswordStrength req.Password with
      | some text => exact Or.inl rfl
      | none =>
        dsimp only
        cases h1 : candidates.GetByEmail db.candidates env.getByEmailFault
          (auth.SanitizeEmail U req.Email) with
        | ok _ => exact Or.inl rfl
        | error e =>
          dsimp only
          cases h2 : companies.GetByEmail db.companies env.crossGetByEmailFault
            (auth.SanitizeEmail U req.Email) with
          | ok _ => exact Or.inl rfl
          | error e' =>
            dsimp only
            cases auth.HashPassword B env.salt req.Password with
            | error _ => exact Or.inl rfl
            | ok hashed =>
              dsimp only
              rcases candidates.Create_cases db.candidates env.now env.newID env.createFault
                { Name := req.Name, Email := auth.SanitizeEmail U req.Email, Password := hashed,
                  Phone := req.Phone, Location := req.Location } with ⟨err, hc⟩ | ⟨st, hs, hc1, hc2⟩
              · left
                generalize candidates.Create db.candidates env.now env.newID env.createFault
                  { Name := req.Name, Email := auth.SanitizeEmail U req.Email,
                    Password := hashed, Phone := req.Phone, Location := req.Location } = res at hc
                obtain ⟨a, b, c⟩ := res
                simp only at hc
                subst hc
                rfl
              · right
                refine ⟨req, st, e, e', rfl, hs, h1, h2, ?_⟩
                generalize candidates.Create db.candidates env.now env.newID env.createFault
                  { Name := req.Name, Email := auth.SanitizeEmail U req.Email,
                    Password := hashed, Phone := req.Phone, Location := req.Location } = res
                  at hc1 hc2
                obtain ⟨a, b, c⟩ := res
                simp only at hc1 hc2
                subst hc1 hc2
                dsimp only
                cases auth.GenerateToken L secret env.now (bson.Hex b.ID) "candidate" <;> rfl

/-- What a company registration does to the collections: nothing, or it appends one company
with the sanitised email after both lookups by that email returned an error. -/
theorem handlers.CompanyRegister_cases (L : jwt.Lib) (B : bcrypt.Lib) (U : unicode.CaseTable)
    (secret : String) (env : handlers.RegisterEnv) (db : handlers.DB)
    (body : Option handlers.RegisterCompanyRequest) :
    (handlers.CompanyAuthHandler.Register L B U secret env db body).2 = db ∨
    ∃ req stored e e', body = some req ∧ stored.Email = auth.SanitizeEmail U req.Email ∧
      companies.GetByEmail db.companies env.getByEmailFault
        (auth.SanitizeEmail U req.Email) = .error e ∧
      candidates.GetByEmail db.candidates env.crossGetByEmailFault
        (auth.SanitizeEmail U req.Email) = .error e' ∧
      (handlers.CompanyAuthHandler.Register L B U secret env db body).2 =
        { db with companies := db.companies ++ [stored] } := by
  unfold handlers.CompanyAuthHandler.Register
  cases body with
  | none => exact Or.inl rfl
  | some req =>
    dsimp only
    by_cases h0 : req.Name = "" ∨ req.Email = "" ∨ req.Password = "" ∨ req.CNPJ = ""
    · rw [if_pos h0]; exact Or.inl rfl
    · rw [if_neg h0]
      cases auth.ValidatePasswordStrength req.Password with
      | some text => exact Or.inl rfl
      | none =>
        dsimp only
        by_cases hcn : len req.CNPJ ≠ 14
        · rw [if_pos hcn]; exact Or.inl rfl
        · rw [if_neg hcn]
          cases h1 : companies.GetByEmail db.companies env.getByEmailFault
            (auth.SanitizeEmail U req.Email) with
          | ok _ => exact Or.inl rfl
          | error e =>
            dsimp only
            cases h2 : candidates.GetByEmail db.candidates env.crossGetByEmailFault
              (auth.SanitizeEmail U req.Email) with
            | ok _ => exact Or.inl rfl
            | error e' =>
              dsimp only
              cases companies.GetByCNPJ db.companies env.getByCNPJFault req.CNPJ with
              | ok _ => exact Or.inl rfl
              | error _ =>
                dsimp only
                cases auth.HashPassword B env.salt req.Password with
                | error _ => exact Or.inl rfl
                | ok hashed =>
                  dsimp only
                  rcases companies.Create_outcomes db.companies env.now env.newID env.createFault
                    { Name := req.Name, LegalName := req.LegalName, CNPJ := req.CNPJ,
                      Email := auth.SanitizeEmail U req.Email, Password := hashed,
                      Phone := req.Phone, Location := req.Location } with
                    ⟨err, hc⟩ | ⟨st, hs, hc1, hc2⟩
                  · left
                    generalize companies.Create db.companies env.now env.newID env.createFault
                      { Name := req.Name, LegalName := req.LegalName, CNPJ := req.CNPJ,
                        Email := auth.SanitizeEmail U req.Email, Password := hashed,
                        Phone := req.Phone, Location := req.Location } = res at hc
                    obtain ⟨a, b, c⟩ := res
                    simp only at hc
                    subst hc
                    rfl
                  · right
                    refine ⟨req, st, e, e', rfl, hs, h1, h2, ?_⟩
                    generalize companies.Create db.companies env.now env.newID env.createFault
                      { Name := req.Name, LegalName := req.LegalName, CNPJ := req.CNPJ,
                        Email := auth.SanitizeEmail U req.Email, Password := hashed,
                        Phone := req.Phone, Location := req.Location } = res at hc1 hc2
                    obtain ⟨a, b, c⟩ := res
                    simp only at hc1 hc2
                    subst hc1 hc2
                    dsimp only
                    cases auth.GenerateToken L secret env.now (bson.Hex b.ID) "company" <;> rfl

/-- While the lookups by email do not fail, a registration keeps the emails of all accounts
pairwise different, and it stores a sanitised email. -/
theorem handlers.Register_keeps_unique (L : jwt.Lib) (B : bcrypt.Lib) (U : unicode.CaseTable)
    (secret : String) (env : handlers.RegisterEnv) (db : handlers.DB)
    (hf : env.getByEmailFault = false) (hc : env.crossGetByEmailFault = false)
    (hn : (db.candidates.map (fun c => c.Email) ++
      db.companies.map (fun c => c.Email)).Nodup) :
    (∀ body,
      ((handlers.CandidateAuthHandler.Register L B U secret env db body).2.candidates.map
          (fun c => c.Email) ++
        (handlers.CandidateAuthHandler.Register L B U secret env db body).2.companies.map
          (fun c => c.Email)).Nodup) ∧
    (∀ body,
      ((handlers.CompanyAuthHandler.Register L B U secret env db body).2.candidates.map
          (fun c => c.Email) ++
        (handlers.CompanyAuthHandler.Register L B U secret env db body).2.companies.map
          (fun c => c.Email)).Nodup) := by
  constructor
  · intro body
    rcases handlers.CandidateRegister_cases L B U secret env db body with h |
      ⟨req, st, e, e', -, hs, h1, h2, h⟩
    · rw [h]; exact hn
    · rw [h, hf] at *
      rw [hc] at h2
      have n1 := candidates.GetByEmail_error _ _ e h1
      have n2 := companies.GetByEmail_miss _ _ e' h2
      simp only [List.map_append, List.map_cons, List.map_nil, hs, List.append_assoc,
        List.singleton_append]
      rw [List.nodup_middle, List.nodup_cons]
      refine ⟨?_, hn⟩
      intro ha
      rcases List.mem_append.mp ha with ha | ha
      · obtain ⟨x, hx, hxe⟩ := List.mem_map.mp ha
        exact n1 x hx hxe
      · obtain ⟨x, hx, hxe⟩ := List.mem_map.mp ha
        exact n2 x hx hxe
  · intro body
    rcases handlers.CompanyRegister_cases L B U secret env db body with h |
      ⟨req, st, e, e', -, hs, h1, h2, h⟩
    · rw [h]; exact hn
    · rw [h, hf] at *
      rw [hc] at h2
      have n1 := companies.GetByEmail_miss _ _ e h1
      have n2 := candidates.GetByEmail_error _ _ e' h2
      simp only [List.map_append, List.map_cons, List.map_nil, hs]
      rw [← List.append_assoc, List.nodup_append]
      refine ⟨hn, by simp, ?_⟩
      intro a ha hb
      simp only [List.mem_singleton] at hb
      subst hb
      rcases List.mem_append.mp ha with ha | ha
      · obtain ⟨x, hx, hxe⟩ := List.mem_map.mp ha
        exact n2 x hx hxe
      · obtain ⟨x, hx, hxe⟩ := List.mem_map.mp ha
        exact n1 x hx hxe

theorem auth.SanitizeEmail_idem (U : unicode.CaseTable)
    (hidem : ∀ c, U.ToLower (U.ToLower c) = U.ToLower c)
    (hspace : ∀ c, unicode.IsSpace (U.ToLower c) = unicode.IsSpace c) (e : String) :
    auth.SanitizeEmail U (auth.SanitizeEmail U e) = auth.SanitizeEmail U e := by
  apply String.ext
  rw [auth.SanitizeEmail_data, auth.SanitizeEmail_data,
    strings.trim_map U.ToLower unicode.IsSpace hspace, strings.trim_trim, List.map_map]
  apply List.map_congr_left
  intro c _
  exact hidem c

/-- A registration stores a sanitised email: when every stored email is its own normal form
before, so it is afterwards, whatever the lookups do. -/
theorem handlers.Register_keeps_normal (L : jwt.Lib) (B : bcrypt.Lib) (U : unicode.CaseTable)
    (secret : String) (env : handlers.RegisterEnv) (db : handlers.DB)
    (hidem : ∀ c, U.ToLower (U.ToLower c) = U.ToLower c)
    (hspace : ∀ c, unicode.IsSpace (U.ToLower c) = unicode.IsSpace c)
    (hn : ∀ e ∈ db.candidates.map (fun c => c.Email) ++ db.companies.map (fun c => c.Email),
      auth.SanitizeEmail U e = e) :
    (∀ body, ∀ e ∈
      (handlers.CandidateAuthHandler.Register L B U secret env db body).2.candidates.map
          (fun c => c.Email) ++
        (handlers.CandidateAuthHandler.Register L B U secret env db body).2.companies.map
          (fun c => c.Email), auth.SanitizeEmail U e = e) ∧
    (∀ body, ∀ e ∈
      (handlers.CompanyAuthHandler.Register L B U secret env db body).2.candidates.map
          (fun c => c.Email) ++
        (handlers.CompanyAuthHandler.Register L B U secret env db body).2.companies.map
          (fun c => c.Email), auth.SanitizeEmail U e = e) := by
  constructor
  · intro body
    rcases handlers.CandidateRegister_cases L B U secret env db body with h |
      ⟨req, st, -, -, -, hs, -, -, h⟩
    · rw [h]; exact hn
    · rw [h]
      intro e he
      simp only [List.map_append, List.map_cons, List.map_nil, List.mem_append,
        List.mem_singleton] at he
      rcases he with (he | he) | he
      · exact hn e (List.mem_append_left _ he)
      · rw [he, hs]; exact auth.SanitizeEmail_idem U hidem hspace _
      · exact hn e (List.mem_append_right _ he)
  · intro body
    rcases handlers.CompanyRegister_cases L B U secret env db body with h |
      ⟨req, st, -, -, -, hs, -, -, h⟩
    · rw [h]; exact hn
    · rw [h]
      intro e he
      simp only [List.map_append, List.map_cons, List.map_nil, List.mem_append,
        List.mem_singleton] at he
      rcases he with he | he | he
      · exact hn e (List.mem_append_left _ he)
      · exact hn e (List.mem_append_right _ he)
      · rw [he, hs]; exact auth.SanitizeEmail_idem U hidem hspace _

/-! ## Sample data for the concrete instances -/

/-- A 32-byte signing secret. -/
def sampleSecret : String := "0123456789abcdef0123456789abcdef"

/-- Claims of a session for company `u1`, without dates. -/
def sampleClaims : auth.Claims :=
  { ID := "u1", Type_ := "company", RegisteredClaims := { Issuer := "empregabem-api" } }

/-- A subject id for which the session token issued at `sampleNow` under `sampleSecret`
by the reference library has exactly 1024 bytes. -/
def sampleLongID : String := String.mk (List.replicate 289 'a' ++ ['d'])

/-- The instant of the sample reset request. -/
def sampleNow : Time := 1700000000 * time.Second

/-- A store with one candidate account and no reset record. -/
def sampleDB : handlers.DB :=
  { candidates :=
      [{ ID := 1, Name := "Alice", Email := "alice@example.com", Password := "old-digest" }] }

/-- A reset request for that account, as a client may write the address. -/
def sampleRequest : handlers.RequestResetRequest :=
  { Email := "alice@Example.com", UserType := "candidate" }

/-- The outside of the sample call: both draws of `crypto/rand` succeed, no driver fault. -/
def sampleRequestEnv : handlers.RequestResetEnv :=
  { now := sampleNow
    tokenEntropy := some fun i => 7 * i + 1
    hashEntropy := some fun i => 11 * i + 3
    newID := 100 }

/-- The store after the sample request. -/
def sampleAfterRequest : handlers.DB :=
  (handlers.RequestReset refLib refCase sampleSecret sampleRequestEnv sampleDB
    (some sampleRequest)).2

/-- The signed reset token the sample request issues. -/
def sampleIssuedToken : String :=
  jwt.SignedString refLib refLib.encodeReset .SHA256
    (handlers.issuedClaims refCase sampleNow
      ((List.range 32).map fun i => (7 * i + 1) % 256) sampleRequest) sampleSecret

/-- The claims inside the signed token the sample request issues. -/
def sampleIssuedClaims : auth.ResetTokenClaims :=
  handlers.issuedClaims refCase sampleNow ((List.range 32).map fun i => (7 * i + 1) % 256)
    sampleRequest

/-- The outside of a `ResetPassword` call one minute later, without any fault. -/
def sampleResetEnv : handlers.ResetPasswordEnv :=
  { now := sampleNow + time.Minute, salt := some fun i => 3 * i }

/-- The outside of a second request, one second after the first. -/
def sampleSecondEnv : handlers.RequestResetEnv :=
  { now := sampleNow + time.Second
    tokenEntropy := some fun i => 5 * i + 2
    hashEntropy := some fun i => 13 * i + 4
    newID := 101 }

/-- The store after the two sample requests. -/
def sampleAfterSecondRequest : handlers.DB :=
  (handlers.RequestReset refLib refCase sampleSecret sampleSecondEnv sampleAfterRequest
    (some sampleRequest)).2

/-- A store in which the record of the sample token is keyed by the hash claim of the token
(what the token would look up), next to an older unused record of the same account and a
record of another account. -/
def sampleKeyedDB : handlers.DB :=
  { sampleDB with
    resets :=
      [{ ID := 7, Email := "alice@example.com", UserType := "candidate", Token := "older",
         TokenHash := "aa", ExpiresAt := bson.DateTime (sampleNow + 10 * time.Minute) },
       { ID := 8, Email := "alice@example.com", UserType := "candidate",
         Token := sampleIssuedToken, TokenHash := sampleIssuedClaims.TokenHash,
         ExpiresAt := bson.DateTime (sampleNow + 15 * time.Minute) },
       { ID := 9, Email := "bob@example.com", UserType := "candidate", Token := "other",
         TokenHash := "bb", ExpiresAt := bson.DateTime (sampleNow + 15 * time.Minute) }] }

/-- The keyed store after `MarkAsUsed` on the record of the sample token. -/
def sampleUsedDB : handlers.DB :=
  { sampleKeyedDB with
    resets := (repository.MarkAsUsed sampleKeyedDB.resets (sampleNow + time.Second) false 8).1 }

/-- The session token of `sampleClaims` under the reference library; it carries no dates. -/
def sampleSessionToken : String :=
  jwt.SignedString refLib refLib.encodeClaims .SHA256 sampleClaims sampleSecret

/-- Claims of a session for company `u1` that expires at second 60. -/
def sampleDatedClaims : auth.Claims :=
  { ID := "u1", Type_ := "company"
    RegisteredClaims := { Issuer := "empregabem-api", ExpiresAt := some 60 } }

/-- The session token of `sampleDatedClaims`. -/
def sampleDatedToken : String :=
  jwt.SignedString refLib refLib.encodeClaims .SHA256 sampleDatedClaims sampleSecret

/-- Claims as `sampleDatedClaims`, under the issuer of reset tokens. -/
def sampleForeignClaims : auth.Claims :=
  { ID := "u1", Type_ := "company"
    RegisteredClaims := { Issuer := "empregabem-api-reset", ExpiresAt := some 60 } }

/-- The session token of `sampleForeignClaims`. -/
def sampleForeignToken : String :=
  jwt.SignedString refLib refLib.encodeClaims .SHA256 sampleForeignClaims sampleSecret

/-- A token whose header names the method `none`. -/
def sampleNoneToken : String :=
  refLib.encodeHeader "none" ++ "." ++ refLib.encodeClaims sampleClaims ++ "." ++
    refLib.encodeSegment []

/-- A request whose Authorization header is `Bearer`, one space, `tok`. -/
def sampleBearer (tok : String) : http.Request :=
  { Header := [("Authorization", "Bearer " ++ tok)] }

/-- A request with the Authorization header `v`. -/
def sampleWith (v : String) : http.Request := { Header := [("Authorization", v)] }

/-- A request without an Authorization header. -/
def sampleBare : http.Request := { Header := [("Accept", "application/json")] }

/-- A handler that answers 200 with the subject id it finds in the context. -/
def sampleHandler : http.HandlerFunc := fun r w =>
  .ok ((w.WriteHeader 200).Encode
    [("id", (context.Value r.ctx middleware.UserIDKey).getD "")])

/-- A fresh response writer. -/
def sampleWriter : http.ResponseWriter := { }

/-- A request whose Authorization header is `Bearer`, one space, and 1018 more spaces:
1025 bytes. -/
def sampleLongBlank : http.Request :=
  sampleWith ("Bearer " ++ String.mk (List.replicate 1018 ' '))

/-- The outside of a request in which the first draw of `crypto/rand` succeeds and the
second one, inside `GenerateSecureToken`, fails. -/
def sampleFallbackEnv : handlers.RequestResetEnv :=
  { now := sampleNow
    tokenEntropy := some fun i => 7 * i + 1
    hashEntropy := none
    newID := 100 }

/-- The outside of a `ResetPassword` call sixteen minutes after the sample request. -/
def sampleLateEnv : handlers.ResetPasswordEnv :=
  { now := sampleNow + 16 * time.Minute, salt := some fun i => 3 * i }

/-- A `ResetPassword` request carrying the sample token and a strong password. -/
def sampleStrongReset : handlers.ResetPasswordRequest :=
  { Token := sampleIssuedToken, NewPassword := "Str0ng!Pass" }

/-- A password of exactly 72 bytes that passes `ValidatePasswordStrength`. -/
def sampleLongPassword : String := String.mk ("Str0ng!P".data ++ List.replicate 64 'x')

/-- Handlers that answer with their name. -/
def sampleHandlers : router.Handlers :=
  { Activate := fun _ w => .ok (w.Encode [("handler", "Activate")])
    Deactivate := fun _ w => .ok (w.Encode [("handler", "Deactivate")])
    Update := fun _ w => .ok (w.Encode [("handler", "Update")])
    Delete := fun _ w => .ok (w.Encode [("handler", "Delete")])
    ListJobApplicants := fun _ w => .ok (w.Encode [("handler", "ListJobApplicants")]) }

/-- A request of the sample company with method `m` for the path `p`. -/
def sampleCompanyRequest (m p : String) : http.Request :=
  { Method := m, Path := p, Header := [("Authorization", "Bearer " ++ sampleSessionToken)] }

/-- Empty collections. -/
def sampleEmptyDB : handlers.DB := { }

/-- The registration of a candidate. -/
def sampleRegistration : handlers.RegisterCandidateRequest :=
  { Name := "Alice", Email := "alice@example.com", Password := "Str0ng!Pass" }

/-- The outside of that registration: no fault. -/
def sampleRegisterEnv : handlers.RegisterEnv :=
  { now := sampleNow, salt := some fun i => 3 * i, newID := 1 }

/-- The collections after that registration. -/
def sampleRegistered : handlers.DB :=
  (handlers.CandidateAuthHandler.Register refLib refBcrypt refCase sampleSecret
    sampleRegisterEnv sampleEmptyDB (some sampleRegistration)).2

/-- A second registration with the same address, written in another case. -/
def sampleSecondRegistration : handlers.RegisterCandidateRequest :=
  { Name := "Mallory", Email := " Alice@Example.com", Password := "0ther!Pass" }

/-- The outside of the second registration, a second later, without a fault. -/
def sampleSecondRegisterEnv : handlers.RegisterEnv :=
  { now := sampleNow + time.Second, salt := some fun i => 5 * i, newID := 2 }

/-- The same, with the lookup by email in the collection of the handler failing. -/
def sampleFaultEnv : handlers.RegisterEnv :=
  { sampleSecondRegisterEnv with getByEmailFault := true }

/-- The same, with the lookup by email in the other collection failing. -/
def sampleCrossFaultEnv : handlers.RegisterEnv :=
  { sampleSecondRegisterEnv with crossGetByEmailFault := true }

/-- The registration of a company with the address of the candidate. -/
def sampleCompanyRegistration : handlers.RegisterCompanyRequest :=
  { Name := "Acme", CNPJ := "12345678000190", Email := "alice@example.com"
    Password := "0ther!Pass" }

/-- The collections after the second registration under the failing lookup. -/
def sampleDuplicated : handlers.DB :=
  (handlers.CandidateAuthHandler.Register refLib refBcrypt refCase sampleSecret
    sampleFaultEnv sampleRegistered (some sampleSecondRegistration)).2

set_option maxRecDepth 20000

/-! ## Facts about the sample data -/

theorem sampleSessionToken_valid (now : Time) :
    auth.ValidateToken refLib sampleSecret now (strings.TrimSpace sampleSessionToken) =
      .ok sampleClaims := by
  rw [show strings.TrimSpace sampleSessionToken = sampleSessionToken from by decide!]
  exact (auth.ValidateToken_SignedString refLib sampleSecret now .SHA256 sampleClaims
    (by decide) (by decide!) rfl).trans rfl

theorem sampleBearer_header (tok : String) :
    (sampleBearer tok).Get "Authorization" = "Bearer " ++ tok := by
  simp [sampleBearer, http.Request.Get, List.lookup, textproto.canonical_Authorization]

theorem sampleBearer_len (tok : String) (h : len tok ≤ 1017) :
    len ((sampleBearer tok).Get "Authorization") ≤ 1024 := by
  rw [sampleBearer_header, len_append]
  have h7 : len "Bearer " = 7 := by decide
  omega

theorem sampleNoneToken_rejected :
    auth.ValidateToken refLib sampleSecret 0 (strings.TrimSpace sampleNoneToken) =
      .error (.parse (.keyfunc "algoritmo de assinatura inválido")) := by
  rw [show strings.TrimSpace sampleNoneToken = sampleNoneToken from by decide!]
  rfl

theorem sampleForeignToken_rejected :
    auth.ValidateToken refLib sampleSecret 0 (strings.TrimSpace sampleForeignToken) =
      .error .invalidIssuer := by
  rw [show strings.TrimSpace sampleForeignToken = sampleForeignToken from by decide!]
  exact (auth.ValidateToken_SignedString refLib sampleSecret 0 .SHA256 sampleForeignClaims
    (by decide) (by decide!) (by decide)).trans rfl

theorem sampleDatedToken_expired :
    auth.ValidateToken refLib sampleSecret (60 * time.Second)
        (strings.TrimSpace sampleDatedToken) =
      .error (.parse (.invalidClaims true false)) := by
  rw [show strings.TrimSpace sampleDatedToken = sampleDatedToken from by decide!]
  exact (auth.ValidateToken_SignedString_eq refLib sampleSecret (60 * time.Second) .SHA256
    sampleDatedClaims (by decide) (by decide!)).trans rfl

theorem sampleBare_header : sampleBare.Get "Authorization" = "" := by decide

theorem sampleWith_header (v : String) : (sampleWith v).Get "Authorization" = v := by
  simp [sampleWith, http.Request.Get, List.lookup, textproto.canonical_Authorization]

/-- The name `X-Real-IP` is looked up in its canonical form, under which a server stores
the field; `X-Forwarded-For` goes first, the address of the peer last. -/
theorem getRealIP_sources :
    textproto.CanonicalMIMEHeaderKey "X-Real-IP" = "X-Real-Ip" ∧
    textproto.CanonicalMIMEHeaderKey "x-forwarded-for" = "X-Forwarded-For" ∧
    middleware.getRealIP
      { Header := [("X-Real-Ip", "203.0.113.7")], RemoteAddr := "10.0.0.1:5000" } =
      "203.0.113.7" ∧
    middleware.getRealIP
      { Header := [("X-Forwarded-For", " 198.51.100.2, 10.0.0.9"), ("X-Real-Ip", "203.0.113.7")]
        RemoteAddr := "10.0.0.1:5000" } = "198.51.100.2" ∧
    middleware.getRealIP { RemoteAddr := "10.0.0.1:5000" } = "10.0.0.1" := by
  decide

/-! ## The claims -/

/-- C1 (as stated, refuted): with a 32-byte secret configured, the token that
`GenerateToken` issues for a 1025-character id is rejected by `ValidateToken` at the time
of issue, as too large. -/
theorem GenerateToken_long_id_rejected :
    ∃ tok, auth.GenerateToken refLib
        (auth.Initialize "" "0123456789abcdef0123456789abcdef").jwtSecret 0
        (String.mk (List.replicate 1025 'a')) "candidate" = .ok tok ∧
      auth.ValidateToken refLib (auth.Initialize "" "0123456789abcdef0123456789abcdef").jwtSecret
        0 tok = .error .tokenTooLarge :=
  auth.GenerateToken_long refLib _ 0 0 _ "candidate" (by decide)
    (by simp only [String.length, List.length_replicate]; decide)

/-- C1 (amended): with a configured secret of at least 32 bytes, for every subject id and
kind `GenerateToken` returns a token, and whenever that token is at most 1024 bytes long
`ValidateToken` at the time of issue returns claims with that id and that kind. -/
theorem GenerateToken_ValidateToken_roundtrip (L : jwt.Lib) (old secret : String) (now : Time)
    (id kind : String) (hs : 32 ≤ len secret) :
    ∃ tok, auth.GenerateToken L (auth.Initialize old secret).jwtSecret now id kind = .ok tok ∧
      (len tok ≤ 1024 →
        ∃ c, auth.ValidateToken L (auth.Initialize old secret).jwtSecret now tok = .ok c ∧
          c.ID = id ∧ c.Type_ = kind) := by
  rw [auth.Initialize_jwtSecret old secret hs]
  have hs0 : len secret ≠ 0 := by omega
  refine ⟨_, auth.GenerateToken_eq L secret now id kind hs0, fun hl => ?_⟩
  refine ⟨{ ID := id, Type_ := kind,
            RegisteredClaims :=
              { ExpiresAt := some (jwt.NewNumericDate (now + 24 * time.Hour))
                IssuedAt := some (jwt.NewNumericDate now)
                NotBefore := some (jwt.NewNumericDate now)
                Issuer := "empregabem-api" } }, ?_, rfl, rfl⟩
  rw [auth.ValidateToken_SignedString L secret now .SHA256 _ hs0 hl]
  · simp
  · exact jwt.Validate_fresh now (24 * time.Hour) _ _ _ _ _ (by decide)

/-- C1 witness: under the reference library the token for id `u1`, kind `company` has at
most 1024 bytes and validates to the same id and kind. -/
theorem GenerateToken_ValidateToken_roundtrip_witness :
    32 ≤ len "0123456789abcdef0123456789abcdef" ∧
    ∃ tok, auth.GenerateToken refLib
        (auth.Initialize "" "0123456789abcdef0123456789abcdef").jwtSecret
        1700000000123456789 "u1" "company" = .ok tok ∧ len tok ≤ 1024 ∧
      ∃ c, auth.ValidateToken refLib
          (auth.Initialize "" "0123456789abcdef0123456789abcdef").jwtSecret
          1700000000123456789 tok = .ok c ∧ c.ID = "u1" ∧ c.Type_ = "company" := by
  obtain ⟨tok, h1, h2⟩ := GenerateToken_ValidateToken_roundtrip refLib ""
    "0123456789abcdef0123456789abcdef" 1700000000123456789 "u1" "company" (by decide)
  have hl : len tok ≤ 1024 := by
    have e : Except.ok tok = Except.ok _ := h1.symm.trans rfl
    injection e with e
    rw [e]
    decide!
  exact ⟨by decide, tok, h1, hl, h2 hl⟩

/-- C2 (the code at the failing input): the sample request for an existing account
persists one record and returns a signed token; one minute later `ResetPassword` with that
token and the password `Str0ng!Pass` answers 401 and leaves the store, and with it the
password digest of the account, unchanged. -/
theorem ResetPassword_refuses_issued_token :
    (handlers.RequestReset refLib refCase sampleSecret sampleRequestEnv sampleDB
      (some sampleRequest)).1.field "dev_token" = some sampleIssuedToken ∧
    sampleAfterRequest.resets.length = 1 ∧
    auth.ValidatePasswordStrength "Str0ng!Pass" = none ∧
    handlers.ResetPassword refLib refBcrypt sampleSecret sampleResetEnv sampleAfterRequest
        (some { Token := sampleIssuedToken, NewPassword := "Str0ng!Pass" }) =
      (handlers.erro 401 "Token inválido, expirado ou já utilizado", sampleAfterRequest) := by
  have hissued : (handlers.RequestReset refLib refCase sampleSecret sampleRequestEnv sampleDB
      (some sampleRequest)).1.field "dev_token" = some sampleIssuedToken := by decide!
  have hvalid : auth.ValidatePasswordResetToken refLib sampleSecret sampleResetEnv.now
      sampleIssuedToken = .ok sampleIssuedClaims :=
    auth.ValidatePasswordResetToken_SignedString refLib sampleSecret _ .SHA256
      sampleIssuedClaims (by decide) (by decide!) (by decide) rfl
  have hreach : handlers.Reachable refLib refCase refBcrypt sampleSecret sampleAfterRequest :=
    handlers.Reachable.requestReset _ _ _ (handlers.Reachable.init sampleDB rfl)
  have key := handlers.ResetPassword_issued_token refLib refCase refBcrypt sampleSecret sampleDB
    sampleAfterRequest sampleRequestEnv (some sampleRequest) sampleResetEnv
    { Token := sampleIssuedToken, NewPassword := "Str0ng!Pass" } hreach hissued
  refine ⟨hissued, by decide!, by decide, ?_⟩
  exact Prod.ext (key.2.2 (by decide!) (by decide) ⟨_, hvalid⟩ rfl) key.1

/-- C3 (the code at the failing input): the record the sample request persists carries the
issued token but a token hash of 64 characters, while the hash claim inside the issued
token has 128; they differ, and `GetByToken` on the hash claim finds no record although
the record is unused and unexpired. -/
theorem RequestReset_stored_hash_differs :
    ∃ r, sampleAfterRequest.resets = [r] ∧ r.Token = sampleIssuedToken ∧
      auth.ValidatePasswordResetToken refLib sampleSecret sampleNow sampleIssuedToken =
        .ok sampleIssuedClaims ∧
      r.TokenHash.length = 64 ∧ sampleIssuedClaims.TokenHash.length = 128 ∧
      r.TokenHash ≠ sampleIssuedClaims.TokenHash ∧
      repository.isActive sampleNow r = true ∧
      repository.GetByToken sampleAfterRequest.resets sampleNow false
        sampleIssuedClaims.TokenHash = .error .ErrNoDocuments :=
  ⟨_, by rfl, by decide!,
    auth.ValidatePasswordResetToken_SignedString refLib sampleSecret _ .SHA256
      sampleIssuedClaims (by decide) (by decide!) (by decide) rfl,
    by decide!, by decide!, by decide!, by decide!,
    repository.GetByToken_unmatched _ _ _ (by decide!)⟩

/-- C4 (as stated, refuted): two reset requests for the same account one second apart
lead to a reachable state in which that identity has two active records. -/
theorem two_requests_two_active_records :
    handlers.Reachable refLib refCase refBcrypt sampleSecret sampleAfterSecondRequest ∧
    (repository.activeFor (sampleNow + time.Minute) "alice@example.com" "candidate"
      sampleAfterSecondRequest.resets).length = 2 :=
  ⟨handlers.Reachable.requestReset _ _ _
      (handlers.Reachable.requestReset _ _ _ (handlers.Reachable.init sampleDB rfl)),
   by decide!⟩

/-- C4 (amended): when `ResetPassword` answers 200 and its `InvalidateAllForUser` call did
not fail, no reset record of the identity in the token's claims is active afterwards, at
any instant; so right after a successful reset the identity has at most one active record,
in fact none. Requests that follow add active records again. -/
theorem ResetPassword_success_leaves_none_active (L : jwt.Lib) (B : bcrypt.Lib)
    (secret : String) (env : handlers.ResetPasswordEnv) (db : handlers.DB)
    (req : handlers.ResetPasswordRequest) (claims : auth.ResetTokenClaims) (now' : Time)
    (hclaims : auth.ValidatePasswordResetToken L secret env.now req.Token = .ok claims)
    (hok : (handlers.ResetPassword L B secret env db (some req)).1.status = 200)
    (hinv : env.invalidateFault = false) :
    repository.activeFor now' claims.Email claims.UserType
      (handlers.ResetPassword L B secret env db (some req)).2.resets = [] := by
  rcases handlers.ResetPassword_cases L B secret env db (some req) with ⟨-, hne⟩ |
    ⟨req', claims', reset, hashed, db', hreq, -, hv, -, -, -, -, hout⟩
  · exact absurd hok hne
  · simp only [Option.some.injEq] at hreq
    subst hreq
    rw [hclaims] at hv
    simp only [Except.ok.injEq] at hv
    subst hv
    rw [hout, hinv]
    exact repository.activeFor_eq_nil now' _ _ _
      (fun r hr => repository.InvalidateAllForUser_used _ _ _ r hr)

/-- C4 witness: in the keyed sample store, where two unused records of the account are
unexpired, `ResetPassword` with the sample token succeeds and leaves the account without
an active record. -/
theorem ResetPassword_success_leaves_none_active_witness :
    (repository.activeFor sampleResetEnv.now "alice@example.com" "candidate"
      sampleKeyedDB.resets).length = 2 ∧
    auth.ValidatePasswordResetToken refLib sampleSecret sampleResetEnv.now sampleIssuedToken =
      .ok sampleIssuedClaims ∧
    (handlers.ResetPassword refLib refBcrypt sampleSecret sampleResetEnv sampleKeyedDB
      (some { Token := sampleIssuedToken, NewPassword := "Str0ng!Pass" })).1.status = 200 ∧
    repository.activeFor sampleResetEnv.now sampleIssuedClaims.Email sampleIssuedClaims.UserType
      (handlers.ResetPassword refLib refBcrypt sampleSecret sampleResetEnv sampleKeyedDB
        (some { Token := sampleIssuedToken, NewPassword := "Str0ng!Pass" })).2.resets = [] := by
  have hvalid : auth.ValidatePasswordResetToken refLib sampleSecret sampleResetEnv.now
      sampleIssuedToken = .ok sampleIssuedClaims :=
    auth.ValidatePasswordResetToken_SignedString refLib sampleSecret _ .SHA256
      sampleIssuedClaims (by decide) (by decide!) (by decide) rfl
  have hok : (handlers.ResetPassword refLib refBcrypt sampleSecret sampleResetEnv sampleKeyedDB
      (some { Token := sampleIssuedToken, NewPassword := "Str0ng!Pass" })).1.status = 200 := by
    decide!
  exact ⟨by decide!, hvalid, hok,
    ResetPassword_success_leaves_none_active refLib refBcrypt sampleSecret sampleResetEnv
      sampleKeyedDB { Token := sampleIssuedToken, NewPassword := "Str0ng!Pass" }
      sampleIssuedClaims sampleResetEnv.now hvalid hok rfl⟩

/-- C5 (as stated, refuted): in the sample store after `MarkAsUsed` on the record of the
sample token, while the token is still valid, a `ResetPassword` call carrying the token
and the password `abc` is answered 400 with the password message, not 401. -/
theorem ResetPassword_used_token_weak_password :
    (∀ r ∈ sampleUsedDB.resets, r.TokenHash = sampleIssuedClaims.TokenHash → r.Used = true) ∧
    auth.ValidatePasswordResetToken refLib sampleSecret sampleResetEnv.now sampleIssuedToken =
      .ok sampleIssuedClaims ∧
    handlers.ResetPassword refLib refBcrypt sampleSecret sampleResetEnv sampleUsedDB
        (some { Token := sampleIssuedToken, NewPassword := "abc" }) =
      (handlers.erro 400 "senha deve ter no mínimo 8 caracteres", sampleUsedDB) :=
  ⟨by decide!,
   auth.ValidatePasswordResetToken_SignedString refLib sampleSecret _ .SHA256
      sampleIssuedClaims (by decide) (by decide!) (by decide) rfl,
   by decide!⟩

/-- C5 (amended): while every stored record carrying the hash claim of a valid signed reset
token is marked used (what `MarkAsUsed` on the record found leaves behind when the record
is the only one with that hash), a `ResetPassword` call carrying the token changes nothing
in the store, so no password; it is answered 401 "Token inválido, expirado ou já utilizado"
when the new password is strong and the lookup itself does not fail, and otherwise 400
(weak password) or 500 (failing lookup). -/
theorem ResetPassword_used_record_refused (L : jwt.Lib) (B : bcrypt.Lib) (secret : String)
    (env : handlers.ResetPasswordEnv) (db : handlers.DB) (req : handlers.ResetPasswordRequest)
    (claims : auth.ResetTokenClaims)
    (hclaims : auth.ValidatePasswordResetToken L secret env.now req.Token = .ok claims)
    (hused : ∀ r ∈ db.resets, r.TokenHash = claims.TokenHash → r.Used = true) :
    (handlers.ResetPassword L B secret env db (some req)).2 = db ∧
    ((handlers.ResetPassword L B secret env db (some req)).1.status = 400 ∨
     (handlers.ResetPassword L B secret env db (some req)).1.status = 401 ∨
     (handlers.ResetPassword L B secret env db (some req)).1.status = 500) ∧
    (auth.ValidatePasswordStrength req.NewPassword = none → env.getByTokenFault = false →
      (handlers.ResetPassword L B secret env db (some req)).1 =
        handlers.erro 401 "Token inválido, expirado ou já utilizado") := by
  have key := handlers.ResetPassword_unmatched L B secret env db req (by
    intro claims' hc' r hr
    rw [hclaims] at hc'
    simp only [Except.ok.injEq] at hc'
    subst hc'
    by_cases hh : r.TokenHash = claims.TokenHash
    · simp [repository.getByTokenFilter, hused r hr hh]
    · simp [repository.getByTokenFilter, hh])
  exact ⟨key.1, key.2.1, fun hp hf =>
    key.2.2 (auth.ValidatePasswordResetToken_ne_empty L secret env.now req.Token claims hclaims)
      hp ⟨claims, hclaims⟩ hf⟩

/-- C5 witness: in the sample store after `MarkAsUsed` on the record of the sample token, a
second `ResetPassword` with the still valid token and `Str0ng!Pass` is answered 401 and
leaves the store as it is. -/
theorem ResetPassword_used_record_refused_witness :
    sampleUsedDB.resets = (repository.MarkAsUsed sampleKeyedDB.resets
      (sampleNow + time.Second) false 8).1 ∧
    handlers.ResetPassword refLib refBcrypt sampleSecret sampleResetEnv sampleUsedDB
        (some { Token := sampleIssuedToken, NewPassword := "Str0ng!Pass" }) =
      (handlers.erro 401 "Token inválido, expirado ou já utilizado", sampleUsedDB) := by
  have key := ResetPassword_used_record_refused refLib refBcrypt sampleSecret sampleResetEnv
    sampleUsedDB { Token := sampleIssuedToken, NewPassword := "Str0ng!Pass" } sampleIssuedClaims
    (auth.ValidatePasswordResetToken_SignedString refLib sampleSecret _ .SHA256
      sampleIssuedClaims (by decide) (by decide!) (by decide) rfl)
    (by decide!)
  exact ⟨rfl, Prod.ext (key.2.2 (by decide) rfl) key.1⟩

/-- C6: after an `InvalidateAllForUser(email, kind)` that returned no error, every record of
that email and kind is marked used, so `GetByToken` never returns one of them, whatever
hash is asked for and at whatever instant, and answers that there is no document for a hash
that only records of that identity carry; every record of another email or another kind is
unchanged, in place. -/
theorem InvalidateAllForUser_invalidates (coll : List models.PasswordReset) (fault : Bool)
    (email kind : String)
    (hok : (repository.InvalidateAllForUser coll fault email kind).2 = none) :
    (∀ r ∈ (repository.InvalidateAllForUser coll fault email kind).1,
      r.Email = email → r.UserType = kind → r.Used = true) ∧
    (∀ now fault' tokenHash r,
      repository.GetByToken (repository.InvalidateAllForUser coll fault email kind).1 now fault'
        tokenHash = .ok r → ¬ (r.Email = email ∧ r.UserType = kind)) ∧
    (∀ now tokenHash,
      (∀ r ∈ coll, r.TokenHash = tokenHash → r.Email = email ∧ r.UserType = kind) →
      repository.GetByToken (repository.InvalidateAllForUser coll fault email kind).1 now false
        tokenHash = .error .ErrNoDocuments) ∧
    (∀ (i : Nat) (d : models.PasswordReset), coll[i]? = some d →
      (d.Email ≠ email ∨ d.UserType ≠ kind) →
      (repository.InvalidateAllForUser coll fault email kind).1[i]? = some d) := by
  have hf : fault = false := by
    cases fault with
    | false => rfl
    | true => simp [repository.InvalidateAllForUser] at hok
  subst hf
  have hused := repository.InvalidateAllForUser_used coll email kind
  refine ⟨hused, ?_, ?_, ?_⟩
  · intro now fault' tokenHash r hg ⟨he, hk⟩
    obtain ⟨hm, hfil⟩ := repository.GetByToken_ok _ now fault' tokenHash r hg
    have hu := hused r hm he hk
    simp [repository.getByTokenFilter, hu] at hfil
  · intro now tokenHash hall
    apply repository.GetByToken_unmatched
    intro r hr
    by_cases hh : r.TokenHash = tokenHash
    · simp only [repository.InvalidateAllForUser, Bool.false_eq_true, if_false] at hr
      have hid : r.Email = email ∧ r.UserType = kind := by
        rcases mongo.mem_updateMany _ _ _ _ hr with ⟨hm, -⟩ | ⟨d0, hd0, -, hd⟩
        · exact hall r hm hh
        · have := hall d0 hd0 (by rw [← hh, hd])
          rw [hd]; exact this
      have hu := hused r (by
        simpa only [repository.InvalidateAllForUser, Bool.false_eq_true, if_false] using hr)
        hid.1 hid.2
      simp [repository.getByTokenFilter, hu]
    · simp [repository.getByTokenFilter, hh]
  · intro i d hd hother
    have hne : ¬ (d.Email = email ∧ d.UserType = kind) := by
      rcases hother with h | h
      · exact fun hh => h hh.1
      · exact fun hh => h hh.2
    simp only [repository.InvalidateAllForUser, Bool.false_eq_true, if_false, mongo.updateMany,
      List.getElem?_map, hd, Option.map_some', Option.some.injEq]
    simp only [Bool.and_eq_true, beq_iff_eq, ite_eq_right_iff, and_imp]
    intro he hk
    exact absurd ⟨he, hk⟩ hne

/-- C6 witness: on the keyed sample store, invalidating the records of alice as candidate
marks both of her records used and leaves the record of bob as it was. -/
theorem InvalidateAllForUser_invalidates_witness :
    (repository.InvalidateAllForUser sampleKeyedDB.resets false "alice@example.com"
      "candidate").2 = none ∧
    ((repository.InvalidateAllForUser sampleKeyedDB.resets false "alice@example.com"
      "candidate").1.map fun r => (r.ID, r.Used)) = [(7, true), (8, true), (9, false)] ∧
    (∀ r ∈ (repository.InvalidateAllForUser sampleKeyedDB.resets false "alice@example.com"
        "candidate").1,
      r.Email = "alice@example.com" → r.UserType = "candidate" → r.Used = true) :=
  ⟨rfl, by decide!,
   (InvalidateAllForUser_invalidates sampleKeyedDB.resets false "alice@example.com" "candidate"
      rfl).1⟩

/-- C7: a session token from `GenerateToken` is rejected by `ValidatePasswordResetToken`
at every instant, and a signed reset token from `GeneratePasswordResetToken` is rejected by
`ValidateToken` at every instant; at the instant of issue, for a token within the size
limit, the rejection is the issuer check itself (the token is signed with the same
secret and unexpired). -/
theorem cross_use_rejected (L : jwt.Lib) (U : unicode.CaseTable) (secret : String)
    (now now' : Time) (src : rand.Source) (id email kind : String) :
    (∀ tok, auth.GenerateToken L secret now id kind = .ok tok →
      (∃ e, auth.ValidatePasswordResetToken L secret now' tok = .error e) ∧
      (len tok ≤ 1024 →
        auth.ValidatePasswordResetToken L secret now tok = .error .notResetToken)) ∧
    (∀ tok uniq,
      auth.GeneratePasswordResetToken L U secret now src email kind = .ok (tok, uniq) →
      (∃ e, auth.ValidateToken L secret now' tok = .error e) ∧
      (len tok ≤ 1024 → auth.ValidateToken L secret now tok = .error .invalidIssuer)) := by
  constructor
  · intro tok h
    have hs : len secret ≠ 0 := by
      intro h0
      simp [auth.GenerateToken, h0] at h
    rw [auth.GenerateToken_eq L secret now id kind hs] at h
    injection h with h
    subst h
    constructor
    · rw [auth.ValidatePasswordResetToken_session L secret now' _ _ hs rfl]
      split_ifs
      · exact ⟨_, rfl⟩
      · split <;> exact ⟨_, rfl⟩
    · intro hl
      have hv := jwt.Validate_fresh now (24 * time.Hour) "empregabem-api" "" "" []
        (some (jwt.NewNumericDate now)) (by decide)
      exact auth.ValidatePasswordResetToken_session_valid L secret now _ _ hs rfl hl hv
  · intro tok uniq h
    obtain ⟨hs, bs, -, -, rfl⟩ := auth.GeneratePasswordResetToken_ok L U secret now src email
      kind tok uniq h
    constructor
    · rw [auth.ValidateToken_reset L secret now' _ _ hs rfl]
      split_ifs
      · exact ⟨_, rfl⟩
      · split <;> exact ⟨_, rfl⟩
    · intro hl
      have hv := jwt.Validate_fresh now (15 * time.Minute) "empregabem-api-reset" "" "" []
        (some (jwt.NewNumericDate now)) (by decide)
      exact auth.ValidateToken_reset_valid L secret now _ _ hs rfl hl hv

/-- C7 witness: under the reference library, the session token for `u1` is refused as a
reset token and the reset token for `alice@example.com` is refused as a session token. -/
theorem cross_use_rejected_witness :
    (∃ e, auth.ValidatePasswordResetToken refLib "0123456789abcdef0123456789abcdef" 5
        (jwt.SignedString refLib refLib.encodeClaims .SHA256
          { ID := "u1", Type_ := "company",
            RegisteredClaims :=
              { ExpiresAt := some (jwt.NewNumericDate (0 + 24 * time.Hour))
                IssuedAt := some (jwt.NewNumericDate 0)
                NotBefore := some (jwt.NewNumericDate 0)
                Issuer := "empregabem-api" } }
          "0123456789abcdef0123456789abcdef") = .error e) ∧
    (∃ tok uniq, auth.GeneratePasswordResetToken refLib refCase
        "0123456789abcdef0123456789abcdef" 0 (some fun i => i) "alice@example.com"
        "candidate" = .ok (tok, uniq) ∧
      ∃ e, auth.ValidateToken refLib "0123456789abcdef0123456789abcdef" 5 tok = .error e) :=
  ⟨((cross_use_rejected refLib refCase "0123456789abcdef0123456789abcdef" 0 5
      (some fun i => i) "u1" "alice@example.com" "company").1 _
      (auth.GenerateToken_eq refLib _ 0 "u1" "company" (by decide))).1,
   _, _, rfl,
   ((cross_use_rejected refLib refCase "0123456789abcdef0123456789abcdef" 0 5
      (some fun i => i) "u1" "alice@example.com" "candidate").2 _ _ rfl).1⟩

/-- C8: a token whose header names any signing method other than HS256, HS384, HS512
(for instance `none`, or an RSA or ECDSA method) is rejected by `ValidateToken`, whatever
its payload segment and signature segment. -/
theorem ValidateToken_rejects_non_HMAC (L : jwt.Lib) (secret : String) (now : Time)
    (tok p0 p1 p2 alg : String) (hsplit : strings.Split tok '.' = [p0, p1, p2])
    (hheader : L.decodeHeader p0 = some (some alg))
    (halg : alg ≠ "HS256" ∧ alg ≠ "HS384" ∧ alg ≠ "HS512") :
    ∃ e, auth.ValidateToken L secret now tok = .error e := by
  apply auth.Error_of_not_ok
  intro c hc
  obtain ⟨-, -, -, t, ht, -⟩ := auth.ValidateToken_ok L secret now tok c hc
  obtain ⟨q0, q1, q2, alg', hs', hh', ha', -⟩ :=
    jwt.ParseWithClaims_ok L L.decodeClaims _ now tok secret t ht
  rw [hsplit] at hs'
  simp only [List.cons.injEq, and_true] at hs'
  obtain ⟨rfl, -, -⟩ := hs'
  rw [hheader] at hh'
  simp only [Option.some.injEq] at hh'
  subst hh'
  rcases ha' with h | h | h
  · exact halg.1 h
  · exact halg.2.1 h
  · exact halg.2.2 h

/-- C8 witness: under the reference library, a token with header `none`, the payload of
a valid session token and an empty signature is rejected, by the Keyfunc. -/
theorem ValidateToken_rejects_non_HMAC_witness :
    auth.ValidateToken refLib sampleSecret 0
        (refLib.encodeHeader "none" ++ "." ++ refLib.encodeClaims sampleClaims ++ "." ++
          refLib.encodeSegment []) =
      .error (.parse (.keyfunc "algoritmo de assinatura inválido")) ∧
    ∃ e, auth.ValidateToken refLib sampleSecret 0
        (refLib.encodeHeader "none" ++ "." ++ refLib.encodeClaims sampleClaims ++ "." ++
          refLib.encodeSegment []) = .error e :=
  ⟨by rfl,
   ValidateToken_rejects_non_HMAC refLib _ 0 _ _ _ _ "none"
    (strings.Split_three _ _ _ (refLib.header_nodot _) (refLib.claims_nodot _)
      (refLib.segment_nodot _))
    (refLib.header_roundtrip "none") (by decide)⟩

/-- C9: whatever `ValidateToken` accepts carries the issuer `empregabem-api` exactly; a
token correctly signed with the configured secret under an HMAC method whose issuer is
any other string is rejected, and when it is within the size limit and its dates are
valid the rejection is the issuer check. -/
theorem ValidateToken_rejects_other_issuer (L : jwt.Lib) (secret : String) (now : Time) :
    (∀ tok c, auth.ValidateToken L secret now tok = .ok c →
      c.RegisteredClaims.Issuer = "empregabem-api") ∧
    (∀ (h : jwt.Hash) (c : auth.Claims), c.RegisteredClaims.Issuer ≠ "empregabem-api" →
      (∃ e, auth.ValidateToken L secret now
        (jwt.SignedString L L.encodeClaims h c secret) = .error e) ∧
      (len secret ≠ 0 → len (jwt.SignedString L L.encodeClaims h c secret) ≤ 1024 →
        jwt.Validate now c.RegisteredClaims = none →
        auth.ValidateToken L secret now (jwt.SignedString L L.encodeClaims h c secret) =
          .error .invalidIssuer)) := by
  refine ⟨fun tok c hc => (auth.ValidateToken_ok L secret now tok c hc).2.2.1, ?_⟩
  intro h c hiss
  constructor
  · apply auth.Error_of_not_ok
    intro c' hc'
    obtain ⟨-, -, hi, t, ht, rfl⟩ := auth.ValidateToken_ok L secret now _ c' hc'
    rw [jwt.ParseWithClaims_SignedString L L.encodeClaims L.decodeClaims _ now h c c secret
      (L.claims_roundtrip c) (L.claims_nodot c)] at ht
    split at ht
    · simp at ht
    · simp only [Except.ok.injEq] at ht
      subst ht
      exact hiss hi
  · intro hs hl hv
    rw [auth.ValidateToken_SignedString L secret now h c hs hl hv, if_pos hiss]

/-- C9 witness: correctly signed, unexpired tokens whose issuer is the empty string, the
tag in another letter case, or a string with the tag as a proper initial part, are each
rejected by the issuer check. -/
theorem ValidateToken_rejects_other_issuer_witness :
    (auth.ValidateToken refLib "0123456789abcdef0123456789abcdef" 0
      (jwt.SignedString refLib refLib.encodeClaims .SHA256
        { ID := "u1", Type_ := "company",
          RegisteredClaims := { Issuer := "", ExpiresAt := some 60 } }
        "0123456789abcdef0123456789abcdef") = .error .invalidIssuer) ∧
    (auth.ValidateToken refLib "0123456789abcdef0123456789abcdef" 0
      (jwt.SignedString refLib refLib.encodeClaims .SHA256
        { ID := "u1", Type_ := "company",
          RegisteredClaims := { Issuer := "Empregabem-API", ExpiresAt := some 60 } }
        "0123456789abcdef0123456789abcdef") = .error .invalidIssuer) ∧
    (auth.ValidateToken refLib "0123456789abcdef0123456789abcdef" 0
      (jwt.SignedString refLib refLib.encodeClaims .SHA256
        { ID := "u1", Type_ := "company",
          RegisteredClaims := { Issuer := "empregabem-api-reset", ExpiresAt := some 60 } }
        "0123456789abcdef0123456789abcdef") = .error .invalidIssuer) :=
  ⟨((ValidateToken_rejects_other_issuer refLib _ 0).2 .SHA256 _ (by decide)).2
      (by decide) (by decide!) (by decide),
   ((ValidateToken_rejects_other_issuer refLib _ 0).2 .SHA256 _ (by decide)).2
      (by decide) (by decide!) (by decide),
   ((ValidateToken_rejects_other_issuer refLib _ 0).2 .SHA256 _ (by decide)).2
      (by decide) (by decide!) (by decide)⟩

/-- C10: with a secret configured, both validators answer a token string of more than 1024
bytes with the size error, whatever the library would make of the string (and without a
secret they reject it too); a string of at most 1024 bytes, so one of exactly 1024 bytes,
never gets the size error. -/
theorem validators_size_check (L : jwt.Lib) (secret : String) (now : Time) (tok : String) :
    (1024 < len tok →
      (∃ e, auth.ValidateToken L secret now tok = .error e) ∧
      (∃ e, auth.ValidatePasswordResetToken L secret now tok = .error e) ∧
      (len secret ≠ 0 →
        auth.ValidateToken L secret now tok = .error .tokenTooLarge ∧
        auth.ValidatePasswordResetToken L secret now tok = .error .tokenTooLarge)) ∧
    (len tok ≤ 1024 →
      auth.ValidateToken L secret now tok ≠ .error .tokenTooLarge ∧
      auth.ValidatePasswordResetToken L secret now tok ≠ .error .tokenTooLarge) := by
  constructor
  · intro h
    by_cases hs : len secret = 0
    · exact ⟨⟨.secretNotInitialized, by simp [auth.ValidateToken, hs]⟩,
        ⟨.secretNotInitialized, by simp [auth.ValidatePasswordResetToken, hs]⟩,
        fun h' => absurd hs h'⟩
    · exact ⟨⟨_, auth.ValidateToken_too_large L secret now tok hs h⟩,
        ⟨_, auth.ValidatePasswordResetToken_too_large L secret now tok hs h⟩,
        fun _ => ⟨auth.ValidateToken_too_large L secret now tok hs h,
          auth.ValidatePasswordResetToken_too_large L secret now tok hs h⟩⟩
  · intro h
    have hn : ¬ len tok > 1024 := Nat.not_lt.mpr h
    constructor
    · unfold auth.ValidateToken
      split_ifs
      · simp
      · split
        · simp
        · split_ifs <;> simp
    · unfold auth.ValidatePasswordResetToken
      split_ifs
      · simp
      · split
        · simp
        · split_ifs
          · simp
          · split
            · split_ifs <;> simp
            · simp
          · simp

/-- C10 witness: a string of 1025 bytes gets the size error from both validators; the
session token of exactly 1024 bytes issued for `sampleLongID` does not, and is accepted. -/
theorem validators_size_check_witness :
    (auth.ValidateToken refLib sampleSecret 0 (String.mk (List.replicate 1025 'a')) =
        .error .tokenTooLarge ∧
      auth.ValidatePasswordResetToken refLib sampleSecret 0
        (String.mk (List.replicate 1025 'a')) = .error .tokenTooLarge) ∧
    ∃ tok, auth.GenerateToken refLib sampleSecret sampleNow sampleLongID "company" = .ok tok ∧
      len tok = 1024 ∧
      auth.ValidateToken refLib sampleSecret sampleNow tok ≠ .error .tokenTooLarge ∧
      ∃ c, auth.ValidateToken refLib sampleSecret sampleNow tok = .ok c := by
  refine ⟨((validators_size_check refLib sampleSecret 0 _).1 (by decide!)).2.2 (by decide),
    _, auth.GenerateToken_eq refLib sampleSecret sampleNow sampleLongID "company" (by decide),
    ?_⟩
  have hl : len (jwt.SignedString refLib refLib.encodeClaims .SHA256
      { ID := sampleLongID, Type_ := "company",
        RegisteredClaims :=
          { ExpiresAt := some (jwt.NewNumericDate (sampleNow + 24 * time.Hour))
            IssuedAt := some (jwt.NewNumericDate sampleNow)
            NotBefore := some (jwt.NewNumericDate sampleNow)
            Issuer := "empregabem-api" } } sampleSecret) = 1024 := by decide!
  refine ⟨hl, ((validators_size_check refLib sampleSecret sampleNow _).2 (by rw [hl])).1,
    { ID := sampleLongID, Type_ := "company",
      RegisteredClaims :=
        { ExpiresAt := some (jwt.NewNumericDate (sampleNow + 24 * time.Hour))
          IssuedAt := some (jwt.NewNumericDate sampleNow)
          NotBefore := some (jwt.NewNumericDate sampleNow)
          Issuer := "empregabem-api" } }, ?_⟩
  rw [auth.ValidateToken_SignedString refLib sampleSecret sampleNow .SHA256 _ (by decide)
    (by rw [hl]) (by decide)]
  rfl

/-- C11 (as stated, refuted): a token issued half a second after a whole second carries
issued-at and expiry on the whole second, so the issued-at is not the instant of issue and
the expiry is half a second before `t + 24h`; at an instant 0.3 s before `t + 24h` the
token, 650 bytes and correctly signed, is rejected as expired. -/
theorem ValidateToken_expired_before_24h :
    ∃ tok c, auth.GenerateToken refLib sampleSecret 500000000 "u1" "company" = .ok tok ∧
      tok = jwt.SignedString refLib refLib.encodeClaims .SHA256 c sampleSecret ∧
      len tok ≤ 1024 ∧
      c.RegisteredClaims.IssuedAt = some 0 ∧
      c.RegisteredClaims.ExpiresAt = some 86400 ∧
      500000000 ≤ 86400200000000 ∧ 86400200000000 < 500000000 + 24 * time.Hour ∧
      auth.ValidateToken refLib sampleSecret 86400200000000 tok =
        .error (.parse (.invalidClaims true false)) := by
  refine ⟨_, _, auth.GenerateToken_eq refLib sampleSecret 500000000 "u1" "company"
    (by decide), rfl, by decide!, by decide, by decide, by decide, by decide, ?_⟩
  rw [auth.ValidateToken_SignedString_eq refLib sampleSecret 86400200000000 .SHA256 _
    (by decide) (by decide!)]
  rfl

/-- C11 (amended): with a secret configured, the token `GenerateToken` issues at instant `t`
carries the id, the kind, the issuer `empregabem-api`, issued-at `t` truncated to the whole
second and expiry `t + 24h` truncated to the whole second (at most one second before
`t + 24h`); when the token is at most 1024 bytes long `ValidateToken` accepts it at every
instant from `t` up to, not including, that expiry, and it rejects it at every instant from
the expiry on, so at every instant after `t + 24h`. -/
theorem GenerateToken_validity_window (L : jwt.Lib) (secret : String) (t : Time)
    (id kind : String) (hs : len secret ≠ 0) :
    ∃ tok c, auth.GenerateToken L secret t id kind = .ok tok ∧
      tok = jwt.SignedString L L.encodeClaims .SHA256 c secret ∧
      c.ID = id ∧ c.Type_ = kind ∧
      c.RegisteredClaims.Issuer = "empregabem-api" ∧
      c.RegisteredClaims.IssuedAt = some (jwt.NewNumericDate t) ∧
      c.RegisteredClaims.ExpiresAt = some (jwt.NewNumericDate (t + 24 * time.Hour)) ∧
      (jwt.NewNumericDate t).Time ≤ t ∧
      (jwt.NewNumericDate (t + 24 * time.Hour)).Time ≤ t + 24 * time.Hour ∧
      t + 24 * time.Hour < (jwt.NewNumericDate (t + 24 * time.Hour)).Time + time.Second ∧
      (len tok ≤ 1024 → ∀ u, t ≤ u → u < (jwt.NewNumericDate (t + 24 * time.Hour)).Time →
        auth.ValidateToken L secret u tok = .ok c) ∧
      (∀ u, (jwt.NewNumericDate (t + 24 * time.Hour)).Time ≤ u →
        ∃ e, auth.ValidateToken L secret u tok = .error e) := by
  have hw := auth.ValidateToken_window L secret .SHA256
    { ID := id, Type_ := kind,
      RegisteredClaims :=
        { ExpiresAt := some (jwt.NewNumericDate (t + 24 * time.Hour))
          IssuedAt := some (jwt.NewNumericDate t)
          NotBefore := some (jwt.NewNumericDate t)
          Issuer := "empregabem-api" } }
    (jwt.NewNumericDate (t + 24 * time.Hour)) (jwt.NewNumericDate t) hs rfl rfl rfl
  have hb := jwt.NewNumericDate_bounds t
  have hb' := jwt.NewNumericDate_bounds (t + 24 * time.Hour)
  exact ⟨_, _, auth.GenerateToken_eq L secret t id kind hs, rfl, rfl, rfl, rfl, rfl, rfl,
    hb.1, hb'.1, hb'.2,
    fun hl u h1 h2 => hw.1 hl u (Nat.le_trans hb.1 h1) h2, hw.2⟩

/-- C11 witness: under the reference library the token issued at the sample instant for id
`u1`, kind `company` is within the size limit, is accepted at the instant of issue and one
nanosecond before its expiry, and is rejected at its expiry. -/
theorem GenerateToken_validity_window_witness :
    len sampleSecret ≠ 0 ∧
    ∃ tok c, auth.GenerateToken refLib sampleSecret sampleNow "u1" "company" = .ok tok ∧
      len tok ≤ 1024 ∧ c.ID = "u1" ∧ c.Type_ = "company" ∧
      auth.ValidateToken refLib sampleSecret sampleNow tok = .ok c ∧
      auth.ValidateToken refLib sampleSecret (sampleNow + 24 * time.Hour - 1) tok = .ok c ∧
      ∃ e, auth.ValidateToken refLib sampleSecret (sampleNow + 24 * time.Hour) tok =
        .error e := by
  obtain ⟨tok, c, h1, h2, h3, h4, -, -, -, -, -, -, h5, h6⟩ :=
    GenerateToken_validity_window refLib sampleSecret sampleNow "u1" "company" (by decide)
  have hl : len tok ≤ 1024 := by
    rw [h2]
    have e : Except.ok tok = Except.ok _ :=
      h1.symm.trans (auth.GenerateToken_eq refLib sampleSecret sampleNow "u1" "company"
        (by decide))
    injection e with e
    rw [← h2, e]
    decide!
  exact ⟨by decide, tok, c, h1, hl, h3, h4, h5 hl _ (Nat.le_refl _) (by decide),
    h5 hl _ (by decide) (by decide), h6 _ (by decide)⟩

/-- C12 (as stated, refuted): under a configured secret `ValidateToken` answers an oversized
token, a token whose header names the method `none`, a correctly signed token with another
issuer and a correctly signed expired token with four errors that are pairwise different,
so its caller can tell which check failed. -/
theorem ValidateToken_errors_differ :
    auth.ValidateToken refLib sampleSecret 0 (String.mk (List.replicate 1025 'a')) =
      .error .tokenTooLarge ∧
    auth.ValidateToken refLib sampleSecret 0 (strings.TrimSpace sampleNoneToken) =
      .error (.parse (.keyfunc "algoritmo de assinatura inválido")) ∧
    auth.ValidateToken refLib sampleSecret 0 (strings.TrimSpace sampleForeignToken) =
      .error .invalidIssuer ∧
    auth.ValidateToken refLib sampleSecret (60 * time.Second)
        (strings.TrimSpace sampleDatedToken) =
      .error (.parse (.invalidClaims true false)) ∧
    strings.TrimSpace sampleNoneToken = sampleNoneToken ∧
    strings.TrimSpace sampleForeignToken = sampleForeignToken ∧
    strings.TrimSpace sampleDatedToken = sampleDatedToken ∧
    auth.Error.tokenTooLarge ≠ .parse (.keyfunc "algoritmo de assinatura inválido") ∧
    auth.Error.tokenTooLarge ≠ .invalidIssuer ∧
    auth.Error.tokenTooLarge ≠ .parse (.invalidClaims true false) ∧
    auth.Error.parse (.keyfunc "algoritmo de assinatura inválido") ≠ .invalidIssuer ∧
    auth.Error.parse (.keyfunc "algoritmo de assinatura inválido") ≠
      .parse (.invalidClaims true false) ∧
    auth.Error.invalidIssuer ≠ .parse (.invalidClaims true false) :=
  ⟨auth.ValidateToken_too_large refLib sampleSecret 0 _ (by decide) (by decide!),
    sampleNoneToken_rejected, sampleForeignToken_rejected, sampleDatedToken_expired,
    by decide!, by decide!, by decide!,
    by decide, by decide, by decide, by decide, by decide, by decide⟩

/-- C12 (amended): it is `AuthMiddleware`, the caller of `ValidateToken`, that answers
every token `ValidateToken` rejects with one and the same response, 401 with the text
`Token inválido ou expirado`, whatever the error and the wrapped handler are. A token of
more than 1024 bytes does not reach `ValidateToken` there: its header is refused as too
large, with a response that differs from the former. -/
theorem AuthMiddleware_uniform_refusal (L : jwt.Lib) (secret : String) (now : Time)
    (w : http.ResponseWriter) :
    (∀ r rest e next, r.Get "Authorization" = "Bearer " ++ rest →
      len (r.Get "Authorization") ≤ 1024 → strings.TrimSpace rest ≠ "" →
      auth.ValidateToken L secret now (strings.TrimSpace rest) = .error e →
      middleware.AuthMiddleware L secret now next r w =
        .ok (middleware.refuse (middleware.securityHeaders w) 401
          "Token inválido ou expirado")) ∧
    (∀ r rest next, r.Get "Authorization" = "Bearer " ++ rest → 1024 < len rest →
      middleware.AuthMiddleware L secret now next r w =
        .ok (middleware.refuse (middleware.securityHeaders w) 401
          "Header de autorização muito grande")) ∧
    middleware.refuse (middleware.securityHeaders w) 401 "Header de autorização muito grande" ≠
      middleware.refuse (middleware.securityHeaders w) 401 "Token inválido ou expirado" :=
  ⟨fun r rest e next h h1 h2 hv =>
      middleware.AuthMiddleware_invalid L secret now next r w rest e h h1 h2 hv,
    fun r rest next h hl => middleware.AuthMiddleware_long_token L secret now next r w rest h hl,
    middleware.refuse_ne _ 401 401 _ _ (by decide)⟩

/-- C12 witness: under the reference library the requests carrying the token of method
`none`, the token of another issuer and the expired token get the same response, and the
request carrying a token of 1025 bytes gets the header-size refusal. -/
theorem AuthMiddleware_uniform_refusal_witness :
    middleware.AuthMiddleware refLib sampleSecret 0 sampleHandler
        (sampleBearer sampleNoneToken) sampleWriter =
      .ok (middleware.refuse (middleware.securityHeaders sampleWriter) 401
        "Token inválido ou expirado") ∧
    middleware.AuthMiddleware refLib sampleSecret 0 sampleHandler
        (sampleBearer sampleForeignToken) sampleWriter =
      .ok (middleware.refuse (middleware.securityHeaders sampleWriter) 401
        "Token inválido ou expirado") ∧
    middleware.AuthMiddleware refLib sampleSecret (60 * time.Second) sampleHandler
        (sampleBearer sampleDatedToken) sampleWriter =
      .ok (middleware.refuse (middleware.securityHeaders sampleWriter) 401
        "Token inválido ou expirado") ∧
    middleware.AuthMiddleware refLib sampleSecret 0 sampleHandler
        (sampleBearer (String.mk (List.replicate 1025 'a'))) sampleWriter =
      .ok (middleware.refuse (middleware.securityHeaders sampleWriter) 401
        "Header de autorização muito grande") :=
  ⟨(AuthMiddleware_uniform_refusal refLib sampleSecret 0 sampleWriter).1 _ _ _ _
      (sampleBearer_header _) (sampleBearer_len _ (by decide!)) (by decide!)
      sampleNoneToken_rejected,
    (AuthMiddleware_uniform_refusal refLib sampleSecret 0 sampleWriter).1 _ _ _ _
      (sampleBearer_header _) (sampleBearer_len _ (by decide!)) (by decide!)
      sampleForeignToken_rejected,
    (AuthMiddleware_uniform_refusal refLib sampleSecret (60 * time.Second) sampleWriter).1
      _ _ _ _ (sampleBearer_header _) (sampleBearer_len _ (by decide!)) (by decide!)
      sampleDatedToken_expired,
    (AuthMiddleware_uniform_refusal refLib sampleSecret 0 sampleWriter).2.1 _ _ _
      (sampleBearer_header _) (by decide!)⟩

/-- C13: when the Authorization header has the form `Bearer`, one space, a rest, is within
1024 bytes and `ValidateToken` accepts the trimmed rest, `AuthMiddleware` runs the
wrapped handler, on a request whose context maps `UserIDKey` to the claims' ID and
`UserTypeKey` to the claims' Type; in every other case it answers with a refusal that is
the same for every wrapped handler, so the handler is not run, and whose status is 401. -/
theorem AuthMiddleware_calls_next_iff (L : jwt.Lib) (secret : String) (now : Time)
    (r : http.Request) (w : http.ResponseWriter) :
    (∀ rest claims next, r.Get "Authorization" = "Bearer " ++ rest →
      len (r.Get "Authorization") ≤ 1024 →
      auth.ValidateToken L secret now (strings.TrimSpace rest) = .ok claims →
      middleware.AuthMiddleware L secret now next r w =
        next (middleware.authenticated r claims) (middleware.securityHeaders w) ∧
      context.Value (middleware.authenticated r claims).ctx middleware.UserIDKey =
        some claims.ID ∧
      context.Value (middleware.authenticated r claims).ctx middleware.UserTypeKey =
        some claims.Type_) ∧
    ((¬ ∃ rest claims, r.Get "Authorization" = "Bearer " ++ rest ∧
        len (r.Get "Authorization") ≤ 1024 ∧
        auth.ValidateToken L secret now (strings.TrimSpace rest) = .ok claims) →
      ∃ text, (∀ next, middleware.AuthMiddleware L secret now next r w =
          .ok (middleware.refuse (middleware.securityHeaders w) 401 text)) ∧
        (w.status = none →
          (middleware.refuse (middleware.securityHeaders w) 401 text).status = some 401)) := by
  constructor
  · intro rest claims next h h1 hv
    exact ⟨middleware.AuthMiddleware_accepted L secret now next r w rest claims h h1 hv,
      middleware.authenticated_values r claims⟩
  · intro h
    obtain ⟨text, ht⟩ := middleware.AuthMiddleware_refused L secret now r w h
    exact ⟨text, ht, fun hw => middleware.refuse_status _ 401 text hw⟩

/-- C13 witness: the request carrying the sample session token reaches the sample handler
with `u1` and `company` in its context; the request without an Authorization header is
answered 401 whatever the handler. -/
theorem AuthMiddleware_calls_next_iff_witness :
    (middleware.AuthMiddleware refLib sampleSecret 0 sampleHandler
        (sampleBearer sampleSessionToken) sampleWriter =
      sampleHandler (middleware.authenticated (sampleBearer sampleSessionToken) sampleClaims)
        (middleware.securityHeaders sampleWriter) ∧
      context.Value (middleware.authenticated (sampleBearer sampleSessionToken)
        sampleClaims).ctx middleware.UserIDKey = some "u1" ∧
      context.Value (middleware.authenticated (sampleBearer sampleSessionToken)
        sampleClaims).ctx middleware.UserTypeKey = some "company") ∧
    ∃ text, (∀ next, middleware.AuthMiddleware refLib sampleSecret 0 next sampleBare
          sampleWriter =
        .ok (middleware.refuse (middleware.securityHeaders sampleWriter) 401 text)) ∧
      (middleware.refuse (middleware.securityHeaders sampleWriter) 401 text).status =
        some 401 := by
  refine ⟨(AuthMiddleware_calls_next_iff refLib sampleSecret 0
      (sampleBearer sampleSessionToken) sampleWriter).1 sampleSessionToken sampleClaims
      sampleHandler (sampleBearer_header _) (sampleBearer_len _ (by decide!))
      (sampleSessionToken_valid 0), ?_⟩
  obtain ⟨text, h1, h2⟩ := (AuthMiddleware_calls_next_iff refLib sampleSecret 0 sampleBare
    sampleWriter).2 (by
      rintro ⟨rest, claims, h, -⟩
      rw [sampleBare_header] at h
      exact middleware.bearer_ne_empty rest h.symm)
  exact ⟨text, h1, h2 rfl⟩

/-- C15: when the Authorization header is absent (read as the empty string), longer than
1024 bytes, or not of the form `Bearer`, one space, a rest (`Bearer` compared exactly),
`AuthMiddleware` answers with a 401 refusal that is the same whatever the library, the
secret, the instant and the wrapped handler are: neither `ValidateToken` nor the handler
has a part in it. -/
theorem AuthMiddleware_rejects_before_validation (r : http.Request) (w : http.ResponseWriter)
    (h : r.Get "Authorization" = "" ∨ 1024 < len (r.Get "Authorization") ∨
      ¬ ∃ rest, r.Get "Authorization" = "Bearer " ++ rest) :
    ∃ text, (∀ L secret now next, middleware.AuthMiddleware L secret now next r w =
        .ok (middleware.refuse (middleware.securityHeaders w) 401 text)) ∧
      (w.status = none →
        (middleware.refuse (middleware.securityHeaders w) 401 text).status = some 401) := by
  by_cases h0 : r.Get "Authorization" = ""
  · exact ⟨_, fun L secret now next => middleware.AuthMiddleware_absent L secret now next r w h0,
      fun hw => middleware.refuse_status _ 401 _ hw⟩
  by_cases h1 : 1024 < len (r.Get "Authorization")
  · exact ⟨_, fun L secret now next =>
        middleware.AuthMiddleware_oversize L secret now next r w h0 h1,
      fun hw => middleware.refuse_status _ 401 _ hw⟩
  have hf : ¬ ∃ rest, r.Get "Authorization" = "Bearer " ++ rest := by
    rcases h with h | h | h
    · exact absurd h h0
    · exact absurd h h1
    · exact h
  exact ⟨_, fun L secret now next =>
      middleware.AuthMiddleware_malformed L secret now next r w h0 (Nat.not_lt.mp h1) hf,
    fun hw => middleware.refuse_status _ 401 _ hw⟩

/-- C15 witness: a request without the header, one with a header of 1032 bytes, one with the
scheme in lower case and one with another scheme are each answered 401 whatever the
library, the secret, the instant and the handler. -/
theorem AuthMiddleware_rejects_before_validation_witness :
    (∃ text, (∀ L secret now next, middleware.AuthMiddleware L secret now next sampleBare
        sampleWriter =
        .ok (middleware.refuse (middleware.securityHeaders sampleWriter) 401 text)) ∧
      (middleware.refuse (middleware.securityHeaders sampleWriter) 401 text).status =
        some 401) ∧
    (∃ text, ∀ L secret now next, middleware.AuthMiddleware L secret now next
        (sampleBearer (String.mk (List.replicate 1025 'a'))) sampleWriter =
        .ok (middleware.refuse (middleware.securityHeaders sampleWriter) 401 text)) ∧
    (∃ text, ∀ L secret now next, middleware.AuthMiddleware L secret now next
        (sampleWith "bearer abc") sampleWriter =
        .ok (middleware.refuse (middleware.securityHeaders sampleWriter) 401 text)) ∧
    (∃ text, ∀ L secret now next, middleware.AuthMiddleware L secret now next
        (sampleWith "Basic abc") sampleWriter =
        .ok (middleware.refuse (middleware.securityHeaders sampleWriter) 401 text)) := by
  refine ⟨?_, ?_, ?_, ?_⟩
  · obtain ⟨text, h1, h2⟩ := AuthMiddleware_rejects_before_validation sampleBare sampleWriter
      (Or.inl sampleBare_header)
    exact ⟨text, h1, h2 rfl⟩
  · obtain ⟨text, h1, -⟩ := AuthMiddleware_rejects_before_validation
      (sampleBearer (String.mk (List.replicate 1025 'a'))) sampleWriter
      (Or.inr (Or.inl (by rw [sampleBearer_header]; decide!)))
    exact ⟨text, h1⟩
  · obtain ⟨text, h1, -⟩ := AuthMiddleware_rejects_before_validation
      (sampleWith "bearer abc") sampleWriter
      (Or.inr (Or.inr (by
        rw [sampleWith_header]
        exact (not_congr (middleware.parts_iff "bearer abc")).mp (by decide))))
    exact ⟨text, h1⟩
  · obtain ⟨text, h1, -⟩ := AuthMiddleware_rejects_before_validation
      (sampleWith "Basic abc") sampleWriter
      (Or.inr (Or.inr (by
        rw [sampleWith_header]
        exact (not_congr (middleware.parts_iff "Basic abc")).mp (by decide))))
    exact ⟨text, h1⟩

/-- C16 (as stated, refuted): a header of `Bearer`, one space and 1018 more spaces is 1025
bytes long; `AuthMiddleware` refuses it as too large, which is not the empty-token
response. -/
theorem AuthMiddleware_long_blank_header :
    sampleLongBlank.Get "Authorization" = "Bearer " ++ String.mk (List.replicate 1018 ' ') ∧
    (∀ c ∈ (String.mk (List.replicate 1018 ' ')).data, unicode.IsSpace c = true) ∧
    middleware.AuthMiddleware refLib sampleSecret 0 sampleHandler sampleLongBlank
        sampleWriter =
      .ok (middleware.refuse (middleware.securityHeaders sampleWriter) 401
        "Header de autorização muito grande") ∧
    middleware.AuthMiddleware refLib sampleSecret 0 sampleHandler sampleLongBlank
        sampleWriter ≠
      .ok (middleware.refuse (middleware.securityHeaders sampleWriter) 401 "Token vazio") := by
  have h : middleware.AuthMiddleware refLib sampleSecret 0 sampleHandler sampleLongBlank
        sampleWriter =
      .ok (middleware.refuse (middleware.securityHeaders sampleWriter) 401
        "Header de autorização muito grande") :=
    middleware.AuthMiddleware_oversize refLib sampleSecret 0 sampleHandler sampleLongBlank
      sampleWriter (by rw [sampleLongBlank, sampleWith_header]; decide!)
      (by rw [sampleLongBlank, sampleWith_header]; decide!)
  refine ⟨sampleWith_header _, ?_, h, ?_⟩
  · intro c hc
    rw [List.eq_of_mem_replicate hc]
    decide
  · rw [h]
    intro he
    injection he with he
    exact middleware.refuse_ne _ 401 401 _ _ (by decide) he

/-- C16 (amended): for every Authorization header of at most 1024 bytes that consists of
`Bearer`, one space and then only white space (so for exactly `Bearer` and one space),
`AuthMiddleware` answers 401 with the text `Token vazio`, whatever the wrapped handler is;
that response differs from the one with `Token não fornecido`, which is what a request
without the header gets. -/
theorem AuthMiddleware_blank_token (L : jwt.Lib) (secret : String) (now : Time)
    (next : http.HandlerFunc) (r : http.Request) (w : http.ResponseWriter) (rest : String)
    (h : r.Get "Authorization" = "Bearer " ++ rest)
    (h1 : len (r.Get "Authorization") ≤ 1024)
    (hsp : ∀ c ∈ rest.data, unicode.IsSpace c = true) :
    middleware.AuthMiddleware L secret now next r w =
      .ok (middleware.refuse (middleware.securityHeaders w) 401 "Token vazio") ∧
    (∀ r', r'.Get "Authorization" = "" →
      middleware.AuthMiddleware L secret now next r' w =
        .ok (middleware.refuse (middleware.securityHeaders w) 401 "Token não fornecido")) ∧
    middleware.refuse (middleware.securityHeaders w) 401 "Token vazio" ≠
      middleware.refuse (middleware.securityHeaders w) 401 "Token não fornecido" :=
  ⟨middleware.AuthMiddleware_blank L secret now next r w rest h h1 hsp,
    fun r' h' => middleware.AuthMiddleware_absent L secret now next r' w h',
    middleware.refuse_ne _ 401 401 _ _ (by decide)⟩

/-- C16 witness: the headers `Bearer` with one space, and `Bearer` with a space, a tab and
two more spaces, are answered with `Token vazio`; the request without the header with
`Token não fornecido`. -/
theorem AuthMiddleware_blank_token_witness :
    middleware.AuthMiddleware refLib sampleSecret 0 sampleHandler (sampleBearer "")
        sampleWriter =
      .ok (middleware.refuse (middleware.securityHeaders sampleWriter) 401 "Token vazio") ∧
    middleware.AuthMiddleware refLib sampleSecret 0 sampleHandler (sampleBearer "\t  ")
        sampleWriter =
      .ok (middleware.refuse (middleware.securityHeaders sampleWriter) 401 "Token vazio") ∧
    middleware.AuthMiddleware refLib sampleSecret 0 sampleHandler sampleBare sampleWriter =
      .ok (middleware.refuse (middleware.securityHeaders sampleWriter) 401
        "Token não fornecido") :=
  ⟨(AuthMiddleware_blank_token refLib sampleSecret 0 sampleHandler (sampleBearer "")
      sampleWriter "" (sampleBearer_header _) (sampleBearer_len _ (by decide))
      (by decide)).1,
    (AuthMiddleware_blank_token refLib sampleSecret 0 sampleHandler (sampleBearer "\t  ")
      sampleWriter "\t  " (sampleBearer_header _) (sampleBearer_len _ (by decide))
      (by decide)).1,
    (AuthMiddleware_blank_token refLib sampleSecret 0 sampleHandler (sampleBearer "")
      sampleWriter "" (sampleBearer_header _) (sampleBearer_len _ (by decide))
      (by decide)).2.1 sampleBare sampleBare_header⟩

/-- C17: for every decoded request body, so for every email and user kind, `RequestReset`
returns the same status code, the same `mensagem` text and the same body apart from the
fields `dev_token` and `dev_note`, whatever the store holds (whether or not an account
with that email exists) and whatever the clock, the random draws and the driver do. -/
theorem RequestReset_response_hides_account (L : jwt.Lib) (U : unicode.CaseTable)
    (secret : String) (env env' : handlers.RequestResetEnv) (db db' : handlers.DB)
    (body : Option handlers.RequestResetRequest) :
    (handlers.RequestReset L U secret env db body).1.status =
      (handlers.RequestReset L U secret env' db' body).1.status ∧
    (handlers.RequestReset L U secret env db body).1.field "mensagem" =
      (handlers.RequestReset L U secret env' db' body).1.field "mensagem" ∧
    (handlers.RequestReset L U secret env db body).1.body.filter
        (fun kv => kv.1 ≠ "dev_token" ∧ kv.1 ≠ "dev_note") =
      (handlers.RequestReset L U secret env' db' body).1.body.filter
        (fun kv => kv.1 ≠ "dev_token" ∧ kv.1 ≠ "dev_note") := by
  have h := handlers.RequestReset_public L U secret env db body
  have h' := handlers.RequestReset_public L U secret env' db' body
  have hf := h.2.trans h'.2.symm
  refine ⟨h.1.trans h'.1.symm, ?_, hf⟩
  have hl := congrArg (fun l => List.lookup "mensagem" l) hf
  simp only at hl
  rw [lookup_filter_of_kept _ "mensagem" (fun _ => by simp),
    lookup_filter_of_kept _ "mensagem" (fun _ => by simp)] at hl
  exact hl

/-- C18 (the code at the failing input): in the sample request with the second draw of
`crypto/rand` failing, `GeneratePasswordResetToken` returns a signed token and the delivery
token `uniqueToken`, `GenerateSecureToken` fails, and the one record the handler persists
carries `uniqueToken` itself, in plain, in its field `TokenHash`. -/
theorem RequestReset_fallback_stores_plaintext :
    ∃ tok uniqueToken r,
      auth.GeneratePasswordResetToken refLib refCase sampleSecret sampleFallbackEnv.now
        sampleFallbackEnv.tokenEntropy (auth.SanitizeEmail refCase sampleRequest.Email)
        sampleRequest.UserType = .ok (tok, uniqueToken) ∧
      auth.GenerateSecureToken sampleFallbackEnv.hashEntropy 32 = .error .rand ∧
      (handlers.RequestReset refLib refCase sampleSecret sampleFallbackEnv sampleDB
        (some sampleRequest)).1.status = 200 ∧
      (handlers.RequestReset refLib refCase sampleSecret sampleFallbackEnv sampleDB
        (some sampleRequest)).2.resets = [r] ∧
      r.Token = tok ∧ r.TokenHash = uniqueToken ∧ uniqueToken.length = 64 :=
  ⟨_, _, _, auth.GeneratePasswordResetToken_eq refLib refCase sampleSecret sampleNow _ _ _
      ((List.range 32).map fun i => (7 * i + 1) % 256) (by decide) (by decide),
    by rfl, by rfl, by rfl, by decide!, by decide!, by decide!⟩

/-- C19 (as stated, refuted): with the same strong password, the sample token presented
sixteen minutes after issue, expired, is answered 401 `Token inválido ou expirado`, and
presented one minute after issue while its record is marked used it is answered 401
`Token inválido, expirado ou já utilizado`: two different bodies; and a string that is no
token at all, accompanied by the password `abc`, is answered 400. -/
theorem ResetPassword_refusals_differ :
    handlers.ResetPassword refLib refBcrypt sampleSecret sampleLateEnv sampleKeyedDB
        (some sampleStrongReset) =
      (handlers.erro 401 "Token inválido ou expirado", sampleKeyedDB) ∧
    handlers.ResetPassword refLib refBcrypt sampleSecret sampleResetEnv sampleUsedDB
        (some sampleStrongReset) =
      (handlers.erro 401 "Token inválido, expirado ou já utilizado", sampleUsedDB) ∧
    handlers.erro 401 "Token inválido ou expirado" ≠
      handlers.erro 401 "Token inválido, expirado ou já utilizado" ∧
    handlers.ResetPassword refLib refBcrypt sampleSecret sampleResetEnv sampleUsedDB
        (some { Token := "no-token", NewPassword := "abc" }) =
      (handlers.erro 400 "senha deve ter no mínimo 8 caracteres", sampleUsedDB) :=
  ⟨by decide!, by decide!, by decide, by decide!⟩

/-- C19 (amended): a `ResetPassword` request with a missing or weak new password is answered
400 whatever its token is. With a token and a strong new password: every token that
`ValidatePasswordResetToken` rejects (invalid or expired) gets one and the same response,
401 `Token inválido ou expirado`, whatever the error and the password; every valid token
for whose hash the store has no unused, unexpired record (already used) gets one and the
same response, 401 `Token inválido, expirado ou já utilizado`. The two responses share the
status and differ in the body; the store is unchanged in each case. -/
theorem ResetPassword_token_refusals (L : jwt.Lib) (B : bcrypt.Lib) (secret : String)
    (env : handlers.ResetPasswordEnv) (db : handlers.DB)
    (req : handlers.ResetPasswordRequest) :
    (req.Token = "" ∨ req.NewPassword = "" ∨
        auth.ValidatePasswordStrength req.NewPassword ≠ none →
      (handlers.ResetPassword L B secret env db (some req)).1.status = 400 ∧
      (handlers.ResetPassword L B secret env db (some req)).2 = db) ∧
    (req.Token ≠ "" → auth.ValidatePasswordStrength req.NewPassword = none →
      (∀ e, auth.ValidatePasswordResetToken L secret env.now req.Token = .error e →
        handlers.ResetPassword L B secret env db (some req) =
          (handlers.erro 401 "Token inválido ou expirado", db)) ∧
      (∀ claims, auth.ValidatePasswordResetToken L secret env.now req.Token = .ok claims →
        repository.GetByToken db.resets env.now env.getByTokenFault claims.TokenHash =
          .error .ErrNoDocuments →
        handlers.ResetPassword L B secret env db (some req) =
          (handlers.erro 401 "Token inválido, expirado ou já utilizado", db))) ∧
    (handlers.erro 401 "Token inválido ou expirado").status =
      (handlers.erro 401 "Token inválido, expirado ou já utilizado").status ∧
    (handlers.erro 401 "Token inválido ou expirado").body ≠
      (handlers.erro 401 "Token inválido, expirado ou já utilizado").body := by
  refine ⟨?_, ?_, rfl, by decide⟩
  · intro h
    unfold handlers.ResetPassword
    dsimp only
    by_cases h1 : req.Token = "" ∨ req.NewPassword = ""
    · rw [if_pos h1]; exact ⟨rfl, rfl⟩
    · rw [if_neg h1]
      cases hp : auth.ValidatePasswordStrength req.NewPassword with
      | some text => exact ⟨rfl, rfl⟩
      | none =>
        rcases h with h | h | h
        · exact absurd (Or.inl h) h1
        · exact absurd (Or.inr h) h1
        · exact absurd hp h
  · intro ht hp
    have h1 : ¬ (req.Token = "" ∨ req.NewPassword = "") := by
      rintro (h | h)
      · exact ht h
      · rw [h] at hp
        exact absurd hp (by decide)
    constructor
    · intro e he
      unfold handlers.ResetPassword
      dsimp only
      rw [if_neg h1, hp]
      dsimp only
      rw [he]
    · intro claims hc hg
      unfold handlers.ResetPassword
      dsimp only
      rw [if_neg h1, hp]
      dsimp only
      rw [hc]
      dsimp only
      rw [hg]

/-- C19 witness: the sample token with a strong password, expired, and with its record
marked used; and a request with the password `abc`. -/
theorem ResetPassword_token_refusals_witness :
    handlers.ResetPassword refLib refBcrypt sampleSecret sampleLateEnv sampleKeyedDB
        (some sampleStrongReset) =
      (handlers.erro 401 "Token inválido ou expirado", sampleKeyedDB) ∧
    handlers.ResetPassword refLib refBcrypt sampleSecret sampleResetEnv sampleUsedDB
        (some sampleStrongReset) =
      (handlers.erro 401 "Token inválido, expirado ou já utilizado", sampleUsedDB) ∧
    (handlers.ResetPassword refLib refBcrypt sampleSecret sampleResetEnv sampleUsedDB
        (some { Token := sampleIssuedToken, NewPassword := "abc" })).1.status = 400 :=
  ⟨(ResetPassword_token_refusals refLib refBcrypt sampleSecret sampleLateEnv sampleKeyedDB
      sampleStrongReset).2.1 (by decide!) (by decide) |>.1 _
      (auth.ValidatePasswordResetToken_SignedString_invalid refLib sampleSecret _ .SHA256
        sampleIssuedClaims (.invalidClaims true false) (by decide) (by decide!) (by decide)),
    (ResetPassword_token_refusals refLib refBcrypt sampleSecret sampleResetEnv sampleUsedDB
      sampleStrongReset).2.1 (by decide!) (by decide) |>.2 sampleIssuedClaims
      (auth.ValidatePasswordResetToken_SignedString refLib sampleSecret _ .SHA256
        sampleIssuedClaims (by decide) (by decide!) (by decide) rfl)
      (repository.GetByToken_unmatched _ _ _ (by decide!)),
    ((ResetPassword_token_refusals refLib refBcrypt sampleSecret sampleResetEnv sampleUsedDB
      { Token := sampleIssuedToken, NewPassword := "abc" }).1
      (Or.inr (Or.inr (by decide)))).1⟩

/-- C20 (as stated, refuted): a reset token issued half a second after a whole second
carries an expiry on the whole second, half a second before `t + 15min`; at an instant
0.3 s before `t + 15min` the token, within the size limit and correctly signed, is rejected
as expired. -/
theorem ValidatePasswordResetToken_expired_before_15min :
    ∃ tok uniqueToken, auth.GeneratePasswordResetToken refLib refCase sampleSecret 500000000
        (some fun i => 7 * i + 1) "alice@Example.com" "candidate" = .ok (tok, uniqueToken) ∧
      len tok ≤ 1024 ∧
      500000000 ≤ 900200000000 ∧ 900200000000 < 500000000 + 15 * time.Minute ∧
      auth.ValidatePasswordResetToken refLib sampleSecret 900200000000 tok =
        .error (.parse (.invalidClaims true false)) :=
  ⟨_, _, auth.GeneratePasswordResetToken_eq refLib refCase sampleSecret 500000000 _ _ _
      ((List.range 32).map fun i => (7 * i + 1) % 256) (by decide) (by decide),
    by decide!, by decide, by decide,
    auth.ValidatePasswordResetToken_SignedString_invalid refLib sampleSecret 900200000000
      .SHA256 _ _ (by decide) (by decide!) (by decide)⟩

/-- C20 (amended): with a secret configured and a successful draw of 32 random bytes,
`GeneratePasswordResetToken` at instant `t` returns a signed token and a delivery token;
the claims signed carry the sanitised email, the kind, the `hashString` of the delivery
token, the issuer `empregabem-api-reset` and as expiry `t + 15min` truncated to the whole
second (at most one second before `t + 15min`). When the signed token is at most 1024 bytes
long `ValidatePasswordResetToken` returns exactly those claims at every instant from `t` up
to, not including, that expiry, and it rejects the token at every instant from the expiry
on, so at every instant after `t + 15min`. -/
theorem GeneratePasswordResetToken_validity_window (L : jwt.Lib) (U : unicode.CaseTable)
    (secret : String) (t : Time) (src : rand.Source) (email kind : String) (bs : List Nat)
    (hs : len secret ≠ 0) (hr : rand.Read src 32 = some bs) :
    ∃ tok uniqueToken c,
      auth.GeneratePasswordResetToken L U secret t src email kind = .ok (tok, uniqueToken) ∧
      tok = jwt.SignedString L L.encodeReset .SHA256 c secret ∧
      c.Email = auth.SanitizeEmail U email ∧ c.UserType = kind ∧
      c.TokenHash = auth.hashString uniqueToken ∧
      c.RegisteredClaims.Issuer = "empregabem-api-reset" ∧
      c.RegisteredClaims.ExpiresAt = some (jwt.NewNumericDate (t + 15 * time.Minute)) ∧
      (jwt.NewNumericDate (t + 15 * time.Minute)).Time ≤ t + 15 * time.Minute ∧
      t + 15 * time.Minute < (jwt.NewNumericDate (t + 15 * time.Minute)).Time + time.Second ∧
      (len tok ≤ 1024 → ∀ u, t ≤ u → u < (jwt.NewNumericDate (t + 15 * time.Minute)).Time →
        auth.ValidatePasswordResetToken L secret u tok = .ok c) ∧
      (∀ u, (jwt.NewNumericDate (t + 15 * time.Minute)).Time ≤ u →
        ∃ e, auth.ValidatePasswordResetToken L secret u tok = .error e) := by
  have hw := auth.ValidatePasswordResetToken_window L secret .SHA256
    { Email := auth.SanitizeEmail U email
      UserType := kind
      TokenHash := auth.hashString (hex.EncodeToString bs)
      RegisteredClaims :=
        { ExpiresAt := some (jwt.NewNumericDate (t + 15 * time.Minute))
          IssuedAt := some (jwt.NewNumericDate t)
          NotBefore := some (jwt.NewNumericDate t)
          Issuer := "empregabem-api-reset" } }
    (jwt.NewNumericDate (t + 15 * time.Minute)) (jwt.NewNumericDate t) hs rfl rfl rfl
  have hb := jwt.NewNumericDate_bounds t
  have hb' := jwt.NewNumericDate_bounds (t + 15 * time.Minute)
  exact ⟨_, _, _, auth.GeneratePasswordResetToken_eq L U secret t src email kind bs hs hr,
    rfl, rfl, rfl, rfl, rfl, rfl, hb'.1, hb'.2,
    fun hl u h1 h2 => hw.1 hl u (Nat.le_trans hb.1 h1) h2, hw.2⟩

/-- C20 witness: under the reference library the reset token issued at the sample instant
for `alice@Example.com` is within the size limit, validates at the instant of issue and one
nanosecond before its expiry to claims with the lower-cased address, and is rejected at its
expiry. -/
theorem GeneratePasswordResetToken_validity_window_witness :
    len sampleSecret ≠ 0 ∧
    rand.Read (some fun i => 7 * i + 1) 32 =
      some ((List.range 32).map fun i => (7 * i + 1) % 256) ∧
    ∃ tok uniqueToken c,
      auth.GeneratePasswordResetToken refLib refCase sampleSecret sampleNow
        (some fun i => 7 * i + 1) "alice@Example.com" "candidate" = .ok (tok, uniqueToken) ∧
      len tok ≤ 1024 ∧ c.Email = "alice@example.com" ∧ c.UserType = "candidate" ∧
      c.TokenHash = auth.hashString uniqueToken ∧
      auth.ValidatePasswordResetToken refLib sampleSecret sampleNow tok = .ok c ∧
      auth.ValidatePasswordResetToken refLib sampleSecret (sampleNow + 15 * time.Minute - 1)
        tok = .ok c ∧
      ∃ e, auth.ValidatePasswordResetToken refLib sampleSecret (sampleNow + 15 * time.Minute)
        tok = .error e := by
  obtain ⟨tok, uniqueToken, c, h1, h2, h3, h4, h5, -, -, -, -, h6, h7⟩ :=
    GeneratePasswordResetToken_validity_window refLib refCase sampleSecret sampleNow
      (some fun i => 7 * i + 1) "alice@Example.com" "candidate"
      ((List.range 32).map fun i => (7 * i + 1) % 256) (by decide) (by decide)
  have e : Except.ok (tok, uniqueToken) = Except.ok _ :=
    h1.symm.trans (auth.GeneratePasswordResetToken_eq refLib refCase sampleSecret sampleNow
      (some fun i => 7 * i + 1) "alice@Example.com" "candidate"
      ((List.range 32).map fun i => (7 * i + 1) % 256) (by decide) (by decide))
  injection e with e
  injection e with e1 e2
  have hl : len tok ≤ 1024 := by
    rw [e1]
    decide!
  exact ⟨by decide, by decide, tok, uniqueToken, c, h1, hl, h3.trans (by decide), h4, h5,
    h6 hl _ (Nat.le_refl _) (by decide), h6 hl _ (by decide) (by decide), h7 _ (by decide)⟩

/-- C21: `Initialize(secret)` with a secret of fewer than 32 bytes panics and leaves the
package variable as it was, whatever it held; with a secret of at least 32 bytes it does not
panic and the package variable holds exactly that secret afterwards, so `GenerateToken` and
`ValidateToken` run with it: the token issued is the one signed with `secret`, and a token
is validated as it is under `secret`. -/
theorem Initialize_sets_secret (L : jwt.Lib) (old secret : String) :
    (len secret < 32 →
      (auth.Initialize old secret).panicked =
        some "JWT_SECRET deve ter no mínimo 32 caracteres" ∧
      (auth.Initialize old secret).jwtSecret = old) ∧
    (32 ≤ len secret →
      (auth.Initialize old secret).panicked = none ∧
      (auth.Initialize old secret).jwtSecret = secret ∧
      (∀ now id kind, auth.GenerateToken L (auth.Initialize old secret).jwtSecret now id kind =
        .ok (jwt.SignedString L L.encodeClaims .SHA256
          { ID := id, Type_ := kind,
            RegisteredClaims :=
              { ExpiresAt := some (jwt.NewNumericDate (now + 24 * time.Hour))
                IssuedAt := some (jwt.NewNumericDate now)
                NotBefore := some (jwt.NewNumericDate now)
                Issuer := "empregabem-api" } } secret)) ∧
      (∀ now tok, auth.ValidateToken L (auth.Initialize old secret).jwtSecret now tok =
        auth.ValidateToken L secret now tok)) := by
  constructor
  · intro h
    simp [auth.Initialize, h]
  · intro h
    have hj := auth.Initialize_jwtSecret old secret h
    have hs0 : len secret ≠ 0 := by omega
    refine ⟨by simp [auth.Initialize, Nat.not_lt.mpr h], hj, ?_, ?_⟩
    · intro now id kind
      rw [hj]
      exact auth.GenerateToken_eq L secret now id kind hs0
    · intro now tok
      rw [hj]

/-- C21 witness: a 31-byte secret panics and leaves the 32-byte secret configured before; a
32-byte secret replaces it. -/
theorem Initialize_sets_secret_witness :
    len "0123456789abcdef0123456789abcde" < 32 ∧
    (auth.Initialize sampleSecret "0123456789abcdef0123456789abcde").panicked =
      some "JWT_SECRET deve ter no mínimo 32 caracteres" ∧
    (auth.Initialize sampleSecret "0123456789abcdef0123456789abcde").jwtSecret =
      sampleSecret ∧
    32 ≤ len "abcdefghijklmnopqrstuvwxyz012345" ∧
    (auth.Initialize sampleSecret "abcdefghijklmnopqrstuvwxyz012345").panicked = none ∧
    (auth.Initialize sampleSecret "abcdefghijklmnopqrstuvwxyz012345").jwtSecret =
      "abcdefghijklmnopqrstuvwxyz012345" :=
  ⟨by decide,
    ((Initialize_sets_secret refLib sampleSecret "0123456789abcdef0123456789abcde").1
      (by decide)).1,
    ((Initialize_sets_secret refLib sampleSecret "0123456789abcdef0123456789abcde").1
      (by decide)).2,
    by decide,
    ((Initialize_sets_secret refLib sampleSecret "abcdefghijklmnopqrstuvwxyz012345").2
      (by decide)).1,
    ((Initialize_sets_secret refLib sampleSecret "abcdefghijklmnopqrstuvwxyz012345").2
      (by decide)).2.1⟩

/-- C22 (the code at the failing input): the password `Aa1!éé` has six characters, which
take eight bytes, so fewer than the 8 characters the error text of the length check asks
for; `ValidatePasswordStrength` returns nil for it. -/
theorem ValidatePasswordStrength_six_characters :
    ("Aa1!éé" : String).length = 6 ∧ len "Aa1!éé" = 8 ∧
    auth.ValidatePasswordStrength "Aa1!éé" = none := by
  decide

/-- C23: for a password of at least 8 bytes `ValidatePasswordStrength` returns nil exactly
when the password has a character of `A`-`Z`, one of `a`-`z`, one of `0`-`9` and one of the
punctuation class of the pattern; when one of the four is missing it returns the error
that names the required classes. -/
theorem ValidatePasswordStrength_classes (p : String) (h : 8 ≤ len p) :
    (auth.ValidatePasswordStrength p = none ↔
      (∃ c ∈ p.data, 'A' ≤ c ∧ c ≤ 'Z') ∧ (∃ c ∈ p.data, 'a' ≤ c ∧ c ≤ 'z') ∧
      (∃ c ∈ p.data, '0' ≤ c ∧ c ≤ '9') ∧ (∃ c ∈ p.data, c ∈ auth.specialChars)) ∧
    (¬ ((∃ c ∈ p.data, 'A' ≤ c ∧ c ≤ 'Z') ∧ (∃ c ∈ p.data, 'a' ≤ c ∧ c ≤ 'z') ∧
        (∃ c ∈ p.data, '0' ≤ c ∧ c ≤ '9') ∧ (∃ c ∈ p.data, c ∈ auth.specialChars)) →
      auth.ValidatePasswordStrength p = some
        "senha deve conter letras maiúsculas, minúsculas, números e caracteres especiais") := by
  have hlen : ¬ len p < auth.minPasswordLength := by
    simp only [auth.minPasswordLength]; omega
  have hu : (p.data.any fun c => 'A' ≤ c && c ≤ 'Z') = true ↔
      ∃ c ∈ p.data, 'A' ≤ c ∧ c ≤ 'Z' := by simp [List.any_eq_true]
  have hl : (p.data.any fun c => 'a' ≤ c && c ≤ 'z') = true ↔
      ∃ c ∈ p.data, 'a' ≤ c ∧ c ≤ 'z' := by simp [List.any_eq_true]
  have hn : (p.data.any fun c => '0' ≤ c && c ≤ '9') = true ↔
      ∃ c ∈ p.data, '0' ≤ c ∧ c ≤ '9' := by simp [List.any_eq_true]
  have hsp : (p.data.any fun c => auth.specialChars.contains c) = true ↔
      ∃ c ∈ p.data, c ∈ auth.specialChars := by simp [List.any_eq_true]
  unfold auth.ValidatePasswordStrength
  rw [if_neg hlen]
  simp only [← hu, ← hl, ← hn, ← hsp]
  cases p.data.any fun c => 'A' ≤ c && c ≤ 'Z' <;>
  cases p.data.any fun c => 'a' ≤ c && c ≤ 'z' <;>
  cases p.data.any fun c => '0' ≤ c && c ≤ '9' <;>
  cases p.data.any fun c => auth.specialChars.contains c <;> simp

/-- C23 witness: `Str0ng!Pass` is accepted; `Str0ngPass1`, without punctuation, gets the
error naming the classes. -/
theorem ValidatePasswordStrength_classes_witness :
    8 ≤ len "Str0ng!Pass" ∧ auth.ValidatePasswordStrength "Str0ng!Pass" = none ∧
    8 ≤ len "Str0ngPass1" ∧
    auth.ValidatePasswordStrength "Str0ngPass1" = some
      "senha deve conter letras maiúsculas, minúsculas, números e caracteres especiais" :=
  ⟨by decide,
    (ValidatePasswordStrength_classes "Str0ng!Pass" (by decide)).1.mpr
      ⟨⟨'S', by decide, by decide⟩, ⟨'t', by decide, by decide⟩, ⟨'0', by decide, by decide⟩,
        ⟨'!', by decide, by decide⟩⟩,
    by decide,
    (ValidatePasswordStrength_classes "Str0ngPass1" (by decide)).2 (by decide)⟩

/-- C24: for a case table whose lower-casing is idempotent and turns no character into or
out of white space (as Unicode's is), `SanitizeEmail(e)` is `e` without its leading and
trailing run of white space, every character lower-cased; an address that differs from `e`
only in letter case and in white space around it has the same normal form; and
`SanitizeEmail` applied to a normal form returns it unchanged. -/
theorem SanitizeEmail_normal_form (U : unicode.CaseTable)
    (hidem : ∀ c, U.ToLower (U.ToLower c) = U.ToLower c)
    (hspace : ∀ c, unicode.IsSpace (U.ToLower c) = unicode.IsSpace c) (e : String) :
    (∃ pre mid post : List Char, e.data = pre ++ mid ++ post ∧
      (∀ c ∈ pre, unicode.IsSpace c = true) ∧ (∀ c ∈ post, unicode.IsSpace c = true) ∧
      (∀ c, mid.head? = some c → unicode.IsSpace c = false) ∧
      (∀ c, mid.getLast? = some c → unicode.IsSpace c = false) ∧
      (auth.SanitizeEmail U e).data = mid.map U.ToLower) ∧
    (∀ pre e' post : String, (∀ c ∈ pre.data, unicode.IsSpace c = true) →
      (∀ c ∈ post.data, unicode.IsSpace c = true) →
      e'.data.map U.ToLower = e.data.map U.ToLower →
      auth.SanitizeEmail U (pre ++ e' ++ post) = auth.SanitizeEmail U e) ∧
    auth.SanitizeEmail U (auth.SanitizeEmail U e) = auth.SanitizeEmail U e := by
  refine ⟨?_, ?_, ?_⟩
  · obtain ⟨pre, post, h1, h2, h3, h4, h5⟩ := strings.trim_parts unicode.IsSpace e.data
    exact ⟨pre, _, post, h1, h2, h3, h4, h5, auth.SanitizeEmail_data U e⟩
  · intro pre e' post hpre hpost hcase
    apply String.ext
    rw [auth.SanitizeEmail_data, auth.SanitizeEmail_data]
    simp only [String.data_append]
    rw [strings.trim_surrounded unicode.IsSpace pre.data e'.data post.data hpre hpost,
      ← strings.trim_map U.ToLower unicode.IsSpace hspace,
      ← strings.trim_map U.ToLower unicode.IsSpace hspace, hcase]
  · apply String.ext
    rw [auth.SanitizeEmail_data, auth.SanitizeEmail_data,
      strings.trim_map U.ToLower unicode.IsSpace hspace, strings.trim_trim, List.map_map]
    apply List.map_congr_left
    intro c _
    exact hidem c

/-- C24 witness: under the reference case table `alice@Example.com`, also in capitals
between a tab and a blank, gives `alice@example.com`, which is its own normal form. -/
theorem SanitizeEmail_normal_form_witness :
    auth.SanitizeEmail refCase "alice@Example.com" = "alice@example.com" ∧
    auth.SanitizeEmail refCase ("\t" ++ "ALICE@EXAMPLE.COM" ++ " ") =
      auth.SanitizeEmail refCase "alice@Example.com" ∧
    auth.SanitizeEmail refCase (auth.SanitizeEmail refCase "alice@Example.com") =
      auth.SanitizeEmail refCase "alice@Example.com" :=
  ⟨by decide,
    (SanitizeEmail_normal_form refCase refCase_idem refCase_space "alice@Example.com").2.1
      "\t" "ALICE@EXAMPLE.COM" " " (by decide) (by decide) (by decide),
    (SanitizeEmail_normal_form refCase refCase_idem refCase_space "alice@Example.com").2.2⟩

/-- C25 (the code at the failing input): from empty collections a candidate registers with
`alice@example.com`. A second registration with that address is answered 409 and changes
nothing when the lookups work; when the lookup by email in the candidates fails it is
answered 201, and the reachable state holds two candidates with the email
`alice@example.com`. Likewise the registration of a company with that address, during which
the lookup in the candidates fails, is answered 201 and stores a company with the email of
the candidate. -/
theorem Register_duplicate_email_on_failed_lookup :
    (handlers.CandidateAuthHandler.Register refLib refBcrypt refCase sampleSecret
      sampleRegisterEnv sampleEmptyDB (some sampleRegistration)).1.status = 201 ∧
    sampleRegistered.candidates.map (fun c => (c.ID, c.Email)) = [(1, "alice@example.com")] ∧
    (handlers.CandidateAuthHandler.Register refLib refBcrypt refCase sampleSecret
      sampleSecondRegisterEnv sampleRegistered (some sampleSecondRegistration)).1.status =
      409 ∧
    (handlers.CandidateAuthHandler.Register refLib refBcrypt refCase sampleSecret
      sampleSecondRegisterEnv sampleRegistered (some sampleSecondRegistration)).2 =
      sampleRegistered ∧
    (handlers.CandidateAuthHandler.Register refLib refBcrypt refCase sampleSecret
      sampleFaultEnv sampleRegistered (some sampleSecondRegistration)).1.status = 201 ∧
    handlers.Registered refLib refBcrypt refCase sampleSecret sampleDuplicated ∧
    sampleDuplicated.candidates.map (fun c => (c.ID, c.Email)) =
      [(1, "alice@example.com"), (2, "alice@example.com")] ∧
    (handlers.CompanyAuthHandler.Register refLib refBcrypt refCase sampleSecret
      sampleCrossFaultEnv sampleRegistered (some sampleCompanyRegistration)).1.status = 201 ∧
    (handlers.CompanyAuthHandler.Register refLib refBcrypt refCase sampleSecret
      sampleCrossFaultEnv sampleRegistered (some sampleCompanyRegistration)).2.companies.map
        (fun c => c.Email) = ["alice@example.com"] ∧
    (handlers.CompanyAuthHandler.Register refLib refBcrypt refCase sampleSecret
      sampleCrossFaultEnv sampleRegistered (some sampleCompanyRegistration)).2.candidates.map
        (fun c => c.Email) = ["alice@example.com"] :=
  ⟨by decide!, by decide!, by decide!, by decide!, by decide!,
    handlers.Registered.candidate _ _ _
      (handlers.Registered.candidate _ _ _ (handlers.Registered.init sampleEmptyDB ⟨rfl, rfl⟩)),
    by decide!, by decide!, by decide!, by decide!⟩

/-- C26 (as stated, refuted): `Str0ng!Pass` passes `ValidatePasswordStrength`, and
`HashPassword` returns the error of the library when the draw of the salt fails; so it does
for a strong password of 73 bytes, which the library refuses. With the key handling of
bcrypt, the digest of a strong password of 72 bytes also matches that password followed by
one more character, a different plaintext. -/
theorem HashPassword_fails_and_collides :
    auth.ValidatePasswordStrength "Str0ng!Pass" = none ∧
    auth.HashPassword refBcrypt none "Str0ng!Pass" = .error .bcrypt ∧
    auth.ValidatePasswordStrength sampleLongPassword = none ∧
    len sampleLongPassword = 72 ∧
    sampleLongPassword ++ "y" ≠ sampleLongPassword ∧
    auth.ValidatePasswordStrength (sampleLongPassword ++ "y") = none ∧
    auth.HashPassword keyedBcrypt (some fun i => 3 * i) (sampleLongPassword ++ "y") =
      .error .bcrypt ∧
    ∃ d, auth.HashPassword keyedBcrypt (some fun i => 3 * i) sampleLongPassword = .ok d ∧
      auth.CheckPasswordHash keyedBcrypt sampleLongPassword d = true ∧
      auth.CheckPasswordHash keyedBcrypt (sampleLongPassword ++ "y") d = true :=
  ⟨by decide, by rfl, by decide!, by decide!, by decide!, by decide!, by rfl,
    _, by rfl, by decide!, by decide!⟩

/-- C26 (amended): whenever `HashPassword(p)` returns a digest `d`, `CheckPasswordHash(p, d)`
is true; `CheckPasswordHash` returns a boolean for every password and every digest, true
exactly when `bcrypt.CompareHashAndPassword` returns no error, so false for every digest
the library rejects; and `HashPassword` returns the error of the library whenever
`bcrypt.GenerateFromPassword` fails. -/
theorem HashPassword_CheckPasswordHash (B : bcrypt.Lib) (salt : rand.Source) (p : String) :
    (∀ d, auth.HashPassword B salt p = .ok d → auth.CheckPasswordHash B p d = true) ∧
    (∀ q h, auth.CheckPasswordHash B q h = B.CompareHashAndPassword h q) ∧
    (B.GenerateFromPassword p auth.bcryptCost salt = none →
      auth.HashPassword B salt p = .error .bcrypt) ∧
    (∀ d, B.GenerateFromPassword p auth.bcryptCost salt = some d →
      auth.HashPassword B salt p = .ok d) := by
  have hcheck : ∀ q h, auth.CheckPasswordHash B q h = B.CompareHashAndPassword h q := by
    intro q h
    unfold auth.CheckPasswordHash
    cases B.CompareHashAndPassword h q <;> rfl
  refine ⟨?_, hcheck, ?_, ?_⟩
  · intro d hd
    rw [hcheck]
    unfold auth.HashPassword at hd
    cases hg : B.GenerateFromPassword p auth.bcryptCost salt with
    | none => rw [hg] at hd; exact Except.noConfusion hd
    | some d' =>
      rw [hg] at hd
      simp only [Except.ok.injEq] at hd
      subst hd
      exact B.compare_generate p auth.bcryptCost salt d' hg
  · intro hg
    unfold auth.HashPassword
    rw [hg]
  · intro d hg
    unfold auth.HashPassword
    rw [hg]

/-- C26 witness: under the reference instance `Str0ng!Pass` is hashed, the digest matches
it and does not match `Str0ng!Pasz`. -/
theorem HashPassword_CheckPasswordHash_witness :
    ∃ d, auth.HashPassword refBcrypt (some fun i => 3 * i) "Str0ng!Pass" = .ok d ∧
      auth.CheckPasswordHash refBcrypt "Str0ng!Pass" d = true ∧
      auth.CheckPasswordHash refBcrypt "Str0ng!Pasz" d = false ∧
      auth.CheckPasswordHash refBcrypt "Str0ng!Pass" "" = false :=
  have h := HashPassword_CheckPasswordHash refBcrypt (some fun i => 3 * i) "Str0ng!Pass"
  ⟨_, h.2.2.2 _ (by rfl), h.1 _ (h.2.2.2 _ (by rfl)), by decide!, by decide!⟩

/-- C27: for every string `s` the output of `hashString` has `2 * len(s)` characters, all
hexadecimal digits; decoding it with `hex.DecodeString` and taking every byte xor 0xAA
gives the bytes of `s`; so `hashString` is injective, and from the `TokenHash` claim of a
signed reset token that `GeneratePasswordResetToken` issued the delivery token it returned
with it is computed back. -/
theorem hashString_not_one_way (s t : String) :
    (auth.hashString s).length = 2 * len s ∧
    (∀ c ∈ (auth.hashString s).data, c ∈ hex.hextable) ∧
    (hex.DecodeString (auth.hashString s)).map (fun bs => bs.map fun b => b ^^^ 0xAA) =
      some (bytes s) ∧
    (auth.hashString s = auth.hashString t → s = t) ∧
    (∀ L U secret now src email kind tok uniqueToken later claims,
      auth.GeneratePasswordResetToken L U secret now src email kind =
        .ok (tok, uniqueToken) →
      auth.ValidatePasswordResetToken L secret later tok = .ok claims →
      ∃ bs, hex.DecodeString claims.TokenHash = some bs ∧
        String.mk ((bs.map fun b => b ^^^ 0xAA).map Char.ofNat) = uniqueToken) := by
  refine ⟨auth.length_hashString s, ?_, auth.unhashString s, auth.hashString_injective s t, ?_⟩
  · intro c hc
    obtain ⟨k, hk, rfl⟩ := hex.EncodeToString_mem _ c hc
    exact hex.hextable_mem k hk
  · intro L U secret now src email kind tok uniqueToken later claims hg hv
    obtain ⟨-, bs, -, hu, ht⟩ :=
      auth.GeneratePasswordResetToken_ok L U secret now src email kind tok uniqueToken hg
    rw [ht] at hv
    have hc := auth.ValidatePasswordResetToken_SignedString_ok L secret later .SHA256 _ claims hv
    rw [hc, hu]
    exact auth.recover_uniqueToken bs

/-- C27 witness: `hashString` of `ab` is `cbc8`, different from that of `ba`; and the
delivery token of the sample request is read back from the hash claim of the sample
token. -/
theorem hashString_not_one_way_witness :
    auth.hashString "ab" = "cbc8" ∧
    (auth.hashString "ab" = auth.hashString "ab" → "ab" = "ab") ∧
    auth.hashString "ab" ≠ auth.hashString "ba" ∧
    ∃ bs, hex.DecodeString sampleIssuedClaims.TokenHash = some bs ∧
      String.mk ((bs.map fun b => b ^^^ 0xAA).map Char.ofNat) =
        hex.EncodeToString ((List.range 32).map fun i => (7 * i + 1) % 256) :=
  ⟨by decide, (hashString_not_one_way "ab" "ab").2.2.2.1,
    fun h => absurd ((hashString_not_one_way "ab" "ba").2.2.2.1 h) (by decide),
    (hashString_not_one_way "ab" "ab").2.2.2.2 refLib refCase sampleSecret sampleNow
      (some fun i => 7 * i + 1) "alice@example.com" "candidate" _ _ sampleNow
      sampleIssuedClaims
      (auth.GeneratePasswordResetToken_eq refLib refCase sampleSecret sampleNow _ _ _
        ((List.range 32).map fun i => (7 * i + 1) % 256) (by decide) (by decide))
      (auth.ValidatePasswordResetToken_SignedString refLib sampleSecret sampleNow .SHA256
        sampleIssuedClaims (by decide) (by decide!) (by decide) rfl)⟩

/-- C28 (the code at the failing input): the function of the route `/company/jobs/` compares
the last 10 bytes of the path with the 9 bytes of `/activate` and the last 12 with the 11 of
`/deactivate`, so it calls neither `Activate` nor `Deactivate`, whatever they are, and
answers every PATCH request with 405; so does the route for the PATCH requests of the
sample company to `/company/jobs/64f0c1d2e3a4b5c6d7e8f901/activate` and to
`/company/jobs/64f0c1d2e3a4b5c6d7e8f901/deactivate`, while its GET request for the
applicants of the job reaches `ListJobApplicants`. -/
theorem companyJobs_never_activates :
    (∀ h a d, router.companyJobs { h with Activate := a, Deactivate := d } =
      router.companyJobs h) ∧
    (∀ h (r : http.Request) w, router.companyJobs h { r with Method := "PATCH" } w =
      .ok (http.Error w "Método não permitido" 405)) ∧
    router.companyJobsRoute refLib sampleSecret 0 0 sampleHandlers
        (sampleCompanyRequest "PATCH" "/company/jobs/64f0c1d2e3a4b5c6d7e8f901/activate")
        sampleWriter =
      .ok (http.Error (middleware.securityHeaders (middleware.securityHeaders sampleWriter))
        "Método não permitido" 405) ∧
    router.companyJobsRoute refLib sampleSecret 0 0 sampleHandlers
        (sampleCompanyRequest "PATCH" "/company/jobs/64f0c1d2e3a4b5c6d7e8f901/deactivate")
        sampleWriter =
      .ok (http.Error (middleware.securityHeaders (middleware.securityHeaders sampleWriter))
        "Método não permitido" 405) ∧
    router.companyJobsRoute refLib sampleSecret 0 0 sampleHandlers
        (sampleCompanyRequest "GET" "/company/jobs/64f0c1d2e3a4b5c6d7e8f901/applicants")
        sampleWriter =
      .ok ((middleware.securityHeaders (middleware.securityHeaders sampleWriter)).Encode
        [("handler", "ListJobApplicants")]) := by
  have hroute : ∀ m p, router.companyJobsRoute refLib sampleSecret 0 0 sampleHandlers
      (sampleCompanyRequest m p) sampleWriter =
      router.companyJobs sampleHandlers
        (middleware.authenticated (middleware.authenticated (sampleCompanyRequest m p)
          sampleClaims) sampleClaims)
        (middleware.securityHeaders (middleware.securityHeaders sampleWriter)) := by
    intro m p
    have hh : (sampleCompanyRequest m p).Get "Authorization" =
        "Bearer " ++ sampleSessionToken := by
      simp [sampleCompanyRequest, http.Request.Get, List.lookup,
        textproto.canonical_Authorization]
    refine router.companyJobsRoute_accepted refLib sampleSecret 0 0 sampleHandlers _ _
      sampleSessionToken sampleClaims sampleClaims hh ?_ (sampleSessionToken_valid 0)
      (sampleSessionToken_valid 0) rfl
    rw [hh]
    decide!
  refine ⟨?_, ?_, ?_, ?_, ?_⟩
  · intro h a d
    funext r w
    rw [router.companyJobs_eq, router.companyJobs_eq]
  · intro h r w
    rw [router.companyJobs_eq]
    simp [http.StatusMethodNotAllowed]
  · rw [hroute, router.companyJobs_eq]
    rfl
  · rw [hroute, router.companyJobs_eq]
    rfl
  · rw [hroute, router.companyJobs_eq]
    rfl

/-- C29: in every limiter reached from `NewRateLimiter(limit)` by requests handled one at a
time whose wrapped handlers return normally, a further such request leaves the counter of
every address as it was; when the limit is at least 1 its answer is that of the wrapped
handler, so never the 429 of the limiter, however many requests came before; when the limit
is 0 (or below) the answer is the 429 response, whatever the wrapped handler is. -/
theorem RateLimiter_never_limits (limit : Int) (rl : middleware.RateLimiter)
    (next : http.HandlerFunc) (r : http.Request) (w w' : http.ResponseWriter)
    (hr : middleware.RateLimiter.Reachable limit rl) (hnext : next r w = .ok w') :
    (∀ ip, (rl.Middleware next r w).2.get ip = rl.get ip) ∧
    (1 ≤ limit → (rl.Middleware next r w).1 = .ok w') ∧
    (limit ≤ 0 →
      (∀ other, (rl.Middleware other r w).1 =
        .ok ((((w.Set "Content-Type" "application/json").Set "Retry-After" "60").WriteHeader
          429).Write middleware.tooManyRequests)) ∧
      (w.status = none →
        ((((w.Set "Content-Type" "application/json").Set "Retry-After" "60").WriteHeader
          429).Write middleware.tooManyRequests).status = some 429)) := by
  obtain ⟨hlim, hz⟩ := middleware.RateLimiter.Reachable_zero limit rl hr
  have hrefused : limit ≤ 0 → ∀ other, rl.Middleware other r w =
      (.ok ((((w.Set "Content-Type" "application/json").Set "Retry-After" "60").WriteHeader
        429).Write middleware.tooManyRequests), rl) := by
    intro hl other
    apply middleware.RateLimiter.Middleware_refused
    rw [hz, hlim]
    exact hl
  refine ⟨?_, ?_, ?_⟩
  · intro ip
    by_cases hl : 1 ≤ limit
    · exact (middleware.RateLimiter.Middleware_zero rl next r w w' hz (hlim ▸ hl) hnext).2.2 ip
    · rw [hrefused (by omega) next]
  · intro hl
    exact (middleware.RateLimiter.Middleware_zero rl next r w w' hz (hlim ▸ hl) hnext).1
  · intro hl
    refine ⟨fun other => by rw [hrefused hl other], fun hw => ?_⟩
    simp [http.ResponseWriter.Write, http.ResponseWriter.WriteHeader, http.ResponseWriter.Set,
      hw]

/-- C29 witness: with the limit 100 of `main`, after two requests from `10.0.0.1` a third
one is answered by the sample handler and the counter of that address reads zero; with the
limit 0 the first request is answered 429. -/
theorem RateLimiter_never_limits_witness :
    middleware.RateLimiter.Reachable 100
      (((middleware.NewRateLimiter 100).Middleware sampleHandler
        { RemoteAddr := "10.0.0.1:5000" } sampleWriter).2.Middleware sampleHandler
        { RemoteAddr := "10.0.0.1:5001" } sampleWriter).2 ∧
    ((((middleware.NewRateLimiter 100).Middleware sampleHandler
        { RemoteAddr := "10.0.0.1:5000" } sampleWriter).2.Middleware sampleHandler
        { RemoteAddr := "10.0.0.1:5001" } sampleWriter).2.Middleware sampleHandler
        { RemoteAddr := "10.0.0.1:5002" } sampleWriter).1 =
      sampleHandler { RemoteAddr := "10.0.0.1:5002" } sampleWriter ∧
    ((((middleware.NewRateLimiter 100).Middleware sampleHandler
        { RemoteAddr := "10.0.0.1:5000" } sampleWriter).2.Middleware sampleHandler
        { RemoteAddr := "10.0.0.1:5001" } sampleWriter).2.Middleware sampleHandler
        { RemoteAddr := "10.0.0.1:5002" } sampleWriter).2.get "10.0.0.1" = 0 ∧
    (((middleware.NewRateLimiter 0).Middleware sampleHandler
        { RemoteAddr := "10.0.0.1:5000" } sampleWriter).1 =
      .ok ((((sampleWriter.Set "Content-Type" "application/json").Set "Retry-After"
        "60").WriteHeader 429).Write middleware.tooManyRequests)) := by
  have hreach : middleware.RateLimiter.Reachable 100
      (((middleware.NewRateLimiter 100).Middleware sampleHandler
        { RemoteAddr := "10.0.0.1:5000" } sampleWriter).2.Middleware sampleHandler
        { RemoteAddr := "10.0.0.1:5001" } sampleWriter).2 :=
    .step _ _ _ _ _ (.step _ _ _ _ _ .init rfl) rfl
  have h := RateLimiter_never_limits 100 _ sampleHandler { RemoteAddr := "10.0.0.1:5002" }
    sampleWriter _ hreach rfl
  have h0 := RateLimiter_never_limits 0 _ sampleHandler { RemoteAddr := "10.0.0.1:5000" }
    sampleWriter _ .init rfl
  exact ⟨hreach, h.2.1 (by decide), (h.1 "10.0.0.1").trans (by decide),
    (h0.2.2 (by decide)).1 sampleHandler⟩

/-- C30: the wrapped function of `AuthMiddleware` runs only on a request in whose context
`UserIDKey` and `UserTypeKey` hold the strings of the accepted claims, so the type
assertion on the user type inside `CompanyOnly` and `CandidateOnly` yields that string:
each wrapper ends in a 401 refusal, in a 403 refusal or in the run of its handler, never in
the panic of the assertion. Hence with a handler that returns normally both wrappers return
normally, also inside a second `AuthMiddleware` that validates at another instant. -/
theorem kind_assertion_never_fails (L : jwt.Lib) (secret : String) (now later : Time)
    (next : http.HandlerFunc) (r : http.Request) (w : http.ResponseWriter) :
    ((∃ text, ∀ inner, middleware.AuthMiddleware L secret now inner r w =
        .ok (middleware.refuse (middleware.securityHeaders w) 401 text)) ∨
      ∃ claims, (∀ inner, middleware.AuthMiddleware L secret now inner r w =
          inner (middleware.authenticated r claims) (middleware.securityHeaders w)) ∧
        context.Value (middleware.authenticated r claims).ctx middleware.UserIDKey =
          some claims.ID ∧
        context.Value (middleware.authenticated r claims).ctx middleware.UserTypeKey =
          some claims.Type_ ∧
        middleware.userTypeOf (middleware.authenticated r claims) = .ok claims.Type_) ∧
    ((∃ text, middleware.CompanyOnly L secret now next r w =
        .ok (middleware.refuse (middleware.securityHeaders w) 401 text)) ∨
      (∃ text, middleware.CompanyOnly L secret now next r w =
        .ok (middleware.refuse (middleware.securityHeaders w) 403 text)) ∨
      ∃ claims, middleware.CompanyOnly L secret now next r w =
        next (middleware.authenticated r claims) (middleware.securityHeaders w)) ∧
    ((∃ text, middleware.CandidateOnly L secret now next r w =
        .ok (middleware.refuse (middleware.securityHeaders w) 401 text)) ∨
      (∃ text, middleware.CandidateOnly L secret now next r w =
        .ok (middleware.refuse (middleware.securityHeaders w) 403 text)) ∨
      ∃ claims, middleware.CandidateOnly L secret now next r w =
        next (middleware.authenticated r claims) (middleware.securityHeaders w)) ∧
    ((∀ r' w', ∃ w'', next r' w' = .ok w'') →
      (∃ w', middleware.CompanyOnly L secret now next r w = .ok w') ∧
      (∃ w', middleware.CandidateOnly L secret now next r w = .ok w') ∧
      (∃ w', middleware.AuthMiddleware L secret now
        (middleware.CompanyOnly L secret later next) r w = .ok w') ∧
      (∃ w', middleware.AuthMiddleware L secret now
        (middleware.CandidateOnly L secret later next) r w = .ok w')) := by
  have hco := fun (t : Time) (r' : http.Request) (w' : http.ResponseWriter) =>
    middleware.CompanyOnly_cases L secret t next r' w'
  have hca := fun (t : Time) (r' : http.Request) (w' : http.ResponseWriter) =>
    middleware.CandidateOnly_cases L secret t next r' w'
  refine ⟨?_, hco now r w, hca now r w, ?_⟩
  · rcases middleware.AuthMiddleware_cases L secret now r w with h | ⟨claims, h⟩
    · exact Or.inl h
    · exact Or.inr ⟨claims, h, (middleware.authenticated_values r claims).1,
        (middleware.authenticated_values r claims).2,
        middleware.userTypeOf_authenticated r claims⟩
  · intro hnext
    have rco : ∀ t r' w', ∃ w'', middleware.CompanyOnly L secret t next r' w' = .ok w'' := by
      intro t r' w'
      apply middleware.returns_of_cases next hnext _ w'
      rcases hco t r' w' with h | h | ⟨c, h⟩
      · exact Or.inl h
      · exact Or.inr (Or.inl h)
      · exact Or.inr (Or.inr ⟨_, h⟩)
    have rca : ∀ t r' w', ∃ w'', middleware.CandidateOnly L secret t next r' w' = .ok w'' := by
      intro t r' w'
      apply middleware.returns_of_cases next hnext _ w'
      rcases hca t r' w' with h | h | ⟨c, h⟩
      · exact Or.inl h
      · exact Or.inr (Or.inl h)
      · exact Or.inr (Or.inr ⟨_, h⟩)
    refine ⟨rco now r w, rca now r w, ?_, ?_⟩
    · rcases middleware.AuthMiddleware_cases L secret now r w with ⟨text, h⟩ | ⟨claims, h⟩
      · exact ⟨_, h _⟩
      · rw [h]; exact rco later _ _
    · rcases middleware.AuthMiddleware_cases L secret now r w with ⟨text, h⟩ | ⟨claims, h⟩
      · exact ⟨_, h _⟩
      · rw [h]; exact rca later _ _

/-- C30 witness: the sample handler returns normally on every request, and the request
carrying the sample session token passes `AuthMiddleware` around `CompanyOnly`, as the
routes are wrapped, without a panic; validated a second later, too. -/
theorem kind_assertion_never_fails_witness :
    (∀ r' w', ∃ w'', sampleHandler r' w' = .ok w'') ∧
    (∃ w', middleware.CompanyOnly refLib sampleSecret 0 sampleHandler
      (sampleBearer sampleSessionToken) sampleWriter = .ok w') ∧
    (∃ w', middleware.AuthMiddleware refLib sampleSecret 0
      (middleware.CompanyOnly refLib sampleSecret time.Second sampleHandler)
      (sampleBearer sampleSessionToken) sampleWriter = .ok w') ∧
    (∃ w', middleware.AuthMiddleware refLib sampleSecret 0
      (middleware.CandidateOnly refLib sampleSecret time.Second sampleHandler)
      (sampleBearer sampleSessionToken) sampleWriter = .ok w') :=
  have h := (kind_assertion_never_fails refLib sampleSecret 0 time.Second sampleHandler
    (sampleBearer sampleSessionToken) sampleWriter).2.2.2 fun _ _ => ⟨_, rfl⟩
  ⟨fun _ _ => ⟨_, rfl⟩, h.1, h.2.2.1, h.2.2.2⟩

end EmpregaBem
